import Mathlib

/-! # RethinkRAW: edit / export orchestration

A shallow embedding of `edit.go`, `meta.go`, `util.go` and of the task of a batch item in
`http_serverBatch.go`.

* Go functions that touch the filesystem or an external tool are functions in the state
  monad `Go` over a `World`: the content of every path plus the log of every call made to
  the operating system or to a collaborator, in order.
* A Go `error` is `Option Error` (`none` is `nil`); a Go result pair stays a pair.
* Code of the program that is not part of the embedded files (the workspace, the converter,
  the exiftool server, the XMP package) is a field of `Env`: the theorems hold for every
  behaviour of these collaborators unless a hypothesis says otherwise.
* `float64` is IEEE 754 binary64: every operation rounds its exact result to the nearest
  representable value; a conversion to `int` that Go leaves to the implementation is a
  parameter.
* `context.Context` (cancellation) and `log.Print` have no counterpart.
-/

namespace RethinkRAW

/-! ## float64

The values of Go's `float64` (IEEE 754 binary64) and the operations the program uses. Every
operation computes the exact result and rounds it to the nearest `float64`, ties to the even
mantissa, one operation at a time (no fused multiply-add). The two zeros are one value: the
program never divides by a `float64` zero other than the conversion of the `int` 0, which is
the positive zero, so the sign of a zero cannot reach a result. -/

/-- A `float64`: a finite value (`fin q` is a `float64` when `q` is representable; every
operation returns representable values), an infinity, or not-a-number. -/
inductive float64 where
  | fin (q : ℚ)
  | inf (negative : Bool)
  | nan
deriving DecidableEq

/-- Rounding to the nearest integer, ties to even. -/
def roundEven (t : ℚ) : ℤ :=
  if t - ⌊t⌋ < 1 / 2 then ⌊t⌋
  else if 1 / 2 < t - ⌊t⌋ then ⌊t⌋ + 1
  else if ⌊t⌋ % 2 = 0 then ⌊t⌋ else ⌊t⌋ + 1

/-- The unit in the last place of the `float64` next to `q`: 53 bits of mantissa, and the
smallest exponent for the subnormal numbers. -/
def ulp (q : ℚ) : ℚ := 2 ^ (max (Int.log 2 |q|) (-1022) - 52)

/-- The multiple of the unit in the last place that is nearest to `q`, ties to even. -/
def nearest (q : ℚ) : ℚ := roundEven (q / ulp q) * ulp q

/-- The `float64` nearest to the exact result `q` of an operation; a result beyond the largest
`float64` is an infinity. -/
def float64.round (q : ℚ) : float64 :=
  if |nearest q| < 2 ^ 1024 then .fin (nearest q) else .inf (decide (q < 0))

/-- The conversion `float64(n)` of an `int`. -/
def float64.ofInt (n : Int) : float64 := float64.round n

/-- The product `x * y` of two `float64`. -/
def float64.mul : float64 → float64 → float64
  | .fin a, .fin b => float64.round (a * b)
  | .fin a, .inf s => if a = 0 then .nan else .inf (xor (decide (a < 0)) s)
  | .inf s, .fin b => if b = 0 then .nan else .inf (xor s (decide (b < 0)))
  | .inf s, .inf t => .inf (xor s t)
  | _, _ => .nan

/-- The quotient `x / y` of two `float64`; a zero divisor is the positive zero. -/
def float64.div : float64 → float64 → float64
  | .fin a, .fin b =>
    if b = 0 then
      if a = 0 then .nan else .inf (decide (a < 0))
    else float64.round (a / b)
  | .fin _, .inf _ => .fin 0
  | .inf s, .fin b => .inf (xor s (decide (b < 0)))
  | _, _ => .nan

/-- The sum `x + y` of two `float64`. -/
def float64.add : float64 → float64 → float64
  | .fin a, .fin b => float64.round (a + b)
  | .fin _, .inf s => .inf s
  | .inf s, .fin _ => .inf s
  | .inf s, .inf t => if s = t then .inf s else .nan
  | _, _ => .nan

/-- The comparison `x < y` of two `float64`: false when one of them is not a number. -/
def float64.lt : float64 → float64 → Bool
  | .fin a, .fin b => decide (a < b)
  | .fin _, .inf s => !s
  | .inf s, .fin _ => s
  | .inf s, .inf t => s && !t
  | _, _ => false

/-- The comparison `x == y` of two `float64`: false when one of them is not a number. -/
def float64.eq : float64 → float64 → Bool
  | .fin a, .fin b => decide (a = b)
  | .inf s, .inf t => s == t
  | _, _ => false

/-- The function `math.Sqrt`: the square root, correctly rounded. -/
def math.Sqrt : float64 → float64
  | .fin q =>
    if q < 0 then .nan
    else if q = 0 then .fin 0
    else
      -- the root lies in the binade of `2 ^ e`
      let e : ℤ := Int.log 2 q / 2
      let u : ℚ := 2 ^ (e - 52)
      -- the root is `√m * u`
      let m : ℚ := q / (u * u)
      let s : ℕ := Nat.sqrt ⌊m⌋.toNat
      let n : ℕ :=
        if m < (s + 1 / 2) ^ 2 then s
        else if (s + 1 / 2) ^ 2 < m then s + 1
        else if s % 2 = 0 then s else s + 1
      .fin (n * u)
  | .inf false => .inf false
  | _ => .nan

/-! ## Data model -/

/-- A Go `[]byte`: every entry is one byte value. -/
abbrev Bytes := List Nat

/-- The byte string of an ASCII literal. -/
def ascii (s : String) : Bytes := s.data.map Char.toNat

/-- The errno of "no such file or directory". -/
def ENOENT : Nat := 2

/-- Go error values, as far as the program tells them apart. -/
inductive Error where
  /-- the sentinel `os.ErrNotExist` -/
  | ErrNotExist
  /-- a `*fs.PathError` wrapping `syscall.Errno(errno)` -/
  | PathError (errno : Nat)
  /-- a `*os.LinkError` wrapping `syscall.Errno(errno)` -/
  | LinkError (errno : Nat)
  /-- any other error (a failed collaborator, ...) -/
  | New (msg : String)
deriving DecidableEq, Repr

/-- The test `errors.Is(err, fs.ErrNotExist)`, which on these errors is also `os.IsNotExist(err)`. -/
def Error.isNotExist : Error → Bool
  | .ErrNotExist => true
  | .PathError n => n == ENOENT
  | .LinkError n => n == ENOENT
  | .New _ => false

/-- The test `errors.Is(err, fs.ErrNotExist)` on a possibly nil error. -/
def errorsIsNotExist : Option Error → Bool
  | none => false
  | some e => e.isNotExist

/-- Modelled from the spec: the edit settings record (`xmpSettings`, declared outside the
embedded files); only the two fields the embedded code touches are kept. -/
structure xmpSettings where
  WhiteBalance : String := ""
  Orientation : Int := 0
deriving DecidableEq, Repr

/-- The record `exportSettings` of `edit.go`. -/
structure exportSettings where
  DNG : Bool := false
  Preview : String := ""
  Lossy : Bool := false
  Embed : Bool := false
  Both : Bool := false
  Resample : Bool := false
  Quality : Int := 0
  Fit : String := ""
  Long : float64 := .fin 0
  Short : float64 := .fin 0
  Width : float64 := .fin 0
  Height : float64 := .fin 0
  DimUnit : String := ""
  Density : Int := 0
  DenUnit : String := ""
  MPixels : float64 := .fin 0
deriving DecidableEq

/-- Modelled from the spec: the workspace handle (declared outside the embedded files). The
methods `orig()`, `origXMP()`, `temp()`, `edit()`, `jpeg()` and `pixels()` return paths and are
fields here, next to the two flags the handle records when it is opened. -/
structure workspace where
  orig : String
  origXMP : String
  temp : String
  edit : String
  jpeg : String
  pixels : String
  hasEdit : Bool
  hasPixels : Bool
deriving DecidableEq, Repr

/-- The type `image.Point`. -/
structure Point where
  X : Int
  Y : Int
deriving DecidableEq, Repr

/-- One call that leaves the program: to the operating system or to a collaborator. -/
inductive Call where
  | ReadFile (name : String)
  | WriteFile (name : String) (data : Bytes)
  | Stat (name : String)
  | Rename (oldpath newpath : String)
  | Remove (name : String)
  | Open (name : String)
  | Create (name : String)
  | Copy (dst src : String)
  | Close (name : String)
  | Command (opts : List String)
  | openWorkspace (path : String)
  | close (wk : workspace)
  | editXMP (path : String) (xmp : xmpSettings)
  | extractXMP (path dest : String)
  | runDNGConverter (input output : String) (side : Int) (exp : Option exportSettings)
  | previewJPEG (path : String)
  | exportJPEG (path : String)
  | resampleJPEG (data : Bytes) (exp : exportSettings)
  | dngPreview (path : String)
  | osutilMove (src dst : String)
  | osutilCopy (src dst : String)
deriving DecidableEq

/-- The content of every path: `none` where no file exists. Directories are not modelled. -/
abbrev FS := String → Option Bytes

/-- The filesystem with the file at `name` set to `data`. -/
def FS.write (fs : FS) (name : String) (data : Bytes) : FS :=
  fun p => if p = name then some data else fs p

/-- The filesystem without a file at `name`. -/
def FS.erase (fs : FS) (name : String) : FS :=
  fun p => if p = name then none else fs p

/-- The state the program runs in. -/
structure World where
  fs : FS
  log : List Call

/-- Go code with side effects. -/
abbrev Go := StateM World

/-- What the program does not control. Every collaborator may read and change the filesystem. -/
structure Env where
  /-- the value of `runtime.GOOS` -/
  GOOS : String
  /-- the function `os.IsPathSeparator` -/
  IsPathSeparator : Char → Bool
  /-- the function `filepath.Base` -/
  Base : String → String
  /-- an operating-system call that fails for a reason other than a missing file -/
  fault : Call → Option Error
  /-- the function `xmp.IsSidecarForExt` on the content of a sidecar -/
  IsSidecarForExt : Bytes → String → Bool
  /-- the method `exifserver.Command` -/
  Command : List String → FS → (Bytes × Option Error) × FS
  openWorkspace : String → FS → (workspace × Option Error) × FS
  close : workspace → FS → FS
  editXMP : String → xmpSettings → FS → Option Error × FS
  extractXMP : String → String → FS → Option Error × FS
  runDNGConverter : String → String → Int → Option exportSettings → FS → Option Error × FS
  previewJPEG : String → FS → (Bytes × Option Error) × FS
  exportJPEG : String → FS → (Bytes × Option Error) × FS
  resampleJPEG : Bytes → exportSettings → FS → (Bytes × Option Error) × FS
  dngPreview : String → FS → String × FS
  /-- the function `osutil.Move` -/
  Move : String → String → FS → Option Error × FS
  /-- the function `osutil.Copy` -/
  Copy : String → String → FS → Option Error × FS

/-! ## The operating system -/

/-- Appends a call to the log. -/
def record (c : Call) : Go Unit :=
  modify fun w => { w with log := w.log ++ [c] }

/-- Runs a collaborator on the filesystem. -/
def collab {α : Type} (c : Call) (f : FS → α × FS) : Go α := do
  record c
  let w ← get
  let r := f w.fs
  set { w with fs := r.2 }
  return r.1

/-- The injected failure of a call. The environment cannot fake a missing file: whether a
file exists is decided by the filesystem alone. -/
def faultOf (env : Env) (c : Call) : Option Error :=
  match env.fault c with
  | some e => if e.isNotExist then none else some e
  | none => none

/-- The function `os.ReadFile`. -/
def os.ReadFile (env : Env) (name : String) : Go (Bytes × Option Error) := do
  record (.ReadFile name)
  match faultOf env (.ReadFile name) with
  | some e => return ([], some e)
  | none =>
    match (← get).fs name with
    | some data => return (data, none)
    | none => return ([], some (.PathError ENOENT))

/-- The function `os.WriteFile`: creates or truncates the file and writes the data. -/
def os.WriteFile (env : Env) (name : String) (data : Bytes) : Go (Option Error) := do
  record (.WriteFile name data)
  match faultOf env (.WriteFile name data) with
  | some e => return some e
  | none =>
    modify fun w => { w with fs := w.fs.write name data }
    return none

/-- The function `os.Stat`, of which the program only uses the error. -/
def os.Stat (env : Env) (name : String) : Go (Option Error) := do
  record (.Stat name)
  match faultOf env (.Stat name) with
  | some e => return some e
  | none =>
    match (← get).fs name with
    | some _ => return none
    | none => return some (.PathError ENOENT)

/-- The function `os.Rename`: on success `newpath` holds what `oldpath` held and `oldpath` is
gone; a failed rename changes nothing. A failure that the environment injects is returned as
it is (also a not-found one: a directory of one of the paths is missing); the empty path names
no file. -/
def os.Rename (env : Env) (oldpath newpath : String) : Go (Option Error) := do
  record (.Rename oldpath newpath)
  match env.fault (.Rename oldpath newpath) with
  | some e => return some e
  | none =>
    if oldpath = "" ∨ newpath = "" then
      return some (.LinkError ENOENT)
    else
      match (← get).fs oldpath with
      | none => return some (.LinkError ENOENT)
      | some data =>
        modify fun w => { w with fs := (w.fs.erase oldpath).write newpath data }
        return none

/-- The function `os.Remove`. A failure that the environment injects is returned as it is; an
injected not-found failure stands for a file that something else removed in the meantime: the
file is gone when the call returns. -/
def os.Remove (env : Env) (name : String) : Go (Option Error) := do
  record (.Remove name)
  match env.fault (.Remove name) with
  | some e =>
    if e.isNotExist then
      modify fun w => { w with fs := w.fs.erase name }
    return some e
  | none =>
    match (← get).fs name with
    | none => return some (.PathError ENOENT)
    | some _ =>
      modify fun w => { w with fs := w.fs.erase name }
      return none

/-- The function `os.IsNotExist`. -/
def os.IsNotExist (err : Option Error) : Bool :=
  match err with
  | none => false
  | some e => e.isNotExist

/-- The function `os.Open`; the open file is known by its path. -/
def os.Open (env : Env) (name : String) : Go (Option Error) := do
  record (.Open name)
  match faultOf env (.Open name) with
  | some e => return some e
  | none =>
    match (← get).fs name with
    | some _ => return none
    | none => return some (.PathError ENOENT)

/-- The function `os.Create`: creates the file or truncates it. -/
def os.Create (env : Env) (name : String) : Go (Option Error) := do
  record (.Create name)
  match faultOf env (.Create name) with
  | some e => return some e
  | none =>
    modify fun w => { w with fs := w.fs.write name [] }
    return none

/-- The function `io.Copy` between two open files: appends what `src` holds to `dst`. A
copy that fails writes nothing. -/
def io.Copy (env : Env) (dst src : String) : Go (Option Error) := do
  record (.Copy dst src)
  match faultOf env (.Copy dst src) with
  | some e => return some e
  | none =>
    modify fun w =>
      { w with fs := w.fs.write dst ((w.fs dst).getD [] ++ (w.fs src).getD []) }
    return none

/-- The method `Close` of an open file. -/
def File.Close (env : Env) (name : String) : Go (Option Error) := do
  record (.Close name)
  return faultOf env (.Close name)

/-- Go's `defer`: `cleanup` runs when `body` has returned. -/
def defer {α : Type} (cleanup : Go Unit) (body : Go α) : Go α := do
  let r ← body
  cleanup
  return r

/-! ## Paths and strings -/

/-- The scan of `filepath.Ext`, from the last character backwards: `acc` is what has been
passed over. -/
def extScan (sep : Char → Bool) : List Char → List Char → List Char
  | [], _ => []
  | c :: cs, acc =>
    if sep c then [] else if c = '.' then c :: acc else extScan sep cs (c :: acc)

/-- The function `filepath.Ext`: the suffix beginning at the final dot of the final element
of the path, empty if there is no dot. -/
def filepath.Ext (env : Env) (path : String) : String :=
  String.mk (extScan env.IsPathSeparator path.data.reverse [])

/-- The function `strings.TrimSuffix`. -/
def strings.TrimSuffix (s suffix : String) : String :=
  if suffix.data.isSuffixOf s.data then
    String.mk (s.data.take (s.data.length - suffix.data.length))
  else s

/-- The function `strings.EqualFold`, with the case folding of the ASCII letters: no
character outside ASCII folds to a letter of `.dng`, the only string the program compares
with. -/
def strings.EqualFold (s t : String) : Bool :=
  s.data.map Char.toLower == t.data.map Char.toLower

/-! ## meta.go -/

/-- The method `exifserver.Command`. -/
def exifserver.Command (env : Env) (opts : List String) : Go (Bytes × Option Error) :=
  collab (.Command opts) (env.Command opts)

/-- The function `fixMetaDNG`. -/
def fixMetaDNG (env : Env) (orig dest name : String) : Go (Option Error) := do
  let mut opts := ["-tagsFromFile", orig, "-fixBase",
    "-MakerNotes", "-OriginalRawFileName-=" ++ env.Base orig]
  if name ≠ "" then
    opts := opts ++ ["-OriginalRawFileName=" ++ env.Base name]
  opts := opts ++ ["-overwrite_original", dest]
  let (_, err) ← exifserver.Command env opts
  return err

/-- The function `injectXMP`. -/
def injectXMP (env : Env) (orig dest : String) : Go (Option Error) := do
  let opts := ["-tagsFromFile", orig,
    "-overwrite_original",
    dest]
  let (_, err) ← exifserver.Command env opts
  return err

/-- The function `fixMetaJPEG`. -/
def fixMetaJPEG (env : Env) (orig dest : String) : Go (Option Error) := do
  let opts := ["-tagsFromFile", orig,
    "-fixBase",
    "-CommonIFD0",
    "-ExifIFD:all",
    "-GPS:all",
    "-IPTC:all",
    "-XMP-dc:all",
    "-XMP-dc:Format=",
    "-fast",
    "-overwrite_original",
    dest]
  let (_, err) ← exifserver.Command env opts
  return err

/-- The function `dngHasEdits`. -/
def dngHasEdits (env : Env) (path : String) : Go Bool := do
  let (out, err) ← exifserver.Command env ["-XMP-photoshop:all", path]
  return err = none && out.length > 0

/-- The function `dropCR` of `bufio`, on a reversed line: drops one trailing carriage
return. -/
def dropCR : Bytes → Bytes
  | 13 :: line => line.reverse
  | line => line.reverse

/-- The tokens of a `bufio.Scanner` with the default line splitter: the lines of the input
without their end-of-line marker (a newline, with one carriage return before it dropped); a
last line without newline counts if it is not empty. The scan stops at a line that does not
fit the scanner's buffer of 65536 bytes. `acc` is the current line, reversed. -/
def scanLines : Bytes → Bytes → List Bytes
  | [], acc => if acc ≠ [] ∧ acc.length < 65536 then [dropCR acc] else []
  | b :: rest, acc =>
    if b = 10 then
      if acc.length < 65536 then
        dropCR acc :: scanLines rest []
      else []
    else scanLines rest (b :: acc)

/-- The loop of `cameraMatchingWhiteBalance` over the scanned lines. -/
def whiteBalanceOf : List Bytes → String
  | [] => "As Shot"
  | wb :: rest =>
    if wb = ascii "Auto" then "Auto"
    else if wb = ascii "Daylight" then "Daylight"
    else if wb = ascii "Cloudy" then "Cloudy"
    else if wb = ascii "Shade" then "Shade"
    else if wb = ascii "Tungsten" then "Tungsten"
    else if wb = ascii "Fluorescent" then "Fluorescent"
    else if wb = ascii "Flash" then "Flash"
    else if wb = ascii "Sunny" then "Daylight"
    else if wb = ascii "Overcast" then "Cloudy"
    else if wb = ascii "Incandescent" then "Tungsten"
    else whiteBalanceOf rest

/-- The function `cameraMatchingWhiteBalance`. -/
def cameraMatchingWhiteBalance (env : Env) (path : String) : Go String := do
  let (out, err) ← exifserver.Command env
    ["-duplicates", "-short3", "-fast", "-ExifIFD:WhiteBalance", "-MakerNotes:WhiteBalance", path]
  if err ≠ none then
    return ""
  return whiteBalanceOf (scanLines out [])

/-! ## Collaborators -/

/-- The function `openWorkspace`. -/
def openWorkspace (env : Env) (path : String) : Go (workspace × Option Error) :=
  collab (.openWorkspace path) (env.openWorkspace path)

/-- The method `close` of a workspace. -/
def workspace.close (env : Env) (wk : workspace) : Go Unit :=
  collab (.close wk) (fun fs => ((), env.close wk fs))

/-- The function `editXMP`. -/
def editXMP (env : Env) (path : String) (xmp : xmpSettings) : Go (Option Error) :=
  collab (.editXMP path xmp) (env.editXMP path xmp)

/-- The function `extractXMP`. -/
def extractXMP (env : Env) (path dest : String) : Go (Option Error) :=
  collab (.extractXMP path dest) (env.extractXMP path dest)

/-- The function `runDNGConverter`; `exp` is `none` for a nil pointer. -/
def runDNGConverter (env : Env) (input output : String) (side : Int)
    (exp : Option exportSettings) : Go (Option Error) :=
  collab (.runDNGConverter input output side exp) (env.runDNGConverter input output side exp)

/-- The function `previewJPEG`. -/
def previewJPEG (env : Env) (path : String) : Go (Bytes × Option Error) :=
  collab (.previewJPEG path) (env.previewJPEG path)

/-- The function `exportJPEG`. -/
def exportJPEG (env : Env) (path : String) : Go (Bytes × Option Error) :=
  collab (.exportJPEG path) (env.exportJPEG path)

/-- The function `resampleJPEG`. -/
def resampleJPEG (env : Env) (data : Bytes) (exp : exportSettings) : Go (Bytes × Option Error) :=
  collab (.resampleJPEG data exp) (env.resampleJPEG data exp)

/-- The function `dngPreview`. -/
def dngPreview (env : Env) (path : String) : Go String :=
  collab (.dngPreview path) (env.dngPreview path)

/-! ## edit.go: sidecar resolution -/

/-- The function `loadSidecar`. -/
def loadSidecar (env : Env) (src dst : String) : Go (Option Error) := do
  let mut data : Bytes := []
  let mut err : Option Error := some .ErrNotExist
  let ext := filepath.Ext env src
  if ext ≠ "" then
    -- if NAME.xmp is there for NAME.EXT, use it
    let name := strings.TrimSuffix src ext ++ ".xmp"
    (data, err) ← os.ReadFile env name
    if err = none ∧ ¬ env.IsSidecarForExt data ext then
      err := some .ErrNotExist
  if errorsIsNotExist err then
    -- if NAME.EXT.xmp is there for NAME.EXT, use it
    (data, err) ← os.ReadFile env (src ++ ".xmp")
    if err = none ∧ ¬ env.IsSidecarForExt data ext then
      err := some .ErrNotExist
  if err = none then
    -- copy xmp file
    err ← os.WriteFile env dst data
  if err = none ∨ errorsIsNotExist err then
    -- extract embed XMP data
    return ← extractXMP env src dst
  return err

/-- The function `destSidecar`. -/
def destSidecar (env : Env) (src : String) : Go (String × Option Error) := do
  let ext := filepath.Ext env src
  if ext ≠ "" then
    -- if NAME.xmp is there for NAME.EXT, use it
    let name := strings.TrimSuffix src ext ++ ".xmp"
    let (data, err) ← os.ReadFile env name
    if err = none ∧ env.IsSidecarForExt data ext then
      return (name, none)
    if ¬ errorsIsNotExist err then
      return ("", err)
  -- if NAME.EXT.xmp exists, use it
  let err ← os.Stat env (src ++ ".xmp")
  if err = none then
    return (src ++ ".xmp", none)
  else if ¬ errorsIsNotExist err then
    return ("", err)
  -- if NAME.DNG was edited, use it
  if strings.EqualFold ext ".dng" then
    if ← dngHasEdits env src then
      return (src, none)
  -- fallback to NAME.xmp
  return (strings.TrimSuffix src ext ++ ".xmp", none)

/-! ## util.go -/

/-- The constant `MaxInt`, on a 64-bit platform. -/
def MaxInt : Int := 2 ^ 63 - 1

/-- The constant `MinInt`. -/
def MinInt : Int := -MaxInt - 1

/-- The function `copyFile`. -/
def copyFile (env : Env) (src dst : String) : Go (Option Error) := do
  let err ← os.Open env src
  if err ≠ none then
    return err
  defer (do let _ ← File.Close env src) do
    let err ← os.Create env dst
    if err ≠ none then
      return err
    let mut err ← io.Copy env dst src
    -- the deferred function
    let cerr ← File.Close env dst
    if err = none then
      err := cerr
    return err

/-- The function `isNotSameDevice`. -/
def isNotSameDevice (env : Env) (err : Option Error) : Bool :=
  match err with
  | some (.LinkError errno) =>
    if env.GOOS = "windows" then
      errno == 0x11 -- ERROR_NOT_SAME_DEVICE
    else
      errno == 0x12 -- EXDEV
  | _ => false

/-- The function `moveFile`. -/
def moveFile (env : Env) (src dst : String) : Go (Option Error) := do
  let err ← os.Rename env src dst
  if isNotSameDevice env err then
    let err ← copyFile env src dst
    if err ≠ none then
      return err
    let err ← os.Remove env src
    if os.IsNotExist err then
      return none
    else
      return err
  return err

/-! ## edit.go: the pipeline -/

/-- The function `osutil.Move`. -/
def osutil.Move (env : Env) (src dst : String) : Go (Option Error) :=
  collab (.osutilMove src dst) (env.Move src dst)

/-- The function `osutil.Copy`. -/
def osutil.Copy (env : Env) (src dst : String) : Go (Option Error) :=
  collab (.osutilCopy src dst) (env.Copy src dst)

/-- The function `saveEdit`. -/
def saveEdit (env : Env) (path : String) (xmp : xmpSettings) : Go (Option Error) := do
  let (wk, err) ← openWorkspace env path
  if err ≠ none then
    return err
  defer (wk.close env) do
    let mut xmp := xmp
    if xmp.WhiteBalance = "Camera Matching…" then
      xmp := { xmp with WhiteBalance := ← cameraMatchingWhiteBalance env wk.orig }

    let err ← editXMP env wk.origXMP xmp
    if err ≠ none then
      return err

    let (dest, err) ← destSidecar env path
    if err ≠ none then
      return err

    let mut err := err
    if path = dest then
      let exp : exportSettings := {
        DNG := true,
        Embed := true,
        Preview := ← dngPreview env wk.orig }

      err ← runDNGConverter env wk.orig wk.temp 0 (some exp)
      if err ≠ none then
        return err

      err ← osutil.Move env wk.temp (dest ++ ".bak")
    else
      err ← osutil.Copy env wk.origXMP (dest ++ ".bak")

    if err ≠ none then
      return err
    return ← os.Rename env (dest ++ ".bak") dest

/-- The function `previewEdit`. -/
def previewEdit (env : Env) (path : String) (size : Int) (xmp : xmpSettings) :
    Go (Bytes × Option Error) := do
  let (wk, err) ← openWorkspace env path
  if err ≠ none then
    return ([], err)
  defer (wk.close env) do
    let mut xmp := xmp
    if xmp.WhiteBalance = "Camera Matching…" then
      xmp := { xmp with WhiteBalance := ← cameraMatchingWhiteBalance env wk.orig }

    if size = 0 then
      -- use the original RAW file for a full resolution preview
      let err ← editXMP env wk.origXMP xmp
      if err ≠ none then
        return ([], err)

      let err ← runDNGConverter env wk.orig wk.temp 0 (some {})
      if err ≠ none then
        return ([], err)

      return ← previewJPEG env wk.temp
    else if wk.hasEdit then
      -- use edit.dng (downscaled to at most 2560 on the widest side)
      let err ← editXMP env wk.edit xmp
      if err ≠ none then
        return ([], err)

      let err ← runDNGConverter env wk.edit wk.temp size none
      if err ≠ none then
        return ([], err)

      return ← previewJPEG env wk.temp
    else
      -- create edit.dng (downscaled to 2560 on the widest side)
      let err ← editXMP env wk.origXMP xmp
      if err ≠ none then
        return ([], err)

      let err ← runDNGConverter env wk.orig wk.edit 2560 none
      if err ≠ none then
        return ([], err)

      return ← previewJPEG env wk.edit

/-- The function `exportEdit`. -/
def exportEdit (env : Env) (path : String) (xmp : xmpSettings) (exp : exportSettings) :
    Go (Bytes × Option Error) := do
  let (wk, err) ← openWorkspace env path
  if err ≠ none then
    return ([], err)
  defer (wk.close env) do
    let mut xmp := xmp
    if xmp.WhiteBalance = "Camera Matching…" then
      xmp := { xmp with WhiteBalance := ← cameraMatchingWhiteBalance env wk.orig }

    let err ← editXMP env wk.origXMP xmp
    if err ≠ none then
      return ([], err)

    let err ← runDNGConverter env wk.orig wk.temp 0 (some exp)
    if err ≠ none then
      return ([], err)

    if exp.DNG then
      let err ← fixMetaDNG env wk.orig wk.temp path
      if err ≠ none then
        return ([], err)
      return ← os.ReadFile env wk.temp
    else
      let (data, err) ← exportJPEG env wk.temp
      if err ≠ none then
        return ([], err)
      if exp.Resample then
        return ← resampleJPEG env data exp

      let err ← os.WriteFile env wk.jpeg data
      if err ≠ none then
        return ([], err)
      let err ← injectXMP env wk.temp wk.jpeg
      if err ≠ none then
        return ([], err)
      let err ← fixMetaJPEG env wk.orig wk.jpeg
      if err ≠ none then
        return ([], err)
      return ← os.ReadFile env wk.jpeg

/-! ## edit.go: export geometry -/

/-- The product of two `int`s, which wraps around. -/
def mulInt (a b : Int) : Int :=
  (a * b + 2 ^ 63) % 2 ^ 64 - 2 ^ 63

/-- The conversion `int(x)` of a `float64`: the fraction is discarded (truncation towards
zero). Where the value is not in the range of `int`, or is not a number, Go leaves the result
to the implementation: it is `convert x`, for an arbitrary `convert`. -/
def float64.toInt (convert : float64 → Int) (x : float64) : Int :=
  match x with
  | .fin q =>
    let t : Int := if 0 ≤ q then ⌊q⌋ else ⌈q⌉
    if MinInt ≤ t ∧ t ≤ MaxInt then t else convert x
  | _ => convert x

/-- The closure `round` of `FitImage`. -/
def FitImage.round (convert : float64 → Int) (x : float64) : Int :=
  if float64.eq x (.fin 0) then
    MaxInt
  else
    let i := float64.toInt convert (float64.add x (.fin (1 / 2)))
    if i < 16 then
      16
    else
      i

/-- The method `FitImage` of `exportSettings`; `convert` is what the implementation makes of
a conversion to `int` that is out of range. -/
def FitImage (convert : float64 → Int) (ex : exportSettings) (size : Point) : Point :=
  if ex.Fit = "mpix" then
    let mul := math.Sqrt (float64.div (float64.mul (.fin 1000000) ex.MPixels)
      (float64.ofInt (mulInt size.X size.Y)))
    if size.X > size.Y then
      { X := MaxInt,
        Y := float64.toInt convert (float64.mul mul (float64.ofInt size.Y)) }
    else
      { X := float64.toInt convert (float64.mul mul (float64.ofInt size.X)),
        Y := MaxInt }
  else
    let mul : float64 :=
      if ex.DimUnit ≠ "px" then
        let density := float64.ofInt ex.Density
        if ex.DimUnit = "in" then
          if ex.DenUnit = "ppi" then
            density
          else
            float64.mul density (float64.round 2.54)
        else
          if ex.DenUnit = "ppi" then
            float64.div density (float64.round 2.54)
          else
            density
      else .fin 1

    if ex.Fit = "dims" then
      let (long, short) :=
        if float64.lt (.fin 0) ex.Long ∧ float64.lt ex.Long ex.Short then (ex.Short, ex.Long)
        else (ex.Long, ex.Short)

      if size.X > size.Y then
        { X := FitImage.round convert (float64.mul mul long),
          Y := FitImage.round convert (float64.mul mul short) }
      else
        { X := FitImage.round convert (float64.mul mul short),
          Y := FitImage.round convert (float64.mul mul long) }
    else
      { X := FitImage.round convert (float64.mul mul ex.Width),
        Y := FitImage.round convert (float64.mul mul ex.Height) }

/-- The variable `mul` of the literal modes of `FitImage`: the pixels per unit of length. -/
def FitImage.mul (ex : exportSettings) : float64 :=
  if ex.DimUnit ≠ "px" then
    let density := float64.ofInt ex.Density
    if ex.DimUnit = "in" then
      if ex.DenUnit = "ppi" then
        density
      else
        float64.mul density (float64.round 2.54)
    else
      if ex.DenUnit = "ppi" then
        float64.div density (float64.round 2.54)
      else
        density
  else .fin 1

/-- The two values that the literal modes of `FitImage` hand to `round` after the conversion
to pixels: the one of axis X and the one of axis Y. -/
def FitImage.targets (ex : exportSettings) (size : Point) : float64 × float64 :=
  if ex.Fit = "dims" then
    let (long, short) :=
      if float64.lt (.fin 0) ex.Long ∧ float64.lt ex.Long ex.Short then (ex.Short, ex.Long)
      else (ex.Long, ex.Short)
    if size.X > size.Y then (long, short) else (short, long)
  else (ex.Width, ex.Height)

/-! ## http_serverBatch.go -/

/-- Modelled from the spec: a photo of a batch (`batchPhoto`, declared outside the embedded
files), known by its path. -/
structure batchPhoto where
  Path : String
deriving DecidableEq, Repr

/-- One call that leaves the task of a batch item. -/
inductive BatchCall where
  | batchProcessPhoto (photo : batchPhoto) (exppath : String) (xmp : xmpSettings)
      (exp : exportSettings)
deriving DecidableEq

/-- The state the task of a batch item runs in: the files, and the exports made so far, in
order. -/
structure BatchWorld where
  fs : FS
  log : List BatchCall

/-- The behaviour of `batchProcessPhoto`, which is declared outside the embedded files: the
export of one photo into the directory `exppath` returns an error and may change any file. -/
abbrev Exporter := batchPhoto → String → xmpSettings → exportSettings → FS → Option Error × FS

/-- The function `batchProcessPhoto`. -/
def batchProcessPhoto (process : Exporter) (photo : batchPhoto) (exppath : String)
    (xmp : xmpSettings) (exp : exportSettings) : StateM BatchWorld (Option Error) := do
  modify fun w => { w with log := w.log ++ [.batchProcessPhoto photo exppath xmp exp] }
  let w ← get
  let r := process photo exppath xmp exp w.fs
  set { w with fs := r.2 }
  return r.1

/-- The function literal that `serverBatchHandler` hands to `batchProcess`: the task of one
photo of the batch. `exppath`, `xmp` and `exp` are the variables of the handler that the
function literal captures. -/
def serverBatchHandler.task (process : Exporter) (exppath : String) (xmp : xmpSettings)
    (exp : exportSettings) (photo : batchPhoto) : StateM BatchWorld (Option Error) := do
  let mut err ← batchProcessPhoto process photo exppath xmp exp
  if err = none ∧ exp.Both then
    err ← batchProcessPhoto process photo exppath xmp {}
  return err

/-! ## The specification of the export geometry -/

/-- The target of an axis in a literal mode, in the words of the specification: a product of
zero leaves the axis unconstrained, any other product is rounded to the nearest integer and
raised to 16 if it is smaller. -/
def literalTarget (p : ℚ) : Int :=
  if p = 0 then MaxInt else max 16 (round p)

/-- The pixels per unit of length, in the words of the specification: 1 for px, the density
for inches at ppi and centimetres at ppc, the density times 2.54 for inches at ppc, the density
divided by 2.54 for centimetres at ppi; the density is converted to `float64` and each
operation is rounded to `float64`. -/
def pixelsPerUnit (ex : exportSettings) : float64 :=
  if ex.DimUnit = "px" then .fin 1
  else if ex.DimUnit = "in" ∧ ex.DenUnit = "ppi" then float64.ofInt ex.Density
  else if ex.DimUnit = "cm" ∧ ex.DenUnit = "ppc" then float64.ofInt ex.Density
  else if ex.DimUnit = "in" ∧ ex.DenUnit = "ppc" then
    float64.mul (float64.ofInt ex.Density) (float64.round 2.54)
  else if ex.DimUnit = "cm" ∧ ex.DenUnit = "ppi" then
    float64.div (float64.ofInt ex.Density) (float64.round 2.54)
  else .nan

/-- The side that the megapixel fit computes, in the words of the specification: the root of
`1e6 * MPixels / (W * H)` times a side of the source, each operation rounded to `float64`. -/
def megapixelSide (ex : exportSettings) (W H side : Int) : float64 :=
  float64.mul (math.Sqrt (float64.div (float64.mul (.fin 1000000) ex.MPixels)
    (float64.ofInt (W * H)))) (float64.ofInt side)

/-- The larger of two `float64`. -/
def float64.max (a b : float64) : float64 := if float64.lt a b then b else a

/-- The smaller of two `float64`. -/
def float64.min (a b : float64) : float64 := if float64.lt a b then a else b

/-! ## Reading the log -/

/-- Whether a call is a run of the converter. -/
def Call.isConverter : Call → Bool
  | .runDNGConverter _ _ _ _ => true
  | _ => false

/-- Whether a call is a command sent to the exiftool server. -/
def Call.isCommand : Call → Bool
  | .Command _ => true
  | _ => false

/-- The options of the query of `cameraMatchingWhiteBalance`. -/
def whiteBalanceQuery (path : String) : List String :=
  ["-duplicates", "-short3", "-fast", "-ExifIFD:WhiteBalance", "-MakerNotes:WhiteBalance", path]

/-! ## The steps of the edit pipeline -/

/-- The statement `if xmp.WhiteBalance == "Camera Matching…"` that opens the work of `saveEdit`,
`previewEdit` and `exportEdit` on the workspace: the settings, with the white balance of the
camera filled in when they ask for it. -/
def resolveWhiteBalance (env : Env) (orig : String) (xmp : xmpSettings) : Go xmpSettings := do
  let mut xmp := xmp
  if xmp.WhiteBalance = "Camera Matching…" then
    xmp := { xmp with WhiteBalance := ← cameraMatchingWhiteBalance env orig }
  return xmp

/-! ## The contract of the collaborators -/

/-- What `saveEdit` expects of its collaborators: the two exiftool queries change no file, a
successful metadata edit leaves a complete sidecar (`isXMP`) in the file it edits, a successful
conversion leaves a complete rendition (`isDNG`) in its output, and a successful move or copy
leaves in its destination what its source held. -/
structure Contract (env : Env) (isDNG isXMP : Bytes → Prop) : Prop where
  whiteBalance : ∀ path fs, (env.Command (whiteBalanceQuery path) fs).2 = fs
  hasEdits : ∀ path fs, (env.Command ["-XMP-photoshop:all", path] fs).2 = fs
  editXMP : ∀ path xmp fs, (env.editXMP path xmp fs).1 = none →
    ∃ d, (env.editXMP path xmp fs).2 path = some d ∧ isXMP d
  runDNGConverter : ∀ input output side exp fs,
    (env.runDNGConverter input output side exp fs).1 = none →
    ∃ d, (env.runDNGConverter input output side exp fs).2 output = some d ∧ isDNG d
  Move : ∀ src dst fs, (env.Move src dst fs).1 = none → (env.Move src dst fs).2 dst = fs src
  Copy : ∀ src dst fs, (env.Copy src dst fs).1 = none → (env.Copy src dst fs).2 dst = fs src

/-- The collaborators leave the file at `p` alone unless it is the file they are asked to
write. -/
structure Keeps (env : Env) (p : String) : Prop where
  openWorkspace : ∀ path fs, (env.openWorkspace path fs).2 p = fs p
  close : ∀ wk fs, env.close wk fs p = fs p
  dngPreview : ∀ path fs, (env.dngPreview path fs).2 p = fs p
  editXMP : ∀ path xmp fs, path ≠ p → (env.editXMP path xmp fs).2 p = fs p
  runDNGConverter : ∀ input output side exp fs, output ≠ p →
    (env.runDNGConverter input output side exp fs).2 p = fs p
  Move : ∀ src dst fs, src ≠ p → dst ≠ p → (env.Move src dst fs).2 p = fs p
  Copy : ∀ src dst fs, dst ≠ p → (env.Copy src dst fs).2 p = fs p

/-! ## A concrete environment

`photo.xmp` says in its content which extension it was written for; every collaborator
succeeds. -/

/-- A workspace in a scratch directory. -/
def demoWorkspace : workspace :=
  { orig := "tmp/orig.cr2", origXMP := "tmp/orig.xmp", temp := "tmp/temp.dng",
    edit := "tmp/edit.dng", jpeg := "tmp/temp.jpg", pixels := "tmp/pixels.dng",
    hasEdit := false, hasPixels := false }

/-- An environment without failures: a sidecar is for the extension that is its content, and
`extractXMP` writes the metadata embedded in the photo to its destination. -/
def demoEnv : Env where
  GOOS := "linux"
  IsPathSeparator := fun c => c = '/'
  Base := fun p => p
  fault := fun _ => none
  IsSidecarForExt := fun data ext => data = ascii ext
  Command := fun _ fs => (([], none), fs)
  openWorkspace := fun _ fs => ((demoWorkspace, none), fs)
  close := fun _ fs => fs
  editXMP := fun p _ fs => (none, fs.write p (ascii "edited"))
  extractXMP := fun _ dest fs => (none, fs.write dest (ascii "embedded"))
  runDNGConverter := fun _ output _ _ fs => (none, fs.write output (ascii "dng"))
  previewJPEG := fun _ fs => ((ascii "jpeg", none), fs)
  exportJPEG := fun _ fs => ((ascii "jpeg", none), fs)
  resampleJPEG := fun _ _ fs => ((ascii "small", none), fs)
  dngPreview := fun _ fs => ("", fs)
  Move := fun src dst fs =>
    match fs src with
    | some data => (none, (fs.erase src).write dst data)
    | none => (some (.LinkError ENOENT), fs)
  Copy := fun src dst fs =>
    match fs src with
    | some data => (none, fs.write dst data)
    | none => (some (.PathError ENOENT), fs)

/-- The environment `demoEnv` with a metadata editor that fails. -/
def brokenEditEnv : Env :=
  { demoEnv with editXMP := fun _ _ fs => (some (.New "exiftool"), fs) }

/-- The workspace `demoWorkspace` with an edit cache. -/
def cachedWorkspace : workspace := { demoWorkspace with hasEdit := true }

/-- The environment `demoEnv` whose workspace has an edit cache. -/
def cachedEnv : Env :=
  { demoEnv with openWorkspace := fun _ fs => ((cachedWorkspace, none), fs) }

/-- A directory that holds the sidecar `photo.xmp`, written for `photo.cr2`. -/
def demoFS : FS :=
  fun p => if p = "photo.xmp" then some (ascii ".cr2") else none

/-- The environment `demoEnv` on two devices: every rename fails with `EXDEV`. -/
def crossDeviceEnv : Env :=
  { demoEnv with
    fault := fun c =>
      match c with
      | .Rename _ _ => some (.LinkError 0x12)
      | _ => none }

/-- A directory that holds the rendered file `tmp/temp.dng`. -/
def scratchFS : FS :=
  fun p => if p = "tmp/temp.dng" then some (ascii "dng") else none

/-- Export settings for a print 25 inches wide and 4 inches high at 31 pixels per
centimetre. -/
def printSettings : exportSettings :=
  { Fit := "", DimUnit := "in", DenUnit := "ppc", Density := 31, Width := .fin 25, Height := .fin 4 }

/-- Export settings for a picture of 10 by 3 pixels. -/
def thumbSettings : exportSettings :=
  { Fit := "", DimUnit := "px", Width := .fin 10, Height := .fin 3 }

/-- The environment `crossDeviceEnv` in which something else removes every file that the
program is about to delete: each delete reports a missing file. -/
def racingEnv : Env :=
  { demoEnv with
    fault := fun c =>
      match c with
      | .Rename _ _ => some (.LinkError 0x12)
      | .Remove _ => some (.PathError ENOENT)
      | _ => none }

/-- An environment in which the content probe of a DNG reports prior edits. -/
def editedEnv : Env :=
  { demoEnv with Command := fun _ fs => ((ascii "History", none), fs) }

/-- A directory that holds the sidecar `shot.dng.xmp`. -/
def sidecarFS : FS :=
  fun p => if p = "shot.dng.xmp" then some (ascii "anything") else none

/-- A directory without sidecars. -/
def emptyFS : FS := fun _ => none

/-- An exporter that writes a DNG and fails on every JPEG. -/
def demoExporter : Exporter := fun photo exppath _ exp fs =>
  if exp.DNG then (none, fs.write (exppath ++ "/" ++ photo.Path ++ ".dng") (ascii "dng"))
  else (some (.New "jpeg"), fs)

/-- Export settings for the long/short-edge mode, in pixels. -/
def edgeSettings : exportSettings :=
  { Fit := "dims", DimUnit := "px" }

/-! ## Running the monad -/

@[simp] theorem bind_apply {α β : Type} (x : Go α) (f : α → Go β) (w : World) :
    (x >>= f) w = f (x w).1 (x w).2 := rfl

@[simp] theorem stBind_apply {α β : Type} (x : Go α) (f : α → Go β) (w : World) :
    StateT.bind x f w = f (x w).1 (x w).2 := rfl

@[simp] theorem pure_apply {α : Type} (a : α) (w : World) : (pure a : Go α) w = (a, w) := rfl

@[simp] theorem stPure_apply {α : Type} (a : α) (w : World) :
    (StateT.pure a : Go α) w = (a, w) := rfl

@[simp] theorem run_eq {α : Type} (x : Go α) (w : World) : StateT.run x w = x w := rfl

@[simp] theorem record_apply (c : Call) (w : World) :
    record c w = ((), ⟨w.fs, w.log ++ [c]⟩) := rfl

@[simp] theorem collab_apply {α : Type} (c : Call) (f : FS → α × FS) (w : World) :
    collab c f w = ((f w.fs).1, ⟨(f w.fs).2, w.log ++ [c]⟩) := rfl

@[simp] theorem defer_apply {α : Type} (cleanup : Go Unit) (body : Go α) (w : World) :
    defer cleanup body w = ((body w).1, (cleanup (body w).2).2) := rfl

theorem faultOf_isNotExist {env : Env} {c : Call} {e : Error} (h : faultOf env c = some e) :
    e.isNotExist = false := by
  unfold faultOf at h
  split at h
  · split at h <;> simp_all
  · simp at h

@[simp] theorem ReadFile_apply (env : Env) (name : String) (w : World) :
    os.ReadFile env name w =
      (match faultOf env (.ReadFile name) with
        | some e => ([], some e)
        | none =>
          match w.fs name with
          | some data => (data, none)
          | none => ([], some (.PathError ENOENT)),
       ⟨w.fs, w.log ++ [.ReadFile name]⟩) := by
  unfold os.ReadFile
  cases h : faultOf env (.ReadFile name) <;> cases h2 : w.fs name <;>
    simp [get, getThe, MonadStateOf.get, StateT.get, h, h2]

@[simp] theorem WriteFile_apply (env : Env) (name : String) (data : Bytes) (w : World) :
    os.WriteFile env name data w =
      match faultOf env (.WriteFile name data) with
      | some e => (some e, ⟨w.fs, w.log ++ [.WriteFile name data]⟩)
      | none => (none, ⟨w.fs.write name data, w.log ++ [.WriteFile name data]⟩) := by
  unfold os.WriteFile
  cases h : faultOf env (.WriteFile name data) <;> rfl

@[simp] theorem Stat_apply (env : Env) (name : String) (w : World) :
    os.Stat env name w =
      (match faultOf env (.Stat name) with
        | some e => some e
        | none =>
          match w.fs name with
          | some _ => none
          | none => some (.PathError ENOENT),
       ⟨w.fs, w.log ++ [.Stat name]⟩) := by
  unfold os.Stat
  cases h : faultOf env (.Stat name) <;> cases h2 : w.fs name <;>
    simp [get, getThe, MonadStateOf.get, StateT.get, h, h2]

@[simp] theorem Rename_apply (env : Env) (a b : String) (w : World) :
    os.Rename env a b w =
      match env.fault (.Rename a b) with
      | some e => (some e, ⟨w.fs, w.log ++ [.Rename a b]⟩)
      | none =>
        if a = "" ∨ b = "" then (some (.LinkError ENOENT), ⟨w.fs, w.log ++ [.Rename a b]⟩)
        else
          match w.fs a with
          | none => (some (.LinkError ENOENT), ⟨w.fs, w.log ++ [.Rename a b]⟩)
          | some data => (none, ⟨(w.fs.erase a).write b data, w.log ++ [.Rename a b]⟩) := by
  unfold os.Rename
  cases h : env.fault (.Rename a b) <;> by_cases h3 : a = "" ∨ b = "" <;> cases h2 : w.fs a <;>
    simp [get, getThe, MonadStateOf.get, StateT.get, h, h2, h3]
  all_goals rfl

@[simp] theorem Remove_apply (env : Env) (name : String) (w : World) :
    os.Remove env name w =
      match env.fault (.Remove name) with
      | some e =>
        if e.isNotExist then (some e, ⟨w.fs.erase name, w.log ++ [.Remove name]⟩)
        else (some e, ⟨w.fs, w.log ++ [.Remove name]⟩)
      | none =>
        match w.fs name with
        | none => (some (.PathError ENOENT), ⟨w.fs, w.log ++ [.Remove name]⟩)
        | some _ => (none, ⟨w.fs.erase name, w.log ++ [.Remove name]⟩) := by
  unfold os.Remove
  cases h : env.fault (.Remove name) with
  | none =>
    cases h2 : w.fs name <;> simp [get, getThe, MonadStateOf.get, StateT.get, h2]
    all_goals rfl
  | some e =>
    by_cases h3 : e.isNotExist = true <;> simp [h3]
    all_goals rfl

@[simp] theorem Open_apply (env : Env) (name : String) (w : World) :
    os.Open env name w =
      (match faultOf env (.Open name) with
        | some e => some e
        | none =>
          match w.fs name with
          | some _ => none
          | none => some (.PathError ENOENT),
       ⟨w.fs, w.log ++ [.Open name]⟩) := by
  unfold os.Open
  cases h : faultOf env (.Open name) <;> cases h2 : w.fs name <;>
    simp [get, getThe, MonadStateOf.get, StateT.get, h, h2]

@[simp] theorem Create_apply (env : Env) (name : String) (w : World) :
    os.Create env name w =
      match faultOf env (.Create name) with
      | some e => (some e, ⟨w.fs, w.log ++ [.Create name]⟩)
      | none => (none, ⟨w.fs.write name [], w.log ++ [.Create name]⟩) := by
  unfold os.Create
  cases h : faultOf env (.Create name) <;> rfl

@[simp] theorem Copy_apply (env : Env) (dst src : String) (w : World) :
    io.Copy env dst src w =
      match faultOf env (.Copy dst src) with
      | some e => (some e, ⟨w.fs, w.log ++ [.Copy dst src]⟩)
      | none => (none, ⟨w.fs.write dst ((w.fs dst).getD [] ++ (w.fs src).getD []),
          w.log ++ [.Copy dst src]⟩) := by
  unfold io.Copy
  cases h : faultOf env (.Copy dst src) <;> rfl

@[simp] theorem Close_apply (env : Env) (name : String) (w : World) :
    File.Close env name w = (faultOf env (.Close name), ⟨w.fs, w.log ++ [.Close name]⟩) := rfl

@[simp] theorem Command_apply (env : Env) (opts : List String) (w : World) :
    exifserver.Command env opts w =
      ((env.Command opts w.fs).1, ⟨(env.Command opts w.fs).2, w.log ++ [.Command opts]⟩) := rfl

@[simp] theorem extractXMP_apply (env : Env) (src dst : String) (w : World) :
    extractXMP env src dst w = ((env.extractXMP src dst w.fs).1,
      ⟨(env.extractXMP src dst w.fs).2, w.log ++ [.extractXMP src dst]⟩) := rfl

@[simp] theorem dngHasEdits_apply (env : Env) (path : String) (w : World) :
    dngHasEdits env path w =
      (decide ((env.Command ["-XMP-photoshop:all", path] w.fs).1.2 = none) &&
        decide ((env.Command ["-XMP-photoshop:all", path] w.fs).1.1.length > 0),
       ⟨(env.Command ["-XMP-photoshop:all", path] w.fs).2,
        w.log ++ [.Command ["-XMP-photoshop:all", path]]⟩) := rfl

@[simp] theorem map_apply {α β : Type} (f : α → β) (x : Go α) (w : World) :
    (f <$> x) w = (f (x w).1, (x w).2) := rfl

@[simp] theorem openWorkspace_apply (env : Env) (path : String) (w : World) :
    openWorkspace env path w = ((env.openWorkspace path w.fs).1,
      ⟨(env.openWorkspace path w.fs).2, w.log ++ [.openWorkspace path]⟩) := rfl

@[simp] theorem close_apply (env : Env) (wk : workspace) (w : World) :
    workspace.close env wk w = ((), ⟨env.close wk w.fs, w.log ++ [.close wk]⟩) := rfl

@[simp] theorem editXMP_apply (env : Env) (path : String) (xmp : xmpSettings) (w : World) :
    editXMP env path xmp w = ((env.editXMP path xmp w.fs).1,
      ⟨(env.editXMP path xmp w.fs).2, w.log ++ [.editXMP path xmp]⟩) := rfl

@[simp] theorem runDNGConverter_apply (env : Env) (a b : String) (n : Int)
    (exp : Option exportSettings) (w : World) :
    runDNGConverter env a b n exp w = ((env.runDNGConverter a b n exp w.fs).1,
      ⟨(env.runDNGConverter a b n exp w.fs).2, w.log ++ [.runDNGConverter a b n exp]⟩) := rfl

@[simp] theorem previewJPEG_apply (env : Env) (path : String) (w : World) :
    previewJPEG env path w = ((env.previewJPEG path w.fs).1,
      ⟨(env.previewJPEG path w.fs).2, w.log ++ [.previewJPEG path]⟩) := rfl

@[simp] theorem cameraMatchingWhiteBalance_log (env : Env) (path : String) (w : World) :
    (cameraMatchingWhiteBalance env path w).2.log = w.log ++ [.Command (whiteBalanceQuery path)] := by
  unfold cameraMatchingWhiteBalance
  simp
  split <;> rfl

@[simp] theorem osutilMove_apply (env : Env) (a b : String) (w : World) :
    osutil.Move env a b w = ((env.Move a b w.fs).1,
      ⟨(env.Move a b w.fs).2, w.log ++ [.osutilMove a b]⟩) := rfl

@[simp] theorem osutilCopy_apply (env : Env) (a b : String) (w : World) :
    osutil.Copy env a b w = ((env.Copy a b w.fs).1,
      ⟨(env.Copy a b w.fs).2, w.log ++ [.osutilCopy a b]⟩) := rfl

@[simp] theorem dngPreview_apply (env : Env) (path : String) (w : World) :
    dngPreview env path w = ((env.dngPreview path w.fs).1,
      ⟨(env.dngPreview path w.fs).2, w.log ++ [.dngPreview path]⟩) := rfl

/-! ## Sidecar resolution -/

/-- C1 (amended): when `NAME.xmp` exists, can be read and declares the extension of `src`,
`loadSidecar` reads `NAME.xmp` and nothing else (never `NAME.EXT.xmp`), writes exactly its bytes
to `dst`, and, when that write succeeds, goes on to call `extractXMP(src, dst)` on the file it
just wrote and returns the result of that call: `dst` ends as `extractXMP` leaves it. A write
that fails is returned as it is, with no further call. -/
theorem loadSidecar_sidecar (env : Env) (src dst : String) (w : World) (data : Bytes)
    (hext : filepath.Ext env src ≠ "")
    (hfile : w.fs (strings.TrimSuffix src (filepath.Ext env src) ++ ".xmp") = some data)
    (hread : faultOf env (.ReadFile (strings.TrimSuffix src (filepath.Ext env src) ++ ".xmp")) = none)
    (hfor : env.IsSidecarForExt data (filepath.Ext env src) = true) :
    (loadSidecar env src dst).run w =
      match faultOf env (.WriteFile dst data) with
      | some e => (some e, ⟨w.fs, w.log ++
          [.ReadFile (strings.TrimSuffix src (filepath.Ext env src) ++ ".xmp"), .WriteFile dst data]⟩)
      | none =>
        ((env.extractXMP src dst (w.fs.write dst data)).1,
         ⟨(env.extractXMP src dst (w.fs.write dst data)).2, w.log ++
          [.ReadFile (strings.TrimSuffix src (filepath.Ext env src) ++ ".xmp"), .WriteFile dst data,
           .extractXMP src dst]⟩) := by
  unfold loadSidecar
  simp [hext, hread, hfile, hfor, errorsIsNotExist]
  cases h : faultOf env (.WriteFile dst data) with
  | none => simp
  | some e => simp [errorsIsNotExist, faultOf_isNotExist h]

/-- C1, witness: the sidecar `photo.xmp` of `photo.cr2`. -/
theorem loadSidecar_sidecar_witness :
    (loadSidecar demoEnv "photo.cr2" "tmp/orig.xmp").run ⟨demoFS, []⟩ =
      match faultOf demoEnv (.WriteFile "tmp/orig.xmp" (ascii ".cr2")) with
      | some e => (some e, ⟨demoFS, [] ++
          [.ReadFile (strings.TrimSuffix "photo.cr2" (filepath.Ext demoEnv "photo.cr2") ++ ".xmp"),
           .WriteFile "tmp/orig.xmp" (ascii ".cr2")]⟩)
      | none =>
        ((demoEnv.extractXMP "photo.cr2" "tmp/orig.xmp" (demoFS.write "tmp/orig.xmp" (ascii ".cr2"))).1,
         ⟨(demoEnv.extractXMP "photo.cr2" "tmp/orig.xmp" (demoFS.write "tmp/orig.xmp" (ascii ".cr2"))).2, [] ++
          [.ReadFile (strings.TrimSuffix "photo.cr2" (filepath.Ext demoEnv "photo.cr2") ++ ".xmp"),
           .WriteFile "tmp/orig.xmp" (ascii ".cr2"), .extractXMP "photo.cr2" "tmp/orig.xmp"]⟩) :=
  loadSidecar_sidecar demoEnv "photo.cr2" "tmp/orig.xmp" ⟨demoFS, []⟩ (ascii ".cr2")
    (by decide) (by decide) (by decide) (by decide)

/-- C1 as stated fails: `photo.xmp` exists, is readable and declares `.cr2`, and yet
`loadSidecar` calls `extractXMP` after the copy; with an `extractXMP` that writes the embedded
metadata, `dst` does not hold the content of `photo.xmp` when `loadSidecar` returns. -/
theorem loadSidecar_runs_extractXMP :
    filepath.Ext demoEnv "photo.cr2" = ".cr2" ∧
    strings.TrimSuffix "photo.cr2" ".cr2" ++ ".xmp" = "photo.xmp" ∧
    demoFS "photo.xmp" = some (ascii ".cr2") ∧
    demoEnv.IsSidecarForExt (ascii ".cr2") ".cr2" = true ∧
    ((loadSidecar demoEnv "photo.cr2" "tmp/orig.xmp").run ⟨demoFS, []⟩).2.log =
      [.ReadFile "photo.xmp", .WriteFile "tmp/orig.xmp" (ascii ".cr2"),
       .extractXMP "photo.cr2" "tmp/orig.xmp"] ∧
    ((loadSidecar demoEnv "photo.cr2" "tmp/orig.xmp").run ⟨demoFS, []⟩).2.fs "tmp/orig.xmp" ≠
      demoFS "photo.xmp" := by
  decide

/-- C2, the failing case: with a readable `NAME.xmp` that declares another extension than the
one of `src` (a foreign sidecar), `destSidecar` stops after its first probe and returns the empty
path with a nil error: it does not fall through to the probe of `NAME.EXT.xmp`. -/
theorem destSidecar_foreign_sidecar (env : Env) (src : String) (w : World) (data : Bytes)
    (hext : filepath.Ext env src ≠ "")
    (hfile : w.fs (strings.TrimSuffix src (filepath.Ext env src) ++ ".xmp") = some data)
    (hread : faultOf env (.ReadFile (strings.TrimSuffix src (filepath.Ext env src) ++ ".xmp")) = none)
    (hfor : env.IsSidecarForExt data (filepath.Ext env src) = false) :
    (destSidecar env src).run w = (("", none), ⟨w.fs, w.log ++
      [.ReadFile (strings.TrimSuffix src (filepath.Ext env src) ++ ".xmp")]⟩) := by
  unfold destSidecar
  simp [hext, hread, hfile, hfor, errorsIsNotExist]

/-- C2, witness: `photo.xmp` was written for `photo.cr2`; for the source `photo.nef` the
function `destSidecar` reads `photo.xmp` and returns the empty path and no error. -/
theorem destSidecar_foreign_sidecar_witness :
    filepath.Ext demoEnv "photo.nef" = ".nef" ∧
    strings.TrimSuffix "photo.nef" ".nef" ++ ".xmp" = "photo.xmp" ∧
    demoFS "photo.xmp" = some (ascii ".cr2") ∧
    demoEnv.IsSidecarForExt (ascii ".cr2") ".nef" = false ∧
    (destSidecar demoEnv "photo.nef").run ⟨demoFS, []⟩ = (("", none), ⟨demoFS, [] ++
      [.ReadFile (strings.TrimSuffix "photo.nef" (filepath.Ext demoEnv "photo.nef") ++ ".xmp")]⟩) :=
  ⟨by decide, by decide, by decide, by decide,
    destSidecar_foreign_sidecar demoEnv "photo.nef" ⟨demoFS, []⟩ (ascii ".cr2")
      (by decide) (by decide) (by decide) (by decide)⟩

/-- A read reports a missing file only if no file is there. -/
theorem isNotExist_ReadFile {env : Env} {name : String} {w : World}
    (h : errorsIsNotExist ((os.ReadFile env name).run w).1.2 = true) :
    faultOf env (.ReadFile name) = none ∧ w.fs name = none := by
  simp only [run_eq, ReadFile_apply] at h
  cases hf : faultOf env (.ReadFile name) with
  | some e => simp [hf, errorsIsNotExist, faultOf_isNotExist hf] at h
  | none =>
    cases hw : w.fs name with
    | some d => simp [hf, hw, errorsIsNotExist] at h
    | none => exact ⟨rfl, rfl⟩

/-- A stat reports a missing file only if no file is there. -/
theorem isNotExist_Stat {env : Env} {name : String} {w : World}
    (h : errorsIsNotExist ((os.Stat env name).run w).1 = true) :
    faultOf env (.Stat name) = none ∧ w.fs name = none := by
  simp only [run_eq, Stat_apply] at h
  cases hf : faultOf env (.Stat name) with
  | some e => simp [hf, errorsIsNotExist, faultOf_isNotExist hf] at h
  | none =>
    cases hw : w.fs name with
    | some d => simp [hf, hw, errorsIsNotExist] at h
    | none => exact ⟨rfl, rfl⟩

/-- C3: if the probes of `NAME.xmp` and of `NAME.EXT.xmp` both report that the file does not
exist, and the source is not a DNG with prior edits (its extension is not `.dng` up to case,
or `dngHasEdits` reports false), then `destSidecar` returns `NAME.xmp` and a nil error, and no
file exists at that path. -/
theorem destSidecar_fresh (env : Env) (src : String) (w : World)
    (hname : errorsIsNotExist
      ((os.ReadFile env (strings.TrimSuffix src (filepath.Ext env src) ++ ".xmp")).run w).1.2 = true)
    (hfull : errorsIsNotExist ((os.Stat env (src ++ ".xmp")).run w).1 = true)
    (hdng : strings.EqualFold (filepath.Ext env src) ".dng" = false ∨
      ((dngHasEdits env src).run w).1 = false) :
    ((destSidecar env src).run w).1 =
        (strings.TrimSuffix src (filepath.Ext env src) ++ ".xmp", none) ∧
      w.fs (strings.TrimSuffix src (filepath.Ext env src) ++ ".xmp") = none := by
  obtain ⟨hf1, hw1⟩ := isNotExist_ReadFile hname
  obtain ⟨hf2, hw2⟩ := isNotExist_Stat hfull
  refine ⟨?_, hw1⟩
  unfold destSidecar
  by_cases hext : filepath.Ext env src = ""
  · rcases hdng with hd | hd
    · simp [hext, hf2, hw2, errorsIsNotExist, Error.isNotExist, ENOENT, hd]
      simp [hext] at hd
      simp [hd]
    · have hd2 : ∀ l, (dngHasEdits env src ⟨w.fs, l⟩).1 = false := fun _ => hd
      simp [hext, hf2, hw2, errorsIsNotExist, Error.isNotExist, ENOENT, hd2, -dngHasEdits_apply]
      split
      · rw [bind_apply, hd2]; rfl
      · rfl
  · rcases hdng with hd | hd
    · simp [hext, hf1, hw1, hf2, hw2, errorsIsNotExist, Error.isNotExist, ENOENT, hd]
    · have hd2 : ∀ l, (dngHasEdits env src ⟨w.fs, l⟩).1 = false := fun _ => hd
      simp [hext, hf1, hw1, hf2, hw2, errorsIsNotExist, Error.isNotExist, ENOENT, hd2,
        -dngHasEdits_apply]
      split
      · rw [bind_apply, hd2]; rfl
      · rfl

/-- C3, witness: `shot.dng` without sidecars and without edits. -/
theorem destSidecar_fresh_witness :
    ((destSidecar demoEnv "shot.dng").run ⟨demoFS, []⟩).1 =
        (strings.TrimSuffix "shot.dng" (filepath.Ext demoEnv "shot.dng") ++ ".xmp", none) ∧
      demoFS (strings.TrimSuffix "shot.dng" (filepath.Ext demoEnv "shot.dng") ++ ".xmp") = none :=
  destSidecar_fresh demoEnv "shot.dng" ⟨demoFS, []⟩ (by decide) (by decide) (Or.inr (by decide))

/-! ## The edit pipeline -/

/-- A log that grows by `l` grows by some list with every property of `l`. -/
theorem exists_calls {a l : List Call} {P : List Call → Prop} (h : P l) :
    ∃ l', a ++ l = a ++ l' ∧ P l' := ⟨l, rfl, h⟩

/-- The metadata edit adds itself to the calls. -/
theorem editXMP_log {env : Env} {a : String} {x : xmpSettings} {W W2 : World}
    {r : Option Error} (h : editXMP env a x W = (r, W2)) :
    W2.log = W.log ++ [.editXMP a x] := by
  rw [editXMP_apply] at h
  rw [← (Prod.mk.inj h).2]

/-- The converter adds itself to the calls. -/
theorem runDNGConverter_log {env : Env} {a b : String} {n : Int} {exp : Option exportSettings}
    {W W2 : World} {r : Option Error} (h : runDNGConverter env a b n exp W = (r, W2)) :
    W2.log = W.log ++ [.runDNGConverter a b n exp] := by
  rw [runDNGConverter_apply] at h
  rw [← (Prod.mk.inj h).2]

/-- C4 (amended): `previewEdit` step by step, each step on the state `W` that the step before
it left. The size and the edit cache fix the file `target` that receives the metadata edit and
the one converter call `(input, output, side, exp)`: for size 0 the sidecar of the workspace,
and the original converted into the scratch file at size 0 with empty settings; for another
size with an edit cache, the edit cache, converted into the scratch file at the requested size;
for another size without an edit cache, the sidecar of the workspace, and the original
converted into the edit cache at size 2560. When the workspace cannot be opened, `previewEdit`
returns that error. Otherwise the white balance is filled in, which adds at most the white
balance query to the calls. When the metadata edit fails, `previewEdit` returns its error
without bytes, and its calls end with the metadata edit and the closing of the workspace: there
is no converter call. When the metadata edit succeeds there is exactly one converter call, the
one above. When it fails, `previewEdit` returns its error without bytes, and no JPEG is
rendered. When it succeeds, `previewEdit` returns the result of `previewJPEG` on the output of
the converter, and its calls after the white balance are the metadata edit, the converter call,
`previewJPEG` and the closing of the workspace, in this order. -/
theorem previewEdit_converter (env : Env) (path : String) (size : Int) (xmp : xmpSettings)
    (w : World) (wk : workspace) (err : Option Error) (W0 : World)
    (target input output : String) (side : Int) (exp : Option exportSettings)
    (hopen : (openWorkspace env path).run w = ((wk, err), W0))
    (hcase :
      (size = 0 ∧ target = wk.origXMP ∧ input = wk.orig ∧ output = wk.temp ∧ side = 0 ∧
        exp = some {}) ∨
      (size ≠ 0 ∧ wk.hasEdit = true ∧ target = wk.edit ∧ input = wk.edit ∧ output = wk.temp ∧
        side = size ∧ exp = none) ∨
      (size ≠ 0 ∧ wk.hasEdit = false ∧ target = wk.origXMP ∧ input = wk.orig ∧
        output = wk.edit ∧ side = 2560 ∧ exp = none)) :
    (err ≠ none → (previewEdit env path size xmp).run w = (([], err), W0)) ∧
    (err = none → ∀ xmp1 W1, (resolveWhiteBalance env wk.orig xmp).run W0 = (xmp1, W1) →
      W1.log = w.log ++ .openWorkspace path ::
        (if xmp.WhiteBalance = "Camera Matching…" then [.Command (whiteBalanceQuery wk.orig)]
          else []) ∧
      (∀ e W2, (editXMP env target xmp1).run W1 = (some e, W2) →
        (previewEdit env path size xmp).run w =
          (([], some e), ((workspace.close env wk).run W2).2) ∧
        ((previewEdit env path size xmp).run w).2.log =
          W1.log ++ [.editXMP target xmp1, .close wk]) ∧
      (∀ W2, (editXMP env target xmp1).run W1 = (none, W2) →
        (∀ e W3, (runDNGConverter env input output side exp).run W2 = (some e, W3) →
          (previewEdit env path size xmp).run w =
            (([], some e), ((workspace.close env wk).run W3).2) ∧
          ((previewEdit env path size xmp).run w).2.log =
            W1.log ++ [.editXMP target xmp1, .runDNGConverter input output side exp,
              .close wk]) ∧
        (∀ W3, (runDNGConverter env input output side exp).run W2 = (none, W3) →
          (previewEdit env path size xmp).run w =
            (((previewJPEG env output).run W3).1,
              ((workspace.close env wk).run ((previewJPEG env output).run W3).2).2) ∧
          ((previewEdit env path size xmp).run w).2.log =
            W1.log ++ [.editXMP target xmp1, .runDNGConverter input output side exp,
              .previewJPEG output, .close wk]))) := by
  simp only [run_eq] at hopen ⊢
  generalize hr : previewEdit env path size xmp w = r
  unfold previewEdit at hr
  simp only [bind_apply, hopen] at hr
  have hO : W0.log = w.log ++ [.openWorkspace path] := by
    rw [openWorkspace_apply] at hopen
    rw [← (Prod.mk.inj hopen).2]
  refine ⟨?_, ?_⟩
  · intro he
    simp only [ne_eq, he, not_false_eq_true, ↓reduceIte, pure_apply] at hr
    exact hr.symm
  intro he xmp1 W1 hwb
  subst he
  simp only [ne_eq, not_true_eq_false, ↓reduceIte, defer_apply, bind_apply, pure_apply] at hr
  unfold resolveWhiteBalance at hwb
  by_cases hwbc : xmp.WhiteBalance = "Camera Matching…"
  all_goals
    simp only [hwbc, ↓reduceIte, bind_apply, pure_apply] at hwb hr
    obtain ⟨rfl, rfl⟩ := Prod.mk.inj hwb
    clear hwb
    refine ⟨by simp [hO, cameraMatchingWhiteBalance_log, hwbc], ?_⟩
    rcases hcase with ⟨hs, rfl, rfl, rfl, rfl, rfl⟩ | ⟨hs, hed, rfl, rfl, rfl, rfl, rfl⟩ |
      ⟨hs, hed, rfl, rfl, rfl, rfl, rfl⟩
    on_goal 1 => simp only [hs, ↓reduceIte, bind_apply, pure_apply] at hr
    on_goal 2 => simp only [hs, hed, ↓reduceIte, bind_apply, pure_apply] at hr
    on_goal 3 =>
      simp only [hs, hed, ↓reduceIte, bind_apply, pure_apply, Bool.false_eq_true] at hr
    all_goals
      refine ⟨?_, ?_⟩
      · intro e W2 hE
        simp only [hE, not_false_eq_true, ↓reduceIte, pure_apply, reduceCtorEq] at hr
        subst hr
        exact ⟨rfl, by simp [editXMP_log hE]⟩
      intro W2 hE
      simp only [hE, not_true_eq_false, ↓reduceIte, pure_apply, bind_apply] at hr
      refine ⟨?_, ?_⟩
      · intro e W3 hC
        simp only [hC, not_false_eq_true, ↓reduceIte, pure_apply, reduceCtorEq] at hr
        subst hr
        exact ⟨rfl, by simp [editXMP_log hE, runDNGConverter_log hC]⟩
      intro W3 hC
      simp only [hC, not_true_eq_false, ↓reduceIte, pure_apply, bind_apply] at hr
      subst hr
      exact ⟨rfl, by simp [editXMP_log hE, runDNGConverter_log hC]⟩

/-- C4, witness: the three previews of `photo.cr2`. At size 0 the original is converted into
the scratch file; at size 1280 without an edit cache the original is converted into the edit
cache at size 2560 and the JPEG is rendered from the edit cache; at size 1280 with an edit
cache, the edit cache is converted into the scratch file at size 1280. -/
theorem previewEdit_converter_witness :
    (((previewEdit demoEnv "photo.cr2" 0 {}).run ⟨demoFS, []⟩).1 = (ascii "jpeg", none) ∧
      ((previewEdit demoEnv "photo.cr2" 0 {}).run ⟨demoFS, []⟩).2.log =
        [.openWorkspace "photo.cr2", .editXMP "tmp/orig.xmp" {},
          .runDNGConverter "tmp/orig.cr2" "tmp/temp.dng" 0 (some {}),
          .previewJPEG "tmp/temp.dng", .close demoWorkspace]) ∧
    (((previewEdit demoEnv "photo.cr2" 1280 {}).run ⟨demoFS, []⟩).1 = (ascii "jpeg", none) ∧
      ((previewEdit demoEnv "photo.cr2" 1280 {}).run ⟨demoFS, []⟩).2.log =
        [.openWorkspace "photo.cr2", .editXMP "tmp/orig.xmp" {},
          .runDNGConverter "tmp/orig.cr2" "tmp/edit.dng" 2560 none,
          .previewJPEG "tmp/edit.dng", .close demoWorkspace]) ∧
    (((previewEdit cachedEnv "photo.cr2" 1280 {}).run ⟨demoFS, []⟩).1 = (ascii "jpeg", none) ∧
      ((previewEdit cachedEnv "photo.cr2" 1280 {}).run ⟨demoFS, []⟩).2.log =
        [.openWorkspace "photo.cr2", .editXMP "tmp/edit.dng" {},
          .runDNGConverter "tmp/edit.dng" "tmp/temp.dng" 1280 none,
          .previewJPEG "tmp/temp.dng", .close cachedWorkspace]) := by
  have h0 := ((((previewEdit_converter demoEnv "photo.cr2" 0 {} ⟨demoFS, []⟩ demoWorkspace none
    _ _ _ _ _ _ rfl (Or.inl ⟨rfl, rfl, rfl, rfl, rfl, rfl⟩)).2 rfl _ _ rfl).2.2 _ rfl).2 _ rfl)
  have h1 := ((((previewEdit_converter demoEnv "photo.cr2" 1280 {} ⟨demoFS, []⟩ demoWorkspace
    none _ _ _ _ _ _ rfl (Or.inr (Or.inr ⟨by decide, rfl, rfl, rfl, rfl, rfl, rfl⟩))).2 rfl _ _
    rfl).2.2 _ rfl).2 _ rfl)
  have h2 := ((((previewEdit_converter cachedEnv "photo.cr2" 1280 {} ⟨demoFS, []⟩
    cachedWorkspace none _ _ _ _ _ _ rfl
    (Or.inr (Or.inl ⟨by decide, rfl, rfl, rfl, rfl, rfl, rfl⟩))).2 rfl _ _ rfl).2.2 _ rfl).2 _
    rfl)
  exact ⟨⟨congrArg Prod.fst h0.1, h0.2⟩, ⟨congrArg Prod.fst h1.1, h1.2⟩,
    ⟨congrArg Prod.fst h2.1, h2.2⟩⟩

/-- C4 as stated fails: when the metadata editor fails, `previewEdit` opens the workspace, calls
`editXMP` and closes the workspace: it makes no converter call at all. -/
theorem previewEdit_no_conversion :
    (brokenEditEnv.openWorkspace "photo.cr2" demoFS).1.2 = none ∧
    ((previewEdit brokenEditEnv "photo.cr2" 0 {}).run ⟨demoFS, []⟩).2.log =
      [.openWorkspace "photo.cr2", .editXMP "tmp/orig.xmp" {}, .close demoWorkspace] ∧
    (((previewEdit brokenEditEnv "photo.cr2" 0 {}).run ⟨demoFS, []⟩).2.log.filter
      Call.isConverter).length = 0 := by
  refine ⟨?_, ?_, ?_⟩ <;> rfl

/-- C5, the failing case: a JPEG export (`DNG` unset) with `Resample` set never reaches the
re-tagging. Whatever the collaborators do, the calls of `exportEdit` are the opening of the
workspace, the white balance query, `editXMP`, the converter, `exportJPEG`, `resampleJPEG` and
the closing of the workspace: no file is written with `os.WriteFile` and no `-tagsFromFile`
command (`injectXMP`, `fixMetaJPEG`) is sent to exiftool. -/
theorem exportEdit_resample_returns_early (env : Env) (path : String) (xmp : xmpSettings)
    (exp : exportSettings) (w : World) (wk : workspace)
    (hwk : (env.openWorkspace path w.fs).1.1 = wk)
    (hdng : exp.DNG = false) (hres : exp.Resample = true) :
    ∃ l, ((exportEdit env path xmp exp).run w).2.log = w.log ++ l ∧
      (∀ c ∈ l, c = .openWorkspace path ∨ c = .Command (whiteBalanceQuery wk.orig) ∨
        (∃ x, c = .editXMP wk.origXMP x) ∨ c = .runDNGConverter wk.orig wk.temp 0 (some exp) ∨
        c = .exportJPEG wk.temp ∨ (∃ d, c = .resampleJPEG d exp) ∨ c = .close wk) ∧
      (∀ name data, .WriteFile name data ∉ l) ∧
      (∀ opts, .Command ("-tagsFromFile" :: opts) ∉ l) := by
  unfold exportEdit
  simp only [run_eq, bind_apply, openWorkspace_apply, hwk]
  generalize (env.openWorkspace path w.fs).2 = fs1
  by_cases ho : (env.openWorkspace path w.fs).1.2 = none
  swap
  · simp only [ne_eq, ho, not_false_eq_true, ↓reduceIte, pure_apply]
    exact exists_calls (by simp)
  simp only [ne_eq, ho, not_true_eq_false, ↓reduceIte, defer_apply, close_apply, bind_apply,
    pure_apply]
  by_cases hwb : xmp.WhiteBalance = "Camera Matching…" <;>
  simp only [hwb, hdng, hres, ↓reduceIte, bind_apply, pure_apply, editXMP_apply,
    runDNGConverter_apply, not_true_eq_false, ne_eq, cameraMatchingWhiteBalance_log,
    not_false_eq_true, Bool.false_eq_true] <;>
  (split
   · simp only [pure_apply, List.append_assoc, List.cons_append, List.nil_append,
       List.singleton_append]
     exact exists_calls (by simp [whiteBalanceQuery])
   · simp only [bind_apply, pure_apply, runDNGConverter_apply]
     split
     · simp only [pure_apply, List.append_assoc, List.cons_append, List.nil_append,
         List.singleton_append]
       exact exists_calls (by simp [whiteBalanceQuery])
     · simp only [exportJPEG, resampleJPEG, collab_apply, bind_apply, pure_apply]
       split
       · simp only [pure_apply, List.append_assoc, List.cons_append, List.nil_append,
           List.singleton_append]
         exact exists_calls (by simp [whiteBalanceQuery])
       · simp only [hres, ↓reduceIte, collab_apply, bind_apply, pure_apply, List.append_assoc,
           List.cons_append, List.nil_append, List.singleton_append]
         exact exists_calls (by simp [whiteBalanceQuery]))

/-- C5, witness: the export of `photo.cr2` as a resampled JPEG, every collaborator succeeding,
returns the bytes of `resampleJPEG` at once, whereas the same export without `Resample` writes
the JPEG, sends both exiftool commands and reads the file back. -/
theorem exportEdit_resample_returns_early_witness :
    (∃ l, ((exportEdit demoEnv "photo.cr2" {} { Resample := true }).run ⟨demoFS, []⟩).2.log =
        [] ++ l ∧
      (∀ c ∈ l, c = .openWorkspace "photo.cr2" ∨
        c = .Command (whiteBalanceQuery demoWorkspace.orig) ∨
        (∃ x, c = .editXMP demoWorkspace.origXMP x) ∨
        c = .runDNGConverter demoWorkspace.orig demoWorkspace.temp 0 (some { Resample := true }) ∨
        c = .exportJPEG demoWorkspace.temp ∨ (∃ d, c = .resampleJPEG d { Resample := true }) ∨
        c = .close demoWorkspace) ∧
      (∀ name data, .WriteFile name data ∉ l) ∧
      (∀ opts, .Command ("-tagsFromFile" :: opts) ∉ l)) ∧
    ((exportEdit demoEnv "photo.cr2" {} { Resample := true }).run ⟨demoFS, []⟩).1 =
      (ascii "small", none) ∧
    ((exportEdit demoEnv "photo.cr2" {} { Resample := true }).run ⟨demoFS, []⟩).2.log =
      [.openWorkspace "photo.cr2", .editXMP "tmp/orig.xmp" {},
       .runDNGConverter "tmp/orig.cr2" "tmp/temp.dng" 0 (some { Resample := true }),
       .exportJPEG "tmp/temp.dng", .resampleJPEG (ascii "jpeg") { Resample := true },
       .close demoWorkspace] ∧
    ((exportEdit demoEnv "photo.cr2" {} {}).run ⟨demoFS, []⟩).2.log =
      [.openWorkspace "photo.cr2", .editXMP "tmp/orig.xmp" {},
       .runDNGConverter "tmp/orig.cr2" "tmp/temp.dng" 0 (some {}),
       .exportJPEG "tmp/temp.dng", .WriteFile "tmp/temp.jpg" (ascii "jpeg"),
       .Command ["-tagsFromFile", "tmp/temp.dng", "-overwrite_original", "tmp/temp.jpg"],
       .Command ["-tagsFromFile", "tmp/orig.cr2", "-fixBase", "-CommonIFD0", "-ExifIFD:all",
         "-GPS:all", "-IPTC:all", "-XMP-dc:all", "-XMP-dc:Format=", "-fast",
         "-overwrite_original", "tmp/temp.jpg"],
       .ReadFile "tmp/temp.jpg", .close demoWorkspace] :=
  ⟨exportEdit_resample_returns_early demoEnv "photo.cr2" {} { Resample := true } ⟨demoFS, []⟩
    demoWorkspace rfl rfl rfl, rfl, rfl, rfl⟩

/-! ## Saving -/

/-- The probes of `destSidecar` change no file. -/
theorem destSidecar_fs {env : Env} {isDNG isXMP : Bytes → Prop} (hc : Contract env isDNG isXMP)
    (src : String) (w : World) : (destSidecar env src w).2.fs = w.fs := by
  unfold destSidecar
  repeat' (first | split | simp only [bind_apply, pure_apply, ReadFile_apply, Stat_apply,
    dngHasEdits_apply])
  all_goals first | rfl | exact hc.hasEdits _ _

/-- The white balance query changes no file. -/
theorem cameraMatchingWhiteBalance_fs {env : Env} {isDNG isXMP : Bytes → Prop}
    (hc : Contract env isDNG isXMP) (path : String) (w : World) :
    (cameraMatchingWhiteBalance env path w).2.fs = w.fs := by
  unfold cameraMatchingWhiteBalance
  simp only [bind_apply, Command_apply]
  split <;> exact hc.whiteBalance _ _

/-- Filling in the white balance changes no file. -/
theorem resolveWhiteBalance_fs {env : Env} {isDNG isXMP : Bytes → Prop}
    (hc : Contract env isDNG isXMP) (orig : String) (xmp : xmpSettings) (w : World) :
    (resolveWhiteBalance env orig xmp w).2.fs = w.fs := by
  unfold resolveWhiteBalance
  by_cases h : xmp.WhiteBalance = "Camera Matching…"
  · simp only [h, ↓reduceIte, bind_apply, pure_apply]
    exact cameraMatchingWhiteBalance_fs hc _ _
  · simp only [h, ↓reduceIte, bind_apply, pure_apply]

/-- A rename that fails changes no file. -/
theorem Rename_fs_of_error {env : Env} {a b : String} {W : World}
    (h : (os.Rename env a b W).1 ≠ none) : (os.Rename env a b W).2.fs = W.fs := by
  rw [Rename_apply] at h ⊢
  repeat' split
  all_goals first | rfl | simp_all

/-- A rename that succeeds moves the content of the old path to the new path. -/
theorem Rename_fs_of_ok {env : Env} {a b : String} {W : World}
    (h : (os.Rename env a b W).1 = none) :
    ∃ d, W.fs a = some d ∧ (os.Rename env a b W).2.fs = (W.fs.erase a).write b d := by
  rw [Rename_apply] at h ⊢
  cases hf : env.fault (.Rename a b) with
  | some e => simp [hf] at h
  | none =>
    by_cases he : a = "" ∨ b = ""
    · simp [hf, he] at h
    · cases hs : W.fs a with
      | none => simp [hf, hs, he] at h
      | some d => exact ⟨d, rfl, by simp [he]⟩

/-- Closing the workspace leaves alone the files that the collaborators leave alone. -/
theorem close_fs (env : Env) (wk : workspace) (W : World) (p : String) (hk : Keeps env p) :
    (workspace.close env wk W).2.fs p = W.fs p := by
  rw [close_apply]
  exact hk.close _ _

/-- No path is its own backup file. -/
theorem ne_bak (d : String) : d ++ ".bak" ≠ d := by
  intro h
  have h1 := congrArg String.length h
  simp only [String.length_append] at h1
  have h2 : (".bak" : String).length = 4 := by decide
  omega

/-- C6: `saveEdit` step by step, each step on the state `W` that the step before it left.
When the workspace cannot be opened, `saveEdit` returns that error. Otherwise the white balance
is filled in and the metadata edit is made on the sidecar of the workspace. When the metadata
edit fails, or when `destSidecar` fails, `saveEdit` closes the workspace and returns that
error, and every file that the collaborators leave alone, other than the sidecar of the
workspace, holds what it held before the call. Let `destSidecar` resolve `dest`, a file that
the collaborators leave alone and that is not a scratch file of the workspace. When `dest` is
the source itself: if the converter fails, or if the move of its output onto `dest.bak` fails,
`saveEdit` closes the workspace and returns that error, and `dest` holds what it held before
the call. When `dest` is another file: if the copy of the sidecar onto `dest.bak` fails,
`saveEdit` closes the workspace and returns that error, and `dest` holds what it held before
the call. Once `dest.bak` is staged, `dest` still holds what it held before the call, and
`saveEdit` is the rename of `dest.bak` onto `dest` followed by the closing of the workspace,
with the result of the rename as its result: a rename that fails leaves `dest` as it was
before the call, a rename that succeeds leaves in `dest` a complete rendition (`isDNG`) when
`dest` is the source itself, and a complete sidecar (`isXMP`) otherwise. -/
theorem saveEdit_atomic (env : Env) (path : String) (xmp : xmpSettings) (w : World)
    (isDNG isXMP : Bytes → Prop) (wk : workspace) (err : Option Error) (W0 : World)
    (hc : Contract env isDNG isXMP)
    (hopen : (openWorkspace env path).run w = ((wk, err), W0)) :
    (err ≠ none → (saveEdit env path xmp).run w = (err, W0)) ∧
    (err = none → ∀ xmp1 W1, (resolveWhiteBalance env wk.orig xmp).run W0 = (xmp1, W1) →
      (∀ e W2, (editXMP env wk.origXMP xmp1).run W1 = (some e, W2) →
        (saveEdit env path xmp).run w = (some e, ((workspace.close env wk).run W2).2) ∧
        ∀ p, Keeps env p → p ≠ wk.origXMP →
          ((saveEdit env path xmp).run w).2.fs p = w.fs p) ∧
      (∀ W2, (editXMP env wk.origXMP xmp1).run W1 = (none, W2) →
        (∀ d e W3, (destSidecar env path).run W2 = ((d, some e), W3) →
          (saveEdit env path xmp).run w = (some e, ((workspace.close env wk).run W3).2) ∧
          ∀ p, Keeps env p → p ≠ wk.origXMP →
            ((saveEdit env path xmp).run w).2.fs p = w.fs p) ∧
        (∀ dest W3, (destSidecar env path).run W2 = ((dest, none), W3) →
          Keeps env dest → dest ≠ wk.origXMP → dest ≠ wk.temp →
          (path = dest → ∀ preview W4, (dngPreview env wk.orig).run W3 = (preview, W4) →
            (∀ e W5, (runDNGConverter env wk.orig wk.temp 0
                (some { DNG := true, Embed := true, Preview := preview })).run W4 =
                (some e, W5) →
              (saveEdit env path xmp).run w =
                (some e, ((workspace.close env wk).run W5).2) ∧
              ((saveEdit env path xmp).run w).2.fs dest = w.fs dest) ∧
            (∀ W5, (runDNGConverter env wk.orig wk.temp 0
                (some { DNG := true, Embed := true, Preview := preview })).run W4 =
                (none, W5) →
              (∀ e W6, (osutil.Move env wk.temp (dest ++ ".bak")).run W5 = (some e, W6) →
                (saveEdit env path xmp).run w =
                  (some e, ((workspace.close env wk).run W6).2) ∧
                ((saveEdit env path xmp).run w).2.fs dest = w.fs dest) ∧
              (∀ W6, (osutil.Move env wk.temp (dest ++ ".bak")).run W5 = (none, W6) →
                W6.fs dest = w.fs dest ∧
                (saveEdit env path xmp).run w =
                  (((os.Rename env (dest ++ ".bak") dest).run W6).1,
                    ((workspace.close env wk).run
                      ((os.Rename env (dest ++ ".bak") dest).run W6).2).2) ∧
                (((os.Rename env (dest ++ ".bak") dest).run W6).1 ≠ none →
                  ((saveEdit env path xmp).run w).2.fs dest = w.fs dest) ∧
                (((os.Rename env (dest ++ ".bak") dest).run W6).1 = none →
                  ∃ d, ((saveEdit env path xmp).run w).2.fs dest = some d ∧ isDNG d)))) ∧
          (path ≠ dest →
            (∀ e W6, (osutil.Copy env wk.origXMP (dest ++ ".bak")).run W3 = (some e, W6) →
              (saveEdit env path xmp).run w =
                (some e, ((workspace.close env wk).run W6).2) ∧
              ((saveEdit env path xmp).run w).2.fs dest = w.fs dest) ∧
            (∀ W6, (osutil.Copy env wk.origXMP (dest ++ ".bak")).run W3 = (none, W6) →
              W6.fs dest = w.fs dest ∧
              (saveEdit env path xmp).run w =
                (((os.Rename env (dest ++ ".bak") dest).run W6).1,
                  ((workspace.close env wk).run
                    ((os.Rename env (dest ++ ".bak") dest).run W6).2).2) ∧
              (((os.Rename env (dest ++ ".bak") dest).run W6).1 ≠ none →
                ((saveEdit env path xmp).run w).2.fs dest = w.fs dest) ∧
              (((os.Rename env (dest ++ ".bak") dest).run W6).1 = none →
                ∃ d, ((saveEdit env path xmp).run w).2.fs dest = some d ∧ isXMP d)))))) := by
  simp only [run_eq] at hopen ⊢
  generalize hr : saveEdit env path xmp w = r
  unfold saveEdit at hr
  simp only [bind_apply, hopen] at hr
  have hO : ∀ p, Keeps env p → W0.fs p = w.fs p := by
    intro p hk
    rw [openWorkspace_apply] at hopen
    rw [← (Prod.mk.inj hopen).2]
    exact hk.openWorkspace _ _
  refine ⟨?_, ?_⟩
  · intro he
    simp only [ne_eq, he, not_false_eq_true, ↓reduceIte, pure_apply] at hr
    exact hr.symm
  intro he xmp1 W1 hwb
  subst he
  simp only [ne_eq, not_true_eq_false, ↓reduceIte, defer_apply, bind_apply, pure_apply] at hr
  have hW1 : W1.fs = W0.fs := by
    have := resolveWhiteBalance_fs hc wk.orig xmp W0
    rw [hwb] at this
    exact this
  -- the white balance
  unfold resolveWhiteBalance at hwb
  by_cases hwbc : xmp.WhiteBalance = "Camera Matching…"
  all_goals
    simp only [hwbc, ↓reduceIte, bind_apply, pure_apply] at hwb hr
    obtain ⟨rfl, rfl⟩ := Prod.mk.inj hwb
    refine ⟨?_, ?_⟩
    · -- the metadata edit fails
      intro e W2 hE
      simp only [hE, not_false_eq_true, ↓reduceIte, pure_apply, reduceCtorEq] at hr
      subst hr
      refine ⟨rfl, fun p hk hp => ?_⟩
      rw [editXMP_apply] at hE
      refine (close_fs env wk _ _ hk).trans ?_
      rw [← (Prod.mk.inj hE).2]
      exact (hk.editXMP _ _ _ (Ne.symm hp)).trans ((congrFun hW1 p).trans (hO p hk))
    intro W2 hE
    simp only [hE, not_true_eq_false, ↓reduceIte, pure_apply, bind_apply] at hr
    have hW2 : ∀ p, Keeps env p → p ≠ wk.origXMP → W2.fs p = w.fs p := by
      intro p hk hp
      rw [editXMP_apply] at hE
      rw [← (Prod.mk.inj hE).2]
      exact (hk.editXMP _ _ _ (Ne.symm hp)).trans ((congrFun hW1 p).trans (hO p hk))
    have hX2 : ∃ d, W2.fs wk.origXMP = some d ∧ isXMP d := by
      rw [editXMP_apply] at hE
      rw [← (Prod.mk.inj hE).2]
      exact hc.editXMP _ _ _ (Prod.mk.inj hE).1
    refine ⟨?_, ?_⟩
    · -- the destination cannot be resolved
      intro d e W3 hD
      have hW3 : W3.fs = W2.fs := by
        have := destSidecar_fs hc path W2
        rw [hD] at this
        exact this
      simp only [hD, not_false_eq_true, ↓reduceIte, pure_apply, reduceCtorEq] at hr
      subst hr
      refine ⟨rfl, fun p hk hp => ?_⟩
      refine (close_fs env wk _ _ hk).trans ?_
      rw [hW3]
      exact hW2 p hk hp
    intro dest W3 hD hk hxmp htemp
    have hW3 : W3.fs = W2.fs := by
      have := destSidecar_fs hc path W2
      rw [hD] at this
      exact this
    have hF3 : W3.fs dest = w.fs dest := by rw [hW3]; exact hW2 dest hk hxmp
    simp only [hD, not_true_eq_false, ↓reduceIte, pure_apply, bind_apply] at hr
    refine ⟨?_, ?_⟩
    · -- the source is its own destination
      intro hpd preview W4 hP
      have hF4 : W4.fs dest = w.fs dest := by
        rw [dngPreview_apply] at hP
        rw [← (Prod.mk.inj hP).2]
        exact (hk.dngPreview _ _).trans hF3
      simp only [hpd, ↓reduceIte, bind_apply, pure_apply, hP] at hr
      refine ⟨?_, ?_⟩
      · intro e W5 hC
        simp only [hC, not_false_eq_true, ↓reduceIte, pure_apply, reduceCtorEq] at hr
        subst hr
        refine ⟨rfl, ?_⟩
        rw [runDNGConverter_apply] at hC
        refine (close_fs env wk _ _ hk).trans ?_
        rw [← (Prod.mk.inj hC).2]
        exact (hk.runDNGConverter _ _ _ _ _ (Ne.symm htemp)).trans hF4
      intro W5 hC
      simp only [hC, not_true_eq_false, ↓reduceIte, pure_apply, bind_apply] at hr
      have hF5 : W5.fs dest = w.fs dest := by
        rw [runDNGConverter_apply] at hC
        rw [← (Prod.mk.inj hC).2]
        exact (hk.runDNGConverter _ _ _ _ _ (Ne.symm htemp)).trans hF4
      have hX5 : ∃ d, W5.fs wk.temp = some d ∧ isDNG d := by
        rw [runDNGConverter_apply] at hC
        rw [← (Prod.mk.inj hC).2]
        exact hc.runDNGConverter _ _ _ _ _ (Prod.mk.inj hC).1
      refine ⟨?_, ?_⟩
      · intro e W6 hM
        simp only [hM, not_false_eq_true, ↓reduceIte, pure_apply, reduceCtorEq] at hr
        subst hr
        refine ⟨rfl, ?_⟩
        rw [osutilMove_apply] at hM
        refine (close_fs env wk _ _ hk).trans ?_
        rw [← (Prod.mk.inj hM).2]
        exact (hk.Move _ _ _ (Ne.symm htemp) (ne_bak dest)).trans hF5
      intro W6 hM
      simp only [hM, not_true_eq_false, ↓reduceIte, pure_apply, bind_apply] at hr
      subst hr
      have hF6 : W6.fs dest = w.fs dest := by
        rw [osutilMove_apply] at hM
        rw [← (Prod.mk.inj hM).2]
        exact (hk.Move _ _ _ (Ne.symm htemp) (ne_bak dest)).trans hF5
      have hX6 : W6.fs (dest ++ ".bak") = W5.fs wk.temp := by
        rw [osutilMove_apply] at hM
        rw [← (Prod.mk.inj hM).2]
        exact hc.Move _ _ _ (Prod.mk.inj hM).1
      refine ⟨hF6, rfl, fun hne => ?_, fun hok => ?_⟩
      · refine (close_fs env wk _ _ hk).trans ?_
        rw [Rename_fs_of_error hne, hF6]
      · obtain ⟨d, hd, hfs⟩ := Rename_fs_of_ok hok
        obtain ⟨d5, hd5, hg⟩ := hX5
        rw [hX6, hd5] at hd
        refine ⟨d, ?_, (Option.some.inj hd) ▸ hg⟩
        refine (close_fs env wk _ _ hk).trans ?_
        rw [hfs]
        simp [FS.write]
    · -- another file
      intro hpd
      simp only [hpd, ↓reduceIte, bind_apply, pure_apply] at hr
      refine ⟨?_, ?_⟩
      · intro e W6 hY
        simp only [hY, not_false_eq_true, ↓reduceIte, pure_apply, reduceCtorEq] at hr
        subst hr
        refine ⟨rfl, ?_⟩
        rw [osutilCopy_apply] at hY
        refine (close_fs env wk _ _ hk).trans ?_
        rw [← (Prod.mk.inj hY).2]
        exact (hk.Copy _ _ _ (ne_bak dest)).trans hF3
      intro W6 hY
      simp only [hY, not_true_eq_false, ↓reduceIte, pure_apply, bind_apply] at hr
      subst hr
      have hF6 : W6.fs dest = w.fs dest := by
        rw [osutilCopy_apply] at hY
        rw [← (Prod.mk.inj hY).2]
        exact (hk.Copy _ _ _ (ne_bak dest)).trans hF3
      have hX6 : W6.fs (dest ++ ".bak") = W3.fs wk.origXMP := by
        rw [osutilCopy_apply] at hY
        rw [← (Prod.mk.inj hY).2]
        exact hc.Copy _ _ _ (Prod.mk.inj hY).1
      refine ⟨hF6, rfl, fun hne => ?_, fun hok => ?_⟩
      · refine (close_fs env wk _ _ hk).trans ?_
        rw [Rename_fs_of_error hne, hF6]
      · obtain ⟨d, hd, hfs⟩ := Rename_fs_of_ok hok
        obtain ⟨d2, hd2, hg⟩ := hX2
        rw [hX6, hW3, hd2] at hd
        refine ⟨d, ?_, (Option.some.inj hd) ▸ hg⟩
        refine (close_fs env wk _ _ hk).trans ?_
        rw [hfs]
        simp [FS.write]

/-- The environment `demoEnv` keeps the contract. -/
theorem demoEnv_contract :
    Contract demoEnv (fun d => d = ascii "dng") (fun d => d = ascii "edited") where
  whiteBalance := fun _ _ => rfl
  hasEdits := fun _ _ => rfl
  editXMP := fun path _ fs _ => ⟨_, by simp [demoEnv, FS.write], rfl⟩
  runDNGConverter := fun _ output _ _ fs _ => ⟨_, by simp [demoEnv, FS.write], rfl⟩
  Move := by
    intro src dst fs h
    simp only [demoEnv] at h ⊢
    cases hs : fs src with
    | none => simp [hs] at h
    | some d => simp [hs, FS.write]
  Copy := by
    intro src dst fs h
    simp only [demoEnv] at h ⊢
    cases hs : fs src with
    | none => simp [hs] at h
    | some d => simp [hs, FS.write]

/-- The collaborators of `demoEnv` only write the files they are asked to write. -/
theorem demoEnv_keeps (p : String) : Keeps demoEnv p where
  openWorkspace := fun _ _ => rfl
  close := fun _ _ => rfl
  dngPreview := fun _ _ => rfl
  editXMP := fun path _ fs h => by simp [demoEnv, FS.write, Ne.symm h]
  runDNGConverter := fun _ output _ _ fs h => by simp [demoEnv, FS.write, Ne.symm h]
  Move := by
    intro src dst fs h1 h2
    simp only [demoEnv]
    cases hs : fs src with
    | none => simp [hs]
    | some d => simp [hs, FS.write, FS.erase, Ne.symm h1, Ne.symm h2]
  Copy := by
    intro src dst fs h2
    simp only [demoEnv]
    cases hs : fs src with
    | none => simp [hs]
    | some d => simp [hs, FS.write, Ne.symm h2]

/-- The environment `brokenEditEnv` keeps the contract: its metadata edit never succeeds. -/
theorem brokenEditEnv_contract :
    Contract brokenEditEnv (fun d => d = ascii "dng") (fun d => d = ascii "edited") where
  whiteBalance := fun _ _ => rfl
  hasEdits := fun _ _ => rfl
  editXMP := fun _ _ _ h => absurd h (by simp [brokenEditEnv])
  runDNGConverter := demoEnv_contract.runDNGConverter
  Move := demoEnv_contract.Move
  Copy := demoEnv_contract.Copy

/-- The collaborators of `brokenEditEnv` write no file they are not asked to write. -/
theorem brokenEditEnv_keeps (p : String) : Keeps brokenEditEnv p where
  openWorkspace := fun _ _ => rfl
  close := fun _ _ => rfl
  dngPreview := fun _ _ => rfl
  editXMP := fun _ _ _ _ => rfl
  runDNGConverter := (demoEnv_keeps p).runDNGConverter
  Move := (demoEnv_keeps p).Move
  Copy := (demoEnv_keeps p).Copy

/-- C6, witness: saving the edits of `photo.cr2` publishes the edited sidecar in `photo.xmp`
with the final rename; with a metadata editor that fails, `saveEdit` returns the error of the
editor and `photo.xmp` holds what it held before. -/
theorem saveEdit_atomic_witness :
    (((saveEdit demoEnv "photo.cr2" {}).run ⟨demoFS, []⟩).1 = none ∧
      ∃ d, ((saveEdit demoEnv "photo.cr2" {}).run ⟨demoFS, []⟩).2.fs "photo.xmp" = some d ∧
        d = ascii "edited") ∧
    ((saveEdit brokenEditEnv "photo.cr2" {}).run ⟨demoFS, []⟩).1 = some (.New "exiftool") ∧
    ((saveEdit brokenEditEnv "photo.cr2" {}).run ⟨demoFS, []⟩).2.fs "photo.xmp" =
      demoFS "photo.xmp" := by
  have h := (saveEdit_atomic demoEnv "photo.cr2" {} ⟨demoFS, []⟩ _ _ demoWorkspace none _
    demoEnv_contract rfl).2 rfl _ _ rfl
  have h2 := (h.2 _ rfl).2 "photo.xmp" _ rfl (demoEnv_keeps _) (by decide) (by decide)
  have h3 := (h2.2 (by decide)).2 _ rfl
  have b := ((saveEdit_atomic brokenEditEnv "photo.cr2" {} ⟨demoFS, []⟩ _ _ demoWorkspace none _
    brokenEditEnv_contract rfl).2 rfl _ _ rfl).1 (.New "exiftool") _ rfl
  exact ⟨⟨(congrArg Prod.fst h3.2.1).trans rfl, h3.2.2.2 rfl⟩, congrArg Prod.fst b.1,
    b.2 "photo.xmp" (brokenEditEnv_keeps _) (by decide)⟩

/-! ## Moving files -/

/-- A copy that succeeds leaves in `dst` what `src` holds and changes no other file. -/
theorem copyFile_ok {env : Env} {src dst : String} {w : World}
    (h : (copyFile env src dst w).1 = none) (hne : src ≠ dst) :
    (copyFile env src dst w).2.fs = w.fs.write dst ((w.fs src).getD []) := by
  unfold copyFile at h ⊢
  simp only [bind_apply, Open_apply, ne_eq, defer_apply, Create_apply, Copy_apply, Close_apply,
    pure_apply] at h ⊢
  cases h1 : faultOf env (.Open src) <;> cases h2 : w.fs src <;>
    simp [h1, h2] at h ⊢
  cases h3 : faultOf env (.Create dst) <;> simp [h3] at h ⊢
  cases h4 : faultOf env (.Copy dst src) <;> simp [h4] at h ⊢
  funext p
  simp [FS.write, hne, h2]
  split <;> simp_all

/-- A copy succeeds only if the source exists. -/
theorem copyFile_ok_src {env : Env} {src dst : String} {w : World}
    (h : (copyFile env src dst w).1 = none) : w.fs src ≠ none := by
  intro hs
  unfold copyFile at h
  simp only [bind_apply, Open_apply, hs] at h
  cases h1 : faultOf env (.Open src) <;> simp [h1] at h

/-- A rename that fails across devices changes no file. -/
theorem Rename_fs_of_isNotSameDevice {env : Env} {src dst : String} {w : World}
    (hx : isNotSameDevice env (os.Rename env src dst w).1 = true) :
    (os.Rename env src dst w).2.fs = w.fs := by
  rw [Rename_apply] at hx ⊢
  cases hf : env.fault (.Rename src dst) with
  | some e => simp [hf]
  | none =>
    by_cases h3 : src = "" ∨ dst = ""
    · simp [hf, h3]
    · cases hs : w.fs src with
      | none => simp [hf, hs, h3]
      | some d => simp [hf, hs, h3, isNotSameDevice] at hx

/-- After a delete that succeeds or reports a missing file, the file is gone and no other file
has changed. -/
theorem Remove_gone {env : Env} {name : String} {w : World}
    (h : (os.Remove env name w).1 = none ∨ os.IsNotExist (os.Remove env name w).1 = true) :
    (os.Remove env name w).2.fs = w.fs.erase name := by
  rw [Remove_apply] at h ⊢
  cases hf : env.fault (.Remove name) with
  | some e =>
    by_cases he : e.isNotExist = true
    · simp [hf, he]
    · simp [hf, he, os.IsNotExist] at h
  | none =>
    cases hs : w.fs name with
    | none =>
      funext q
      by_cases hq : q = name <;> simp [FS.erase, hq, hs]
    | some d => simp

/-- C10: when the rename succeeds or fails with an error that is not a cross-device link
error, `moveFile` is the rename alone: same result, same files, no further call. When the rename
fails with a cross-device link error, the copy succeeds and the delete succeeds or reports a
missing file, `moveFile` returns nil after the delete, `dst` holds what `src` held before the
call and `src` is gone. A copy that fails, and a delete that fails for another reason than a
missing file, end `moveFile` with their error. -/
theorem moveFile_cross_device (env : Env) (src dst : String) (w : World) :
    (isNotSameDevice env ((os.Rename env src dst).run w).1 = false →
      (moveFile env src dst).run w = (os.Rename env src dst).run w) ∧
    (isNotSameDevice env ((os.Rename env src dst).run w).1 = true →
      src ≠ dst →
      ((copyFile env src dst).run ((os.Rename env src dst).run w).2).1 = none →
      (((os.Remove env src).run
          ((copyFile env src dst).run ((os.Rename env src dst).run w).2).2).1 = none ∨
        os.IsNotExist ((os.Remove env src).run
          ((copyFile env src dst).run ((os.Rename env src dst).run w).2).2).1 = true) →
      (moveFile env src dst).run w = (none, ((os.Remove env src).run
          ((copyFile env src dst).run ((os.Rename env src dst).run w).2).2).2) ∧
      ((moveFile env src dst).run w).2.fs dst = w.fs src ∧
      ((moveFile env src dst).run w).2.fs src = none) ∧
    (isNotSameDevice env ((os.Rename env src dst).run w).1 = true →
      ((copyFile env src dst).run ((os.Rename env src dst).run w).2).1 ≠ none →
      (moveFile env src dst).run w =
        (copyFile env src dst).run ((os.Rename env src dst).run w).2) ∧
    (isNotSameDevice env ((os.Rename env src dst).run w).1 = true →
      ((copyFile env src dst).run ((os.Rename env src dst).run w).2).1 = none →
      os.IsNotExist ((os.Remove env src).run
          ((copyFile env src dst).run ((os.Rename env src dst).run w).2).2).1 = false →
      (moveFile env src dst).run w = (os.Remove env src).run
          ((copyFile env src dst).run ((os.Rename env src dst).run w).2).2) := by
  refine ⟨?_, ?_, ?_, ?_⟩
  · intro hx
    unfold moveFile
    simp only [run_eq, bind_apply] at hx ⊢
    generalize os.Rename env src dst w = R at hx ⊢
    simp [hx]
  · intro hx hne hc hrm
    simp only [run_eq] at hx hc hrm ⊢
    have hfs := copyFile_ok hc hne
    rw [Rename_fs_of_isNotSameDevice hx] at hfs
    have hgone := Remove_gone hrm
    have hsrc : w.fs src ≠ none := by
      have := copyFile_ok_src hc
      rwa [Rename_fs_of_isNotSameDevice hx] at this
    unfold moveFile
    simp only [bind_apply, hx, ↓reduceIte, hc, ne_eq, not_true_eq_false, pure_apply]
    generalize os.Remove env src (copyFile env src dst (os.Rename env src dst w).2).2 = D
      at hrm hgone ⊢
    have hres : (if os.IsNotExist D.1 = true then (pure none : Go (Option Error))
        else pure D.1) D.2 = (none, D.2) := by
      rcases hrm with h | h
      · split <;> simp [h]
      · simp [h]
    rw [hres, hgone, hfs]
    refine ⟨rfl, ?_, ?_⟩
    · simp only [FS.erase, FS.write, Ne.symm hne, ↓reduceIte]
      cases hs : w.fs src with
      | none => exact absurd hs hsrc
      | some d => rfl
    · simp [FS.erase]
  · intro hx hc
    simp only [run_eq] at hx hc ⊢
    unfold moveFile
    simp only [bind_apply, hx, ↓reduceIte, ne_eq, hc, not_false_eq_true, pure_apply]
    rfl
  · intro hx hc hrm
    simp only [run_eq] at hx hc hrm ⊢
    unfold moveFile
    simp only [bind_apply, hx, ↓reduceIte, ne_eq, hc, not_true_eq_false, hrm,
      Bool.false_eq_true, pure_apply]
    rfl

/-- C10, witness: the move of `tmp/temp.dng` on one device, across two devices, and across two
devices when the delete reports a missing file. -/
theorem moveFile_cross_device_witness :
    (moveFile demoEnv "tmp/temp.dng" "photo.dng.bak").run ⟨scratchFS, []⟩ =
        (os.Rename demoEnv "tmp/temp.dng" "photo.dng.bak").run ⟨scratchFS, []⟩ ∧
      (((moveFile crossDeviceEnv "tmp/temp.dng" "photo.dng.bak").run ⟨scratchFS, []⟩).1 = none ∧
        ((moveFile crossDeviceEnv "tmp/temp.dng" "photo.dng.bak").run ⟨scratchFS, []⟩).2.fs
            "photo.dng.bak" = scratchFS "tmp/temp.dng" ∧
        ((moveFile crossDeviceEnv "tmp/temp.dng" "photo.dng.bak").run ⟨scratchFS, []⟩).2.fs
            "tmp/temp.dng" = none) ∧
      (os.IsNotExist ((os.Remove racingEnv "tmp/temp.dng").run
          ((copyFile racingEnv "tmp/temp.dng" "photo.dng.bak").run
            ((os.Rename racingEnv "tmp/temp.dng" "photo.dng.bak").run ⟨scratchFS, []⟩).2).2).1 =
          true ∧
        ((moveFile racingEnv "tmp/temp.dng" "photo.dng.bak").run ⟨scratchFS, []⟩).1 = none ∧
        ((moveFile racingEnv "tmp/temp.dng" "photo.dng.bak").run ⟨scratchFS, []⟩).2.fs
            "photo.dng.bak" = scratchFS "tmp/temp.dng" ∧
        ((moveFile racingEnv "tmp/temp.dng" "photo.dng.bak").run ⟨scratchFS, []⟩).2.fs
            "tmp/temp.dng" = none) :=
  ⟨(moveFile_cross_device demoEnv "tmp/temp.dng" "photo.dng.bak" ⟨scratchFS, []⟩).1 (by decide),
   ⟨congrArg Prod.fst ((moveFile_cross_device crossDeviceEnv "tmp/temp.dng" "photo.dng.bak"
        ⟨scratchFS, []⟩).2.1 (by decide) (by decide) (by decide) (Or.inl (by decide))).1,
    ((moveFile_cross_device crossDeviceEnv "tmp/temp.dng" "photo.dng.bak"
        ⟨scratchFS, []⟩).2.1 (by decide) (by decide) (by decide) (Or.inl (by decide))).2⟩,
   ⟨by decide,
    congrArg Prod.fst ((moveFile_cross_device racingEnv "tmp/temp.dng" "photo.dng.bak"
        ⟨scratchFS, []⟩).2.1 (by decide) (by decide) (by decide) (Or.inr (by decide))).1,
    ((moveFile_cross_device racingEnv "tmp/temp.dng" "photo.dng.bak"
        ⟨scratchFS, []⟩).2.1 (by decide) (by decide) (by decide) (Or.inr (by decide))).2⟩⟩

/-! ## Rounding to float64 -/

/-- Rounding to even does not go below the floor. -/
theorem roundEven_floor_le (t : ℚ) : ⌊t⌋ ≤ roundEven t := by
  unfold roundEven
  split_ifs <;> omega

/-- Rounding to even does not go above the floor plus one. -/
theorem roundEven_le_floor_succ (t : ℚ) : roundEven t ≤ ⌊t⌋ + 1 := by
  unfold roundEven
  split_ifs <;> omega

/-- An integer is its own rounding. -/
theorem roundEven_intCast (z : ℤ) : roundEven z = z := by
  unfold roundEven
  simp

/-- An integer below a number is not above its rounding. -/
theorem le_roundEven {t : ℚ} {z : ℤ} (h : (z : ℚ) ≤ t) : z ≤ roundEven t :=
  le_trans (Int.le_floor.mpr h) (roundEven_floor_le t)

/-- An integer above a number is not below its rounding. -/
theorem roundEven_le {t : ℚ} {z : ℤ} (h : t ≤ (z : ℚ)) : roundEven t ≤ z := by
  rcases eq_or_lt_of_le h with h | h
  · rw [h, roundEven_intCast]
  · have : ⌊t⌋ < z := Int.floor_lt.mpr h
    have := roundEven_le_floor_succ t
    omega

/-- A number less than one half away from an integer rounds to it. -/
theorem roundEven_eq {t : ℚ} {n : ℤ} (h : |t - n| < 1 / 2) : roundEven t = n := by
  rw [abs_lt] at h
  obtain ⟨h1, h2⟩ := h
  have hf : ⌊t⌋ = n ∨ ⌊t⌋ = n - 1 := by
    have a : n - 1 ≤ ⌊t⌋ := Int.le_floor.mpr (by push_cast; linarith)
    have b : ⌊t⌋ < n + 1 := Int.floor_lt.mpr (by push_cast; linarith)
    omega
  unfold roundEven
  rcases hf with hf | hf
  · have : t - ⌊t⌋ < 1 / 2 := by rw [hf]; linarith
    rw [if_pos this, hf]
  · have h3 : ¬ (t - ⌊t⌋ < 1 / 2) := by rw [hf]; push_cast; linarith
    have h4 : 1 / 2 < t - ⌊t⌋ := by rw [hf]; push_cast; linarith
    rw [if_neg h3, if_pos h4, hf]
    omega

/-- The unit in the last place is positive. -/
theorem ulp_pos (q : ℚ) : 0 < ulp q := by
  unfold ulp; positivity

/-- The binade of a nonzero number. -/
theorem ulp_spec (q : ℚ) (hq : q ≠ 0) :
    ∃ e : ℤ, -1022 ≤ e ∧ ulp q = 2 ^ (e - 52) ∧ |q| < 2 ^ (e + 1) ∧
      (e = -1022 ∨ (2 : ℚ) ^ e ≤ |q|) := by
  have hpos : 0 < |q| := abs_pos.mpr hq
  refine ⟨max (Int.log 2 |q|) (-1022), le_max_right _ _, rfl, ?_, ?_⟩
  · have h1 := Int.lt_zpow_succ_log_self (R := ℚ) (b := 2) (by norm_num) |q|
    refine lt_of_lt_of_le h1 ?_
    have : Int.log 2 |q| + 1 ≤ max (Int.log 2 |q|) (-1022) + 1 := by
      have := le_max_left (Int.log 2 |q|) (-1022); omega
    exact_mod_cast zpow_le_zpow_right₀ (a := (2 : ℚ)) (by norm_num) this
  · by_cases h : -1022 ≤ Int.log 2 |q|
    · right
      rw [max_eq_left h]
      exact_mod_cast Int.zpow_log_le_self (R := ℚ) (b := 2) (by norm_num) hpos
    · left
      exact max_eq_right (by omega)

/-- The unit in the last place of a number in the binade of `2 ^ e`. -/
theorem ulp_eq {q : ℚ} {e : ℤ} (he : -1022 ≤ e) (h1 : (2 : ℚ) ^ e ≤ |q|) (h2 : |q| < 2 ^ (e + 1)) :
    ulp q = 2 ^ (e - 52) := by
  have hpos : 0 < |q| := lt_of_lt_of_le (by positivity) h1
  have hl : Int.log 2 |q| = e := by
    have a : e ≤ Int.log 2 |q| :=
      (Int.zpow_le_iff_le_log (R := ℚ) (b := 2) (by norm_num) hpos).mp (by exact_mod_cast h1)
    have b : Int.log 2 |q| < e + 1 :=
      (Int.lt_zpow_iff_log_lt (R := ℚ) (b := 2) (by norm_num) hpos).mp (by exact_mod_cast h2)
    omega
  unfold ulp
  rw [hl, max_eq_left he]

/-- The unit in the last place of a subnormal number. -/
theorem ulp_eq_sub {q : ℚ} (h2 : |q| < 2 ^ (-1022 : ℤ)) (hq : q ≠ 0) :
    ulp q = 2 ^ (-1074 : ℤ) := by
  have hpos : 0 < |q| := abs_pos.mpr hq
  have b : Int.log 2 |q| < -1022 :=
    (Int.lt_zpow_iff_log_lt (R := ℚ) (b := 2) (by norm_num) hpos).mp (by exact_mod_cast h2)
  unfold ulp
  rw [max_eq_right (by omega)]
  norm_num

/-- The unit in the last place of a number below `2 ^ (j + 53)` is at most `2 ^ j`. -/
theorem ulp_le {q : ℚ} {j : ℤ} (hq : q ≠ 0) (hj : -1074 ≤ j) (h : |q| < 2 ^ (j + 53)) :
    ulp q ≤ 2 ^ j := by
  have hpos : 0 < |q| := abs_pos.mpr hq
  have b : Int.log 2 |q| < j + 53 :=
    (Int.lt_zpow_iff_log_lt (R := ℚ) (b := 2) (by norm_num) hpos).mp (by exact_mod_cast h)
  unfold ulp
  apply zpow_le_zpow_right₀ (by norm_num)
  have := max_le (a := Int.log 2 |q|) (b := -1022) (c := j + 52) (by omega) (by omega)
  omega

/-- Zero is its own rounding. -/
theorem nearest_zero : nearest 0 = 0 := by
  unfold nearest
  have : roundEven (0 / ulp 0) = 0 := by
    rw [zero_div]; exact_mod_cast roundEven_intCast 0
  rw [this]; simp

/-- A multiple of the unit in the last place that bounds a number bounds its rounding. -/
theorem nearest_le {q : ℚ} {c j : ℤ} (hj : ulp q ≤ 2 ^ j) (h : q ≤ c * 2 ^ j) :
    nearest q ≤ c * 2 ^ j := by
  by_cases hq : q = 0
  · subst hq; rw [nearest_zero]; exact h
  obtain ⟨e, -, hu, -, -⟩ := ulp_spec q hq
  rw [hu] at hj
  have hej : e - 52 ≤ j := (zpow_le_zpow_iff_right₀ (a := (2 : ℚ)) (by norm_num)).mp hj
  obtain ⟨k, hk⟩ := Int.eq_ofNat_of_zero_le (show 0 ≤ j - (e - 52) by omega)
  have h2 : (2 : ℚ) ^ j = 2 ^ k * 2 ^ (e - 52) := by
    rw [← zpow_natCast, ← zpow_add₀ (by norm_num), ← hk]; congr 1; omega
  have hupos : (0 : ℚ) < 2 ^ (e - 52) := by positivity
  unfold nearest
  rw [hu, h2, ← mul_assoc]
  apply mul_le_mul_of_nonneg_right _ hupos.le
  have : q / 2 ^ (e - 52) ≤ ((c * 2 ^ k : ℤ) : ℚ) := by
    rw [div_le_iff₀ hupos]; push_cast; rw [mul_assoc, ← h2]; exact h
  exact_mod_cast roundEven_le this

/-- A multiple of the unit in the last place below a number is not above its rounding. -/
theorem le_nearest {q : ℚ} {c j : ℤ} (hj : ulp q ≤ 2 ^ j) (h : c * 2 ^ j ≤ q) :
    c * 2 ^ j ≤ nearest q := by
  by_cases hq : q = 0
  · subst hq; rw [nearest_zero]; exact h
  obtain ⟨e, -, hu, -, -⟩ := ulp_spec q hq
  rw [hu] at hj
  have hej : e - 52 ≤ j := (zpow_le_zpow_iff_right₀ (a := (2 : ℚ)) (by norm_num)).mp hj
  obtain ⟨k, hk⟩ := Int.eq_ofNat_of_zero_le (show 0 ≤ j - (e - 52) by omega)
  have h2 : (2 : ℚ) ^ j = 2 ^ k * 2 ^ (e - 52) := by
    rw [← zpow_natCast, ← zpow_add₀ (by norm_num), ← hk]; congr 1; omega
  have hupos : (0 : ℚ) < 2 ^ (e - 52) := by positivity
  unfold nearest
  rw [hu, h2, ← mul_assoc]
  apply mul_le_mul_of_nonneg_right _ hupos.le
  have : ((c * 2 ^ k : ℤ) : ℚ) ≤ q / 2 ^ (e - 52) := by
    rw [le_div_iff₀ hupos]; push_cast; rw [mul_assoc, ← h2]; exact h
  exact_mod_cast le_roundEven this

/-- A number on the grid of its binade is its own rounding. -/
theorem nearest_eq_self {q : ℚ} {c j : ℤ} (hj : ulp q ≤ 2 ^ j) (h : q = c * 2 ^ j) :
    nearest q = q :=
  le_antisymm (by
    have := nearest_le hj h.le
    rw [← h] at this; exact this) (by
    have := le_nearest hj h.ge
    rw [← h] at this; exact this)

/-- The value of a rounding, from its binade and its mantissa. -/
theorem nearest_eq {q : ℚ} {e n : ℤ} (he : -1022 ≤ e) (h1 : (2 : ℚ) ^ e ≤ |q|)
    (h2 : |q| < 2 ^ (e + 1)) (hn : |q / 2 ^ (e - 52) - n| < 1 / 2) :
    nearest q = n * 2 ^ (e - 52) := by
  unfold nearest
  rw [ulp_eq he h1 h2, roundEven_eq hn]

/-- The mantissa of a rounding has at most 53 bits. -/
theorem mantissa_le (q : ℚ) (hq : q ≠ 0) :
    ∃ (e n : ℤ), -1022 ≤ e ∧ nearest q = n * 2 ^ (e - 52) ∧ |n| ≤ 2 ^ 53 ∧ |q| < 2 ^ (e + 1) ∧
      ulp q = 2 ^ (e - 52) := by
  obtain ⟨e, he, hu, hlt, -⟩ := ulp_spec q hq
  refine ⟨e, roundEven (q / ulp q), he, by rw [nearest, hu], ?_, hlt, hu⟩
  have hupos : (0 : ℚ) < 2 ^ (e - 52) := by positivity
  have h53 : (2 : ℚ) ^ (e + 1) = 2 ^ 53 * 2 ^ (e - 52) := by
    rw [← zpow_natCast, ← zpow_add₀ (by norm_num)]; congr 1; omega
  rw [abs_lt] at hlt
  rw [hu, abs_le]
  constructor
  · have : (((-(2 ^ 53) : ℤ)) : ℚ) ≤ q / 2 ^ (e - 52) := by
      have h := hlt.1.le
      rw [h53] at h
      rw [le_div_iff₀ hupos]; push_cast; norm_num at h ⊢; linarith
    exact le_roundEven this
  · have : q / 2 ^ (e - 52) ≤ (((2 ^ 53 : ℤ)) : ℚ) := by
      have h := hlt.2.le
      rw [h53] at h
      rw [div_le_iff₀ hupos]; push_cast; norm_num at h ⊢; linarith
    exact roundEven_le this

/-- A rounding lies on the grid of every binade up to its own. -/
theorem nearest_grid (q : ℚ) (j : ℤ) (h : (2 : ℚ) ^ j ≤ |nearest q|) :
    ∃ z : ℤ, nearest q = z * 2 ^ (j - 52) := by
  by_cases hq : q = 0
  · subst hq
    rw [nearest_zero, abs_zero] at h
    exact absurd h (not_le.mpr (by positivity))
  obtain ⟨e, n, -, hp, hn, -, -⟩ := mantissa_le q hq
  rw [hp] at h ⊢
  have hupos : (0 : ℚ) < 2 ^ (e - 52) := by positivity
  by_cases hje : j ≤ e
  · obtain ⟨k, hk⟩ := Int.eq_ofNat_of_zero_le (show 0 ≤ e - j by omega)
    refine ⟨n * 2 ^ k, ?_⟩
    have : (2 : ℚ) ^ (e - 52) = 2 ^ k * 2 ^ (j - 52) := by
      rw [← zpow_natCast, ← zpow_add₀ (by norm_num), ← hk]; congr 1; omega
    rw [this]; push_cast; ring
  · have hj1 : e + 1 ≤ j := by omega
    have h53 : (2 : ℚ) ^ (e + 1) = 2 ^ 53 * 2 ^ (e - 52) := by
      rw [← zpow_natCast, ← zpow_add₀ (by norm_num)]; congr 1; omega
    have hge : (2 : ℚ) ^ (e + 1) ≤ |(n : ℚ) * 2 ^ (e - 52)| :=
      le_trans (zpow_le_zpow_right₀ (by norm_num) hj1) h
    rw [abs_mul, abs_of_pos hupos, h53] at hge
    have hn' : (2 : ℚ) ^ 53 ≤ |(n : ℚ)| := le_of_mul_le_mul_right hge hupos
    have hn2 : (2 : ℤ) ^ 53 ≤ |n| := by exact_mod_cast hn'
    have hnabs : |n| = 2 ^ 53 := le_antisymm hn hn2
    have hj : j = e + 1 := by
      by_contra hne
      have hj2 : e + 2 ≤ j := by omega
      have : (2 : ℚ) ^ (e + 2) ≤ |(n : ℚ) * 2 ^ (e - 52)| :=
        le_trans (zpow_le_zpow_right₀ (by norm_num) hj2) h
      rw [abs_mul, abs_of_pos hupos] at this
      have h54 : (2 : ℚ) ^ (e + 2) = 2 ^ 54 * 2 ^ (e - 52) := by
        rw [← zpow_natCast, ← zpow_add₀ (by norm_num)]; congr 1; omega
      rw [h54] at this
      have h3 : (2 : ℚ) ^ 54 ≤ |(n : ℚ)| := le_of_mul_le_mul_right this hupos
      have h4 : (2 : ℤ) ^ 54 ≤ |n| := by exact_mod_cast h3
      rw [hnabs] at h4
      norm_num at h4
    subst hj
    have hu2 : (2 : ℚ) ^ (e + 1 - 52) = 2 * 2 ^ (e - 52) := by
      rw [show e + 1 - 52 = 1 + (e - 52) by ring, zpow_add₀ (by norm_num)]; norm_num
    rcases abs_cases n with ⟨h1, -⟩ | ⟨h1, -⟩
    · refine ⟨2 ^ 52, ?_⟩
      have : n = 2 ^ 53 := by rw [← h1, hnabs]
      rw [this, hu2]; push_cast; ring
    · refine ⟨-(2 ^ 52), ?_⟩
      have : n = -(2 ^ 53) := by rw [← hnabs, h1]; ring
      rw [this, hu2]; push_cast; ring

/-- The unit in the last place next to zero, by the convention of `Int.log`. -/
theorem ulp_zero : ulp 0 = 2 ^ (-52 : ℤ) := by
  unfold ulp
  rw [abs_zero, Int.log_of_right_le_zero 2 (le_refl (0 : ℚ))]
  norm_num

/-- The unit in the last place of a number below `2 ^ (j + 53)`, zero included. -/
theorem ulp_le_of_lt {q : ℚ} {j : ℤ} (hj : -52 ≤ j) (h : |q| < 2 ^ (j + 53)) : ulp q ≤ 2 ^ j := by
  by_cases hq : q = 0
  · subst hq; rw [ulp_zero]; exact zpow_le_zpow_right₀ (by norm_num) hj
  · exact ulp_le hq (by omega) h

/-- Adding one half to a float64 of at least 15.5 and below `2 ^ 52` and discarding the
fraction rounds it to the nearest integer. -/
theorem floor_nearest_add_half (q : ℚ) (h16 : 16 ≤ nearest q + 1 / 2) (hhi : nearest q < 2 ^ 52) :
    ⌊nearest (nearest q + 1 / 2)⌋ = ⌊nearest q + 1 / 2⌋ := by
  obtain ⟨p, hp⟩ : ∃ p, p = nearest q := ⟨_, rfl⟩
  rw [← hp] at h16 hhi ⊢
  obtain ⟨s, hs⟩ : ∃ s, s = p + 1 / 2 := ⟨_, rfl⟩
  rw [← hs] at h16 ⊢
  have hs0 : s ≠ 0 := by linarith
  have hsabs : |s| = s := abs_of_pos (by linarith)
  obtain ⟨e, he, hu, hlt, hge⟩ := ulp_spec s hs0
  rw [hsabs] at hlt hge
  have he4 : 4 ≤ e := by
    by_contra hcon
    have h1 : e + 1 ≤ 4 := by omega
    have : (2 : ℚ) ^ (e + 1) ≤ 2 ^ (4 : ℤ) := zpow_le_zpow_right₀ (by norm_num) h1
    norm_num at this
    linarith
  have hge' : (2 : ℚ) ^ e ≤ s := by
    rcases hge with h | h
    · omega
    · exact h
  have he52 : e ≤ 52 := by
    by_contra hcon
    have h1 : (53 : ℤ) ≤ e := by omega
    have : (2 : ℚ) ^ (53 : ℤ) ≤ 2 ^ e := zpow_le_zpow_right₀ (by norm_num) h1
    norm_num at this
    have : s < 2 ^ 52 + 1 / 2 := by linarith
    norm_num at this
    linarith
  obtain ⟨k, hk⟩ := Int.eq_ofNat_of_zero_le (show 0 ≤ e by omega)
  have hek : (2 : ℚ) ^ e = ((2 ^ k : ℤ) : ℚ) := by rw [hk]; push_cast; rw [zpow_natCast]
  by_cases hcase : (2 : ℚ) ^ e ≤ p
  · -- same binade: the sum is exact
    have hplt : e ≤ 51 := by
      by_contra hcon
      have h1 : (52 : ℤ) ≤ e := by omega
      have : (2 : ℚ) ^ (52 : ℤ) ≤ 2 ^ e := zpow_le_zpow_right₀ (by norm_num) h1
      norm_num at this
      linarith
    have hpabs : (2 : ℚ) ^ e ≤ |nearest q| := by
      rw [← hp, abs_of_pos (lt_of_lt_of_le (by positivity) hcase)]; exact hcase
    obtain ⟨z, hz⟩ := nearest_grid q e hpabs
    obtain ⟨m, hm⟩ := Int.eq_ofNat_of_zero_le (show 0 ≤ 51 - e by omega)
    have hhalf : (1 / 2 : ℚ) = 2 ^ m * 2 ^ (e - 52) := by
      rw [← zpow_natCast, ← zpow_add₀ (by norm_num), ← hm]
      rw [show (51 - e + (e - 52) : ℤ) = -1 by ring]; norm_num
    have hsum : s = ((z + 2 ^ m : ℤ) : ℚ) * 2 ^ (e - 52) := by
      rw [hs, hp, hz, hhalf]; push_cast; ring
    rw [nearest_eq_self (hu.le) hsum]
  · -- the sum crosses into the next binade
    have hcase' : p < 2 ^ e := not_le.mp hcase
    have hfl : ⌊s⌋ = 2 ^ k := by
      rw [Int.floor_eq_iff]
      rw [hek] at hge' hcase'
      exact ⟨hge', by linarith⟩
    by_cases h52 : e = 52
    · -- the only such float64 is `2 ^ 52 - 1 / 2`
      subst h52
      norm_num at hcase' hge'
      have hpabs : (2 : ℚ) ^ (51 : ℤ) ≤ |nearest q| := by
        rw [← hp, abs_of_pos (by linarith)]; norm_num; linarith
      obtain ⟨z, hz⟩ := nearest_grid q 51 hpabs
      rw [← hp] at hz
      norm_num at hz
      have hz1 : (z : ℚ) < 2 ^ 53 := by norm_num; linarith
      have hz2 : (2 : ℚ) ^ 53 - 1 ≤ z := by norm_num; linarith
      have hz3 : z < 2 ^ 53 := by exact_mod_cast hz1
      have hz4 : (2 : ℤ) ^ 53 - 1 ≤ z := by exact_mod_cast hz2
      have hz5 : z = 2 ^ 53 - 1 := by omega
      have hsv : s = ((2 ^ 52 : ℤ) : ℚ) * 2 ^ (0 : ℤ) := by
        rw [hs, hz, hz5]; push_cast; norm_num
      have hu0 : ulp s ≤ 2 ^ (0 : ℤ) := by rw [hu]; norm_num
      rw [nearest_eq_self hu0 hsv]
    · have he51 : e ≤ 51 := by omega
      have hlo : ((2 ^ k : ℤ) : ℚ) ≤ nearest s := by
        have hj : ulp s ≤ 2 ^ (0 : ℤ) := by
          rw [hu]; exact zpow_le_zpow_right₀ (by norm_num) (by omega)
        have := le_nearest (q := s) (c := 2 ^ k) (j := 0) hj (by
          rw [← hek]; norm_num; exact hge')
        simpa using this
      have hup : nearest s ≤ ((2 ^ k : ℤ) : ℚ) + 1 / 2 := by
        have hj : ulp s ≤ 2 ^ (-1 : ℤ) := by
          rw [hu]; exact zpow_le_zpow_right₀ (by norm_num) (by omega)
        have := nearest_le (q := s) (c := 2 ^ (k + 1) + 1) (j := -1) hj (by
          have hc := hcase'
          rw [hek] at hc
          push_cast at hc
          push_cast; norm_num; rw [pow_succ]; linarith)
        refine le_trans this (le_of_eq ?_)
        push_cast; norm_num; rw [pow_succ]; ring
      rw [hfl, Int.floor_eq_iff]
      exact ⟨hlo, by linarith⟩

/-- Adding one half to a float64 below 15.5 gives a float64 below 16. -/
theorem nearest_add_half_lt (q : ℚ) (h16 : nearest q + 1 / 2 < 16) :
    nearest (nearest q + 1 / 2) < 16 := by
  obtain ⟨p, hp⟩ : ∃ p, p = nearest q := ⟨_, rfl⟩
  rw [← hp] at h16 ⊢
  obtain ⟨s, hs⟩ : ∃ s, s = p + 1 / 2 := ⟨_, rfl⟩
  rw [← hs] at h16 ⊢
  by_cases h0 : s ≤ 0
  · -- a sum that is not positive is rounded to a number that is not positive
    by_cases hbig : |s| < 2 ^ (116 : ℤ)
    · have hj : ulp s ≤ 2 ^ (63 : ℤ) := ulp_le_of_lt (by norm_num) (by norm_num at hbig ⊢; exact hbig)
      have := nearest_le (q := s) (c := 0) (j := 63) hj (by simpa using h0)
      simp at this
      linarith
    · have hs0 : s ≠ 0 := by
        intro h; rw [h] at hbig; norm_num at hbig
      have hneg : s < 0 := lt_of_le_of_ne h0 hs0
      have hu := ulp_pos s
      have : nearest s ≤ 0 := by
        unfold nearest
        have h1 : s / ulp s ≤ ((0 : ℤ) : ℚ) := by
          rw [div_le_iff₀ hu]; simpa using h0
        have h2 := roundEven_le h1
        have h3 : (roundEven (s / ulp s) : ℚ) ≤ 0 := by exact_mod_cast h2
        exact mul_nonpos_of_nonpos_of_nonneg h3 hu.le
      linarith
  · have hpos : 0 < s := not_le.mp h0
    have habs : |s| = s := abs_of_pos hpos
    by_cases h8 : s ≤ 17 / 2
    · have hj : ulp s ≤ 2 ^ (-1 : ℤ) :=
        ulp_le_of_lt (by norm_num) (by rw [habs]; norm_num; linarith)
      have := nearest_le (q := s) (c := 17) (j := -1) hj (by norm_num; linarith)
      norm_num at this
      linarith
    · have hp8 : (8 : ℚ) < p := by linarith [not_le.mp h8]
      have hpabs : (2 : ℚ) ^ (3 : ℤ) ≤ |nearest q| := by
        rw [← hp, abs_of_pos (by linarith)]; norm_num; linarith
      obtain ⟨z, hz⟩ := nearest_grid q 3 hpabs
      rw [← hp] at hz
      have hu : ulp s = 2 ^ ((3 : ℤ) - 52) :=
        ulp_eq (by norm_num) (by rw [habs]; norm_num; linarith [not_le.mp h8])
          (by rw [habs]; norm_num; linarith)
      have hsum : s = ((z + 2 ^ 48 : ℤ) : ℚ) * 2 ^ ((3 : ℤ) - 52) := by
        rw [hs, hz]; push_cast; norm_num; ring
      rw [nearest_eq_self hu.le hsum]
      exact h16

/-- The closure `round` on a float64 below `2 ^ 52`: zero is unconstrained, any other value is
rounded to the nearest integer and raised to 16. -/
theorem round_nearest (convert : float64 → Int) (q : ℚ) (hlo : -(2 ^ 63) ≤ nearest q)
    (hhi : nearest q < 2 ^ 52) :
    FitImage.round convert (.fin (nearest q)) =
      if nearest q = 0 then MaxInt else max 16 ⌊nearest q + 1 / 2⌋ := by
  obtain ⟨p, hp⟩ : ∃ p, p = nearest q := ⟨_, rfl⟩
  unfold FitImage.round
  by_cases hp0 : nearest q = 0
  · simp [hp0, float64.eq]
  have hne : float64.eq (.fin (nearest q)) (.fin 0) = false := by simp [float64.eq, hp0]
  rw [hne]
  simp only [Bool.false_eq_true, ↓reduceIte, hp0]
  obtain ⟨s, hs⟩ : ∃ s, s = nearest q + 1 / 2 := ⟨_, rfl⟩
  have hsabs : |s| < 2 ^ (116 : ℤ) := by
    rw [abs_lt]; constructor <;> norm_num <;> linarith
  have hj63 : ulp s ≤ 2 ^ (63 : ℤ) := ulp_le_of_lt (by norm_num) (by norm_num at hsabs ⊢; exact hsabs)
  have hj53 : ulp s ≤ 2 ^ (53 : ℤ) := ulp_le_of_lt (by norm_num) (by
    rw [abs_lt]; constructor <;> norm_num <;> linarith)
  have hlow : -(2 ^ 63 : ℚ) ≤ nearest s := by
    have := le_nearest (q := s) (c := -1) (j := 63) hj63 (by norm_num; linarith)
    norm_num at this ⊢; linarith
  have hupp : nearest s ≤ 2 ^ 53 := by
    have := nearest_le (q := s) (c := 1) (j := 53) hj53 (by norm_num; linarith)
    norm_num at this ⊢; linarith
  have hfin : |nearest s| < 2 ^ 1024 := by
    rw [abs_lt]; constructor
    · refine lt_of_lt_of_le ?_ hlow; norm_num
    · refine lt_of_le_of_lt hupp ?_; norm_num
  have hadd : float64.add (.fin (nearest q)) (.fin (1 / 2)) = .fin (nearest s) := by
    simp only [float64.add, float64.round, ← hs, hfin, ↓reduceIte]
  rw [hadd, ← hs]
  -- the conversion is in range
  have htr : MinInt ≤ (if 0 ≤ nearest s then ⌊nearest s⌋ else ⌈nearest s⌉) ∧
      (if 0 ≤ nearest s then ⌊nearest s⌋ else ⌈nearest s⌉) ≤ MaxInt := by
    split
    · constructor
      · have : (0 : ℤ) ≤ ⌊nearest s⌋ := Int.floor_nonneg.mpr ‹_›
        unfold MinInt MaxInt; omega
      · have : ⌊nearest s⌋ ≤ 2 ^ 53 := by
          have := Int.floor_le (nearest s)
          have h2 : ((⌊nearest s⌋ : ℤ) : ℚ) ≤ ((2 ^ 53 : ℤ) : ℚ) := by push_cast; linarith
          exact_mod_cast h2
        unfold MaxInt; omega
    · constructor
      · have : (-(2 ^ 63) : ℤ) ≤ ⌈nearest s⌉ := by
          rw [Int.le_ceil_iff]; push_cast; linarith
        unfold MinInt MaxInt; omega
      · have : ⌈nearest s⌉ ≤ 0 := Int.ceil_le.mpr (by push_cast; linarith)
        unfold MaxInt; omega
  simp only [float64.toInt, htr, and_self, ↓reduceIte]
  by_cases h16 : 16 ≤ s
  · have hfl := floor_nearest_add_half q (hs ▸ h16) hhi
    rw [← hs] at hfl
    have hn16 : (16 : ℚ) ≤ nearest s := by
      have := le_nearest (q := s) (c := 1) (j := 4) (ulp_le_of_lt (by norm_num) (by
        rw [abs_lt]; constructor <;> norm_num <;> linarith)) (by norm_num; linarith)
      norm_num at this; linarith
    have hnn : 0 ≤ nearest s := by linarith
    have hfs : (16 : ℤ) ≤ ⌊s⌋ := Int.le_floor.mpr (by push_cast; linarith)
    simp only [hnn, ↓reduceIte, hfl]
    rw [if_neg (by omega), max_eq_right hfs]
  · have hlt := nearest_add_half_lt q (hs ▸ not_le.mp h16)
    rw [← hs] at hlt
    have hfs : ⌊s⌋ < 16 := Int.floor_lt.mpr (by push_cast; linarith [not_le.mp h16])
    have : (if 0 ≤ nearest s then ⌊nearest s⌋ else ⌈nearest s⌉) < 16 := by
      split
      · exact Int.floor_lt.mpr (by push_cast; linarith)
      · have : ⌈nearest s⌉ ≤ 0 := Int.ceil_le.mpr (by push_cast; linarith)
        omega
    rw [if_pos this, max_eq_left (by omega)]

/-- The rounding of a positive number, from its binade `e` and its mantissa `n`. -/
theorem round_cert {q r : ℚ} (e n : ℤ) (he : -1022 ≤ e) (h1 : (2 : ℚ) ^ e ≤ q)
    (h2 : q < 2 ^ (e + 1)) (hn1 : ((n : ℚ) - 1 / 2) * 2 ^ (e - 52) < q)
    (hn2 : q < ((n : ℚ) + 1 / 2) * 2 ^ (e - 52)) (hr : r = n * 2 ^ (e - 52))
    (hmax : e ≤ 1022) :
    float64.round q = .fin r := by
  have hq : 0 < q := lt_of_lt_of_le (by positivity) h1
  have hu : (0 : ℚ) < 2 ^ (e - 52) := by positivity
  have hnear : nearest q = r := by
    rw [hr]
    apply nearest_eq he (by rwa [abs_of_pos hq]) (by rwa [abs_of_pos hq])
    rw [abs_lt]
    constructor
    · have : (n : ℚ) - 1 / 2 < q / 2 ^ (e - 52) := by rwa [lt_div_iff₀ hu]
      linarith
    · have : q / 2 ^ (e - 52) < (n : ℚ) + 1 / 2 := by rwa [div_lt_iff₀ hu]
      linarith
  have hn0 : (0 : ℚ) ≤ r := by
    rw [← hnear]
    have := le_nearest (q := q) (c := 0) (j := e - 52) (ulp_eq he (by rwa [abs_of_pos hq])
      (by rwa [abs_of_pos hq])).le (by simpa using hq.le)
    simpa using this
  have hfin : r < 2 ^ 1024 := by
    have h3 : (2 : ℚ) ^ (e - 52) ≤ 2 ^ (e + 1) := zpow_le_zpow_right₀ (by norm_num) (by omega)
    have h4 : (2 : ℚ) ^ (e + 2) = 2 * 2 ^ (e + 1) := by
      rw [show e + 2 = 1 + (e + 1) by ring, zpow_add₀ (by norm_num)]; norm_num
    have h5 : (2 : ℚ) ^ (e + 2) ≤ 2 ^ ((1024 : ℕ) : ℤ) :=
      zpow_le_zpow_right₀ (by norm_num) (by omega)
    rw [zpow_natCast] at h5
    have h7 : r < 2 ^ (e + 2) := by rw [hr]; nlinarith
    exact lt_of_lt_of_le h7 h5
  have habs : |r| < 2 ^ 1024 := by
    rw [abs_of_nonneg hn0]; exact hfin
  unfold float64.round
  rw [hnear]
  exact if_pos habs

/-- The root of a positive number, from its binade `e` and its mantissa `n`. -/
theorem Sqrt_cert {q r : ℚ} (e : ℤ) (n : ℕ) (h1 : (4 : ℚ) ^ e ≤ q) (h2 : q < 4 ^ (e + 1))
    (hn1 : ((n : ℚ) - 1 / 2) ^ 2 < q / (2 ^ (e - 52) * 2 ^ (e - 52)))
    (hn2 : q / (2 ^ (e - 52) * 2 ^ (e - 52)) < ((n : ℚ) + 1 / 2) ^ 2)
    (hr : r = n * 2 ^ (e - 52)) :
    math.Sqrt (.fin q) = .fin r := by
  have hq : 0 < q := lt_of_lt_of_le (by positivity) h1
  have h4 : ∀ z : ℤ, (4 : ℚ) ^ z = 2 ^ (2 * z) := by
    intro z; rw [zpow_mul]; norm_num
  have hlog : Int.log 2 q / 2 = e := by
    have a : 2 * e ≤ Int.log 2 q :=
      (Int.zpow_le_iff_le_log (R := ℚ) (b := 2) (by norm_num) hq).mp (by
        rw [h4] at h1; exact_mod_cast h1)
    have b : Int.log 2 q < 2 * (e + 1) :=
      (Int.lt_zpow_iff_log_lt (R := ℚ) (b := 2) (by norm_num) hq).mp (by
        rw [h4] at h2; exact_mod_cast h2)
    omega
  obtain ⟨m, hm⟩ : ∃ m, m = q / (2 ^ (e - 52) * 2 ^ (e - 52)) := ⟨_, rfl⟩
  rw [← hm] at hn1 hn2
  have hm0 : 0 ≤ m := by rw [hm]; positivity
  obtain ⟨s, hs⟩ : ∃ s, s = Nat.sqrt ⌊m⌋.toNat := ⟨_, rfl⟩
  have hfl : ((⌊m⌋.toNat : ℕ) : ℚ) ≤ m := by
    have := Int.floor_le m
    have h0 : 0 ≤ ⌊m⌋ := Int.floor_nonneg.mpr hm0
    have h3 : ((⌊m⌋.toNat : ℕ) : ℤ) = ⌊m⌋ := Int.toNat_of_nonneg h0
    have h5 : ((⌊m⌋.toNat : ℕ) : ℚ) = ((⌊m⌋ : ℤ) : ℚ) := by exact_mod_cast h3
    rw [h5]; exact this
  have hfl2 : m < ((⌊m⌋.toNat : ℕ) : ℚ) + 1 := by
    have := Int.lt_floor_add_one m
    have h0 : 0 ≤ ⌊m⌋ := Int.floor_nonneg.mpr hm0
    have h3 : ((⌊m⌋.toNat : ℕ) : ℤ) = ⌊m⌋ := Int.toNat_of_nonneg h0
    have h5 : ((⌊m⌋.toNat : ℕ) : ℚ) = ((⌊m⌋ : ℤ) : ℚ) := by exact_mod_cast h3
    rw [h5]; exact this
  have hs1 : ((s : ℚ)) ^ 2 ≤ m := by
    have := Nat.sqrt_le' ⌊m⌋.toNat
    rw [← hs] at this
    have h : ((s ^ 2 : ℕ) : ℚ) ≤ ((⌊m⌋.toNat : ℕ) : ℚ) := by exact_mod_cast this
    push_cast at h; linarith
  have hs2 : m < ((s : ℚ) + 1) ^ 2 := by
    have := Nat.lt_succ_sqrt' ⌊m⌋.toNat
    rw [← hs] at this
    have h : ((⌊m⌋.toNat : ℕ) : ℚ) + 1 ≤ (((s.succ) ^ 2 : ℕ) : ℚ) := by exact_mod_cast this
    push_cast at h; linarith
  -- the floor of the root is `n` or `n - 1`
  have hsn : s ≤ n := by
    by_contra hcon
    have : n + 1 ≤ s := by omega
    have h : (n : ℚ) + 1 ≤ s := by exact_mod_cast this
    nlinarith
  have hns : n ≤ s + 1 := by
    by_contra hcon
    have : s + 2 ≤ n := by omega
    have h : (s : ℚ) + 2 ≤ n := by exact_mod_cast this
    nlinarith
  have hpick : (if m < ((s : ℚ) + 1 / 2) ^ 2 then s
      else if ((s : ℚ) + 1 / 2) ^ 2 < m then s + 1
      else if s % 2 = 0 then s else s + 1) = n := by
    rcases Nat.eq_or_lt_of_le hsn with h | h
    · rw [h, if_pos hn2]
    · have hsn1 : n = s + 1 := by omega
      have hlt : ((s : ℚ) + 1 / 2) ^ 2 < m := by
        have : (n : ℚ) - 1 / 2 = s + 1 / 2 := by rw [hsn1]; push_cast; ring
        rw [← this]; exact hn1
      rw [if_neg (not_lt.mpr hlt.le), if_pos hlt, hsn1]
  simp only [math.Sqrt, not_lt.mpr hq.le, hq.ne', ↓reduceIte, hlog, ← hm, ← hs, hpick, hr]

/-- The function `math.Sqrt` rounds the root correctly: its value on a positive number is a
multiple `n * u` of the unit in the last place `u` of the root, and lies within half a unit of
the real square root. -/
theorem Sqrt_correctly_rounded (q : ℚ) (hq : 0 < q) :
    ∃ n : ℕ, math.Sqrt (.fin q) = .fin (n * 2 ^ (Int.log 2 q / 2 - 52)) ∧
      |Real.sqrt (q : ℝ) - ((n * 2 ^ (Int.log 2 q / 2 - 52) : ℚ) : ℝ)| ≤
        ((2 ^ (Int.log 2 q / 2 - 52) / 2 : ℚ) : ℝ) := by
  obtain ⟨u, hu⟩ : ∃ u : ℚ, u = 2 ^ (Int.log 2 q / 2 - 52) := ⟨_, rfl⟩
  have hupos : 0 < u := by rw [hu]; positivity
  obtain ⟨m, hm⟩ : ∃ m, m = q / (u * u) := ⟨_, rfl⟩
  have hm0 : 0 ≤ m := by rw [hm]; positivity
  obtain ⟨s, hs⟩ : ∃ s, s = Nat.sqrt ⌊m⌋.toNat := ⟨_, rfl⟩
  have h0 : 0 ≤ ⌊m⌋ := Int.floor_nonneg.mpr hm0
  have h5 : ((⌊m⌋.toNat : ℕ) : ℚ) = ((⌊m⌋ : ℤ) : ℚ) := by
    exact_mod_cast Int.toNat_of_nonneg h0
  have hs1 : ((s : ℚ)) ^ 2 ≤ m := by
    have := Nat.sqrt_le' ⌊m⌋.toNat
    rw [← hs] at this
    have h : ((s ^ 2 : ℕ) : ℚ) ≤ ((⌊m⌋.toNat : ℕ) : ℚ) := by exact_mod_cast this
    have := Int.floor_le m
    push_cast at h; linarith
  have hs2 : m < ((s : ℚ) + 1) ^ 2 := by
    have := Nat.lt_succ_sqrt' ⌊m⌋.toNat
    rw [← hs] at this
    have h : ((⌊m⌋.toNat : ℕ) : ℚ) + 1 ≤ (((s.succ) ^ 2 : ℕ) : ℚ) := by exact_mod_cast this
    have := Int.lt_floor_add_one m
    push_cast at h; linarith
  obtain ⟨n, hn⟩ : ∃ n : ℕ, n = (if m < ((s : ℚ) + 1 / 2) ^ 2 then s
      else if ((s : ℚ) + 1 / 2) ^ 2 < m then s + 1
      else if s % 2 = 0 then s else s + 1) := ⟨_, rfl⟩
  have hval : math.Sqrt (.fin q) = .fin (n * u) := by
    simp only [math.Sqrt, not_lt.mpr hq.le, hq.ne', ↓reduceIte, ← hu, ← hm, ← hs, ← hn]
  refine ⟨n, by rw [← hu]; exact hval, ?_⟩
  rw [← hu]
  -- the real root of `m`
  have hqm : (q : ℝ) = (m : ℝ) * (u : ℝ) ^ 2 := by
    have : q = m * u ^ 2 := by
      rw [hm, pow_two, div_mul_cancel₀]
      exact (mul_pos hupos hupos).ne'
    exact_mod_cast this
  have hur : (0 : ℝ) < u := by exact_mod_cast hupos
  have hroot : Real.sqrt (q : ℝ) = Real.sqrt (m : ℝ) * u := by
    rw [hqm, Real.sqrt_mul (by exact_mod_cast hm0), Real.sqrt_sq hur.le]
  have hs1r : (s : ℝ) ≤ Real.sqrt (m : ℝ) := by
    apply Real.le_sqrt_of_sq_le
    exact_mod_cast hs1
  have hs2r : Real.sqrt (m : ℝ) < (s : ℝ) + 1 := by
    rw [Real.sqrt_lt' (by positivity)]
    exact_mod_cast hs2
  have hmid : |Real.sqrt (m : ℝ) - n| ≤ 1 / 2 := by
    rw [hn]
    by_cases c1 : m < ((s : ℚ) + 1 / 2) ^ 2
    · rw [if_pos c1]
      have : Real.sqrt (m : ℝ) < (s : ℝ) + 1 / 2 := by
        rw [Real.sqrt_lt' (by positivity)]
        have h := (Rat.cast_lt (K := ℝ)).mpr c1
        push_cast at h; exact h
      rw [abs_le]; constructor <;> linarith
    · have c1' : (((s : ℚ) + 1 / 2) ^ 2 : ℚ) ≤ m := not_lt.mp c1
      have hge : (s : ℝ) + 1 / 2 ≤ Real.sqrt (m : ℝ) := by
        apply Real.le_sqrt_of_sq_le
        have h := (Rat.cast_le (K := ℝ)).mpr c1'
        push_cast at h; exact h
      have key : |Real.sqrt (m : ℝ) - ((s + 1 : ℕ) : ℝ)| ≤ 1 / 2 := by
        rw [abs_le]; push_cast; constructor <;> linarith
      rw [if_neg c1]
      by_cases c2 : ((s : ℚ) + 1 / 2) ^ 2 < m
      · rw [if_pos c2]; exact key
      · rw [if_neg c2]
        have heq : m = ((s : ℚ) + 1 / 2) ^ 2 := le_antisymm (not_lt.mp c2) c1'
        have hsq : Real.sqrt (m : ℝ) = (s : ℝ) + 1 / 2 := by
          rw [heq]; push_cast; exact Real.sqrt_sq (by positivity)
        split
        · rw [hsq, abs_le]; constructor <;> linarith
        · exact key
  rw [hroot]
  push_cast
  have : Real.sqrt (m : ℝ) * (u : ℝ) - (n : ℝ) * (u : ℝ) = (Real.sqrt (m : ℝ) - n) * u := by ring
  rw [this, abs_mul, abs_of_pos hur]
  nlinarith [abs_nonneg (Real.sqrt (m : ℝ) - n)]

/-! ## Export geometry -/

/-- The literal modes of `FitImage`. -/
theorem FitImage_literal (convert : float64 → Int) (ex : exportSettings) (size : Point)
    (hfit : ex.Fit ≠ "mpix") :
    FitImage convert ex size =
      { X := FitImage.round convert (float64.mul (FitImage.mul ex) (FitImage.targets ex size).1),
        Y := FitImage.round convert (float64.mul (FitImage.mul ex) (FitImage.targets ex size).2) } := by
  unfold FitImage FitImage.mul FitImage.targets
  simp only [hfit, ↓reduceIte]
  by_cases hd : ex.Fit = "dims" <;> by_cases hxy : size.X > size.Y <;>
    by_cases hs : float64.lt (.fin 0) ex.Long = true ∧ float64.lt ex.Long ex.Short = true <;>
    simp only [hd, hxy, hs, ↓reduceIte]

/-- The closure `round` returns at least 16. -/
theorem round_ge (convert : float64 → Int) (x : float64) : 16 ≤ FitImage.round convert x := by
  unfold FitImage.round
  split
  · unfold MaxInt; norm_num
  · simp only
    split <;> omega

/-- A finite product is the rounding of a number. -/
theorem mul_fin {x y : float64} {p : ℚ} (h : float64.mul x y = .fin p) : ∃ q, p = nearest q := by
  cases x <;> cases y <;> simp only [float64.mul] at h
  · rename_i a b
    unfold float64.round at h
    split at h
    · exact ⟨a * b, by injection h with h; exact h.symm⟩
    · cases h
  · split at h <;> cases h
  · cases h
  · split at h <;> cases h
  · cases h
  · cases h
  · cases h
  · cases h
  · cases h

/-- The closure `round` on a finite product below `2 ^ 52` is the target of the specification. -/
theorem round_eq_literalTarget (convert : float64 → Int) {x y : float64} {p : ℚ}
    (h : float64.mul x y = .fin p) (hlo : -(2 ^ 63) ≤ p) (hhi : p < 2 ^ 52) :
    FitImage.round convert (float64.mul x y) = literalTarget p := by
  obtain ⟨q, hq⟩ := mul_fin h
  rw [h, hq, round_nearest convert q (hq ▸ hlo) (hq ▸ hhi)]
  unfold literalTarget
  rw [round_eq]

/-- With the units of the specification, the variable `mul` is the pixels per unit of length. -/
theorem mul_eq_pixelsPerUnit (ex : exportSettings)
    (hunits : ex.DimUnit = "px" ∨
      ((ex.DimUnit = "in" ∨ ex.DimUnit = "cm") ∧ (ex.DenUnit = "ppi" ∨ ex.DenUnit = "ppc"))) :
    FitImage.mul ex = pixelsPerUnit ex := by
  unfold FitImage.mul pixelsPerUnit
  rcases hunits with h | ⟨h1, h2⟩
  · simp [h]
  · rcases h1 with h | h <;> rcases h2 with h' | h' <;> simp [h, h']

/-- The conversion of an `int` to `float64` is finite. -/
theorem ofInt_fin (n : Int) (hlo : MinInt ≤ n) (hhi : n ≤ MaxInt) :
    ∃ d : ℚ, float64.ofInt n = .fin d ∧ |d| ≤ 2 ^ 63 := by
  have hn : |(n : ℚ)| < 2 ^ (116 : ℤ) := by
    have h1 : (n : ℚ) ≤ 2 ^ 63 := by
      have : n ≤ 2 ^ 63 := by unfold MaxInt at hhi; omega
      exact_mod_cast this
    have h2 : -(2 ^ 63 : ℚ) ≤ n := by
      have : -(2 ^ 63) ≤ n := by unfold MinInt MaxInt at hlo; omega
      exact_mod_cast this
    rw [abs_lt]; constructor <;> norm_num <;> linarith
  have hj : ulp (n : ℚ) ≤ 2 ^ (63 : ℤ) := ulp_le_of_lt (by norm_num) (by norm_num at hn ⊢; exact hn)
  have h1 : nearest (n : ℚ) ≤ 2 ^ 63 := by
    have := nearest_le (q := (n : ℚ)) (c := 1) (j := 63) hj (by
      have : n ≤ 2 ^ 63 := by unfold MaxInt at hhi; omega
      have h : (n : ℚ) ≤ ((2 ^ 63 : ℤ) : ℚ) := by exact_mod_cast this
      push_cast at h; norm_num at h ⊢; exact h)
    norm_num at this ⊢; exact this
  have h2 : -(2 ^ 63 : ℚ) ≤ nearest (n : ℚ) := by
    have := le_nearest (q := (n : ℚ)) (c := -1) (j := 63) hj (by
      have : -(2 ^ 63) ≤ n := by unfold MinInt MaxInt at hlo; omega
      have h : ((-(2 ^ 63) : ℤ) : ℚ) ≤ (n : ℚ) := by exact_mod_cast this
      push_cast at h; norm_num at h ⊢; exact h)
    norm_num at this ⊢; exact this
  have habs : |nearest (n : ℚ)| ≤ 2 ^ 63 := abs_le.mpr ⟨h2, h1⟩
  refine ⟨nearest n, ?_, habs⟩
  unfold float64.ofInt float64.round
  rw [if_pos (lt_of_le_of_lt habs (by norm_num))]

/-- The constant 2.54 as a `float64`. -/
theorem round_254 : float64.round 2.54 = .fin (2859785763380265 / 1125899906842624) :=
  round_cert 1 5719571526760530 (by norm_num) (by norm_num) (by norm_num) (by norm_num)
    (by norm_num) (by norm_num) (by norm_num)

/-- A product in the range of `int` does not wrap around. -/
theorem mulInt_eq {a b : Int} (h0 : 0 ≤ a * b) (h : a * b ≤ MaxInt) : mulInt a b = a * b := by
  unfold mulInt
  unfold MaxInt at h
  omega

/-- A root is not negative. -/
theorem Sqrt_nonneg {x : float64} {r : ℚ} (h : math.Sqrt x = .fin r) : 0 ≤ r := by
  cases x with
  | fin q =>
    simp only [math.Sqrt] at h
    split at h
    · cases h
    · split at h
      · injection h with h; rw [← h]
      · injection h with h; rw [← h]; positivity
  | inf s => cases s <;> simp [math.Sqrt] at h
  | nan => simp [math.Sqrt] at h

/-- The rounding of a number that is not negative is not negative. -/
theorem nearest_nonneg {q : ℚ} (h : 0 ≤ q) : 0 ≤ nearest q := by
  unfold nearest
  have hu := ulp_pos q
  have h1 : ((0 : ℤ) : ℚ) ≤ q / ulp q := by
    rw [le_div_iff₀ hu]; simpa using h
  have h2 := le_roundEven h1
  have h3 : (0 : ℚ) ≤ (roundEven (q / ulp q) : ℚ) := by exact_mod_cast h2
  positivity

/-- A finite rounding is the nearest grid point. -/
theorem round_fin {q r : ℚ} (h : float64.round q = .fin r) : r = nearest q := by
  unfold float64.round at h
  split at h
  · injection h with h; exact h.symm
  · cases h

/-- The side of a megapixel fit is not negative. -/
theorem megapixelSide_nonneg {ex : exportSettings} {W H side : Int} {q : ℚ} (hs : 0 ≤ side)
    (h : megapixelSide ex W H side = .fin q) : 0 ≤ q := by
  unfold megapixelSide at h
  generalize hr : math.Sqrt _ = root at h
  cases root with
  | fin a =>
    have ha := Sqrt_nonneg hr
    unfold float64.ofInt at h
    cases hS : float64.round (side : ℚ) with
    | fin b =>
      have hb : 0 ≤ b := by
        rw [round_fin hS]; exact nearest_nonneg (by exact_mod_cast hs)
      rw [hS] at h
      simp only [float64.mul] at h
      rw [round_fin h]
      exact nearest_nonneg (mul_nonneg ha hb)
    | inf s => rw [hS] at h; simp only [float64.mul] at h; split at h <;> cases h
    | nan => rw [hS] at h; simp [float64.mul] at h
  | inf s =>
    cases hS : float64.ofInt side <;> rw [hS] at h <;> simp only [float64.mul] at h
    · split at h <;> cases h
    · cases h
    · cases h
  | nan =>
    cases hS : float64.ofInt side <;> rw [hS] at h <;> simp [float64.mul] at h

/-- The conversion to `int` of a float64 that is not negative and below `2 ^ 63` rounds
down. -/
theorem toInt_floor (convert : float64 → Int) {q : ℚ} (h0 : 0 ≤ q) (h : q < 2 ^ 63) :
    float64.toInt convert (.fin q) = ⌊q⌋ := by
  have h1 : (0 : ℤ) ≤ ⌊q⌋ := Int.floor_nonneg.mpr h0
  have h2 : ⌊q⌋ < 2 ^ 63 := Int.floor_lt.mpr (by push_cast; exact h)
  have h3 : MinInt ≤ ⌊q⌋ ∧ ⌊q⌋ ≤ MaxInt := by unfold MinInt MaxInt; omega
  simp only [float64.toInt, h0, ↓reduceIte, h3, and_self]

/-- The megapixel fit in general. -/
theorem mpix_floor (convert : float64 → Int) (ex : exportSettings) (W H : Int) (q : ℚ)
    (hfit : ex.Fit = "mpix") (hW : 0 < W) (hH : 0 < H) (harea : W * H ≤ MaxInt)
    (hside : megapixelSide ex W H (min W H) = .fin q) (hq : q < 2 ^ 63) :
    FitImage convert ex ⟨W, H⟩ =
      if W > H then { X := MaxInt, Y := ⌊q⌋ } else { X := ⌊q⌋, Y := MaxInt } := by
  have hpos : 0 < W * H := Int.mul_pos hW hH
  have harea' : mulInt W H = W * H := mulInt_eq hpos.le harea
  have hq0 : 0 ≤ q := megapixelSide_nonneg (le_min hW.le hH.le) hside
  unfold FitImage
  simp only [hfit, ↓reduceIte, harea']
  unfold megapixelSide at hside
  by_cases hwh : W > H
  · rw [min_eq_right hwh.le] at hside
    simp only [hwh, ↓reduceIte, hside, toInt_floor convert hq0 hq]
  · rw [min_eq_left (not_lt.mp hwh)] at hside
    simp only [hwh, ↓reduceIte, hside, toInt_floor convert hq0 hq]

/-- The side of a megapixel fit, step by step. -/
theorem side_eval (ex : exportSettings) (W H side : Int) (mp a1 A a2 a3 S a4 : ℚ)
    (hmp : ex.MPixels = .fin mp)
    (h1 : float64.round (1000000 * mp) = .fin a1)
    (hA : float64.round ((W * H : ℤ) : ℚ) = .fin A) (hA0 : A ≠ 0)
    (h2 : float64.round (a1 / A) = .fin a2)
    (h3 : math.Sqrt (.fin a2) = .fin a3)
    (hS : float64.round (side : ℚ) = .fin S)
    (h4 : float64.round (a3 * S) = .fin a4) :
    megapixelSide ex W H side = .fin a4 := by
  unfold megapixelSide float64.ofInt
  rw [hmp]
  simp only [float64.mul, h1, hA, float64.div, hA0, ↓reduceIte, h2, h3, hS, h4]

/-- The exact result zero is the `float64` zero. -/
theorem round_zero : float64.round 0 = .fin 0 := by
  unfold float64.round
  rw [nearest_zero, abs_zero, if_pos (by positivity)]

/-- A rounding bounded by `2 ^ 66` is finite. -/
theorem round_fin_of_le {q : ℚ} (h : |q| ≤ 2 ^ 66) : float64.round q = .fin (nearest q) := by
  have hq : |q| < 2 ^ ((66 : ℤ) + 53) := lt_of_le_of_lt h (by norm_num)
  have hj : ulp q ≤ 2 ^ (66 : ℤ) := ulp_le_of_lt (by norm_num) hq
  rw [abs_le] at h
  have h1 := nearest_le (q := q) (c := 1) (j := 66) hj (by norm_num; linarith [h.2])
  have h2 := le_nearest (q := q) (c := -1) (j := 66) hj (by norm_num; linarith [h.1])
  have habs : |nearest q| < 2 ^ 1024 := by
    rw [abs_lt]; constructor
    · refine lt_of_lt_of_le ?_ h2; norm_num
    · refine lt_of_le_of_lt h1 ?_; norm_num
  unfold float64.round
  exact if_pos habs

/-- With a density in the range of `int`, the pixels per unit of length are finite. -/
theorem mul_finite (ex : exportSettings) (hlo : MinInt ≤ ex.Density) (hhi : ex.Density ≤ MaxInt) :
    ∃ k : ℚ, FitImage.mul ex = .fin k := by
  obtain ⟨d, hd, hdb⟩ := ofInt_fin ex.Density hlo hhi
  rw [abs_le] at hdb
  unfold FitImage.mul
  simp only [hd, round_254]
  split
  · split
    · split
      · exact ⟨d, rfl⟩
      · refine ⟨_, round_fin_of_le ?_⟩
        rw [abs_le]; constructor <;> norm_num <;> nlinarith [hdb.1, hdb.2]
    · split
      · simp only [float64.div]
        rw [if_neg (by norm_num)]
        refine ⟨_, round_fin_of_le ?_⟩
        rw [abs_le]; constructor <;> norm_num <;> nlinarith [hdb.1, hdb.2]
      · exact ⟨d, rfl⟩
  · exact ⟨1, rfl⟩

/-- The closure `round` on zero: the axis is unconstrained. -/
theorem round_fin_zero (convert : float64 → Int) : FitImage.round convert (.fin 0) = MaxInt := by
  simp [FitImage.round, float64.eq]

/-- C8 (amended): in the literal modes (`Fit` other than "mpix"), for every configuration,
every source size and whatever the implementation makes of a conversion that is out of range,
each axis of the result of `FitImage` is at least 16. An axis whose product (the pixels per
unit of length times the configured value, in `float64`) is finite, not zero, at least
`-2 ^ 63` and below 15.5 is returned as 16. -/
theorem FitImage_literal_floor (convert : float64 → Int) (ex : exportSettings) (size : Point)
    (hfit : ex.Fit ≠ "mpix") :
    16 ≤ (FitImage convert ex size).X ∧ 16 ≤ (FitImage convert ex size).Y ∧
    (∀ p, float64.mul (FitImage.mul ex) (FitImage.targets ex size).1 = .fin p → p ≠ 0 →
      -(2 ^ 63) ≤ p → p < 31 / 2 → (FitImage convert ex size).X = 16) ∧
    (∀ p, float64.mul (FitImage.mul ex) (FitImage.targets ex size).2 = .fin p → p ≠ 0 →
      -(2 ^ 63) ≤ p → p < 31 / 2 → (FitImage convert ex size).Y = 16) := by
  rw [FitImage_literal convert ex size hfit]
  have small : ∀ p : ℚ, p ≠ 0 → p < 31 / 2 → literalTarget p = 16 := by
    intro p hp hlt
    unfold literalTarget
    rw [if_neg hp, round_eq]
    have : ⌊p + 1 / 2⌋ < 16 := Int.floor_lt.mpr (by push_cast; linarith)
    exact max_eq_left (by omega)
  refine ⟨round_ge _ _, round_ge _ _, ?_, ?_⟩
  · intro p h hp hlo hhi
    show FitImage.round convert _ = 16
    rw [round_eq_literalTarget convert h hlo (by linarith), small p hp hhi]
  · intro p h hp hlo hhi
    show FitImage.round convert _ = 16
    rw [round_eq_literalTarget convert h hlo (by linarith), small p hp hhi]

/-- The number 10 is a `float64`. -/
theorem round_10 : float64.round 10 = .fin 10 :=
  round_cert (3) 5629499534213120 (by norm_num) (by norm_num) (by norm_num) (by norm_num) (by norm_num) (by norm_num) (by norm_num)

/-- The number 3 is a `float64`. -/
theorem round_3 : float64.round 3 = .fin 3 :=
  round_cert (1) 6755399441055744 (by norm_num) (by norm_num) (by norm_num) (by norm_num) (by norm_num) (by norm_num) (by norm_num)

/-- C8, witness: a picture of 10 by 3 pixels is raised to 16 by 16. -/
theorem FitImage_literal_floor_witness :
    (FitImage (fun _ => 0) thumbSettings ⟨4000, 3000⟩).X = 16 ∧
    (FitImage (fun _ => 0) thumbSettings ⟨4000, 3000⟩).Y = 16 :=
  ⟨(FitImage_literal_floor (fun _ => 0) thumbSettings ⟨4000, 3000⟩ (by decide)).2.2.1 10
      (by
        have h : float64.mul (FitImage.mul thumbSettings)
            (FitImage.targets thumbSettings ⟨4000, 3000⟩).1 = float64.round (1 * 10) := rfl
        rw [h]; norm_num [round_10])
      (by norm_num) (by norm_num) (by norm_num),
   (FitImage_literal_floor (fun _ => 0) thumbSettings ⟨4000, 3000⟩ (by decide)).2.2.2 3
      (by
        have h : float64.mul (FitImage.mul thumbSettings)
            (FitImage.targets thumbSettings ⟨4000, 3000⟩).2 = float64.round (1 * 3) := rfl
        rw [h]; norm_num [round_3])
      (by norm_num) (by norm_num) (by norm_num)⟩

/-- C9 (amended): in literal width/height mode (`Fit` neither "mpix" nor "dims"), `FitImage`
computes axis X from `Width` and axis Y from `Height`, each from its own value alone. With the
units of the specification, the product `p` of an axis is the `float64` product of the pixels
per unit of length (`pixelsPerUnit`) and the configured value; when `p` is finite, at least
`-2 ^ 63` and below `2 ^ 52`, the axis is `literalTarget p`: unconstrained for zero, otherwise
the integer nearest to `p`, raised to 16 if it is smaller. In px units `Width = 0` and
`Height = 0` give a result unconstrained on both axes. -/
theorem FitImage_width_height (convert : float64 → Int) (ex : exportSettings) (size : Point)
    (hmpix : ex.Fit ≠ "mpix") (hdims : ex.Fit ≠ "dims") :
    ((ex.DimUnit = "px" ∨
        ((ex.DimUnit = "in" ∨ ex.DimUnit = "cm") ∧ (ex.DenUnit = "ppi" ∨ ex.DenUnit = "ppc"))) →
      (∀ p, float64.mul (pixelsPerUnit ex) ex.Width = .fin p → -(2 ^ 63) ≤ p → p < 2 ^ 52 →
        (FitImage convert ex size).X = literalTarget p) ∧
      (∀ p, float64.mul (pixelsPerUnit ex) ex.Height = .fin p → -(2 ^ 63) ≤ p → p < 2 ^ 52 →
        (FitImage convert ex size).Y = literalTarget p)) ∧
    (ex.DimUnit = "px" → ex.Width = .fin 0 → ex.Height = .fin 0 →
      FitImage convert ex size = { X := MaxInt, Y := MaxInt }) := by
  rw [FitImage_literal convert ex size hmpix]
  have ht : FitImage.targets ex size = (ex.Width, ex.Height) := by
    unfold FitImage.targets; rw [if_neg hdims]
  rw [ht]
  constructor
  · intro hunits
    rw [mul_eq_pixelsPerUnit ex hunits]
    constructor
    · intro p h hlo hhi
      exact round_eq_literalTarget convert h hlo hhi
    · intro p h hlo hhi
      exact round_eq_literalTarget convert h hlo hhi
  · intro hpx hw hh
    have hm : FitImage.mul ex = .fin 1 := by unfold FitImage.mul; simp [hpx]
    rw [hm, hw, hh]
    simp only [float64.mul, mul_zero, round_zero, round_fin_zero]

/-- The number 31 is a `float64`. -/
theorem round_31 : float64.round ((31 : ℤ) : ℚ) = .fin 31 :=
  round_cert (4) 8725724278030336 (by norm_num) (by norm_num) (by norm_num) (by norm_num) (by norm_num) (by norm_num) (by norm_num)

/-- The product `31 * 2.54` in `float64`. -/
theorem density_31 : float64.round (31 * (2859785763380265 / 1125899906842624)) = .fin (5540834916549263 / 70368744177664) :=
  round_cert (6) 5540834916549263 (by norm_num) (by norm_num) (by norm_num) (by norm_num) (by norm_num) (by norm_num) (by norm_num)

/-- The product `(31 * 2.54) * 25` in `float64`: just below 1968.5. -/
theorem width_25 : float64.round ((5540834916549263 / 70368744177664) * 25) = .fin (8657554557108223 / 4398046511104) :=
  round_cert (10) 8657554557108223 (by norm_num) (by norm_num) (by norm_num) (by norm_num) (by norm_num) (by norm_num) (by norm_num)

/-- The product `(31 * 2.54) * 4` in `float64`. -/
theorem height_4 : float64.round ((5540834916549263 / 70368744177664) * 4) = .fin (5540834916549263 / 17592186044416) :=
  round_cert (8) 5540834916549263 (by norm_num) (by norm_num) (by norm_num) (by norm_num) (by norm_num) (by norm_num) (by norm_num)

/-- The pixels per inch of `printSettings`. -/
theorem pixelsPerUnit_print : pixelsPerUnit printSettings = .fin (5540834916549263 / 70368744177664) := by
  have h : pixelsPerUnit printSettings =
      float64.mul (float64.round ((31 : ℤ) : ℚ)) (float64.round 2.54) := rfl
  rw [h, round_31, round_254]
  simp only [float64.mul, density_31]

/-- C9, witness: a print 25 inches wide and 4 inches high at 31 pixels per centimetre. The
product of the width is just below 1968.5 in `float64` (it is 1968.5 in exact arithmetic), so
the width is 1968 pixels; the height is 315 pixels. -/
theorem FitImage_width_height_witness :
    (FitImage (fun _ => 0) printSettings ⟨4000, 3000⟩).X =
      literalTarget (8657554557108223 / 4398046511104) ∧
    (FitImage (fun _ => 0) printSettings ⟨4000, 3000⟩).Y =
      literalTarget (5540834916549263 / 17592186044416) ∧
    literalTarget (8657554557108223 / 4398046511104) = 1968 ∧
    literalTarget (5540834916549263 / 17592186044416) = 315 :=
  ⟨((FitImage_width_height (fun _ => 0) printSettings ⟨4000, 3000⟩ (by decide) (by decide)).1
      (by decide)).1 _
      (by rw [pixelsPerUnit_print]; exact width_25) (by norm_num) (by norm_num),
   ((FitImage_width_height (fun _ => 0) printSettings ⟨4000, 3000⟩ (by decide) (by decide)).1
      (by decide)).2 _
      (by rw [pixelsPerUnit_print]; exact height_4) (by norm_num) (by norm_num),
   by
     unfold literalTarget
     rw [if_neg (by norm_num), round_eq]
     have : ⌊(8657554557108223 / 4398046511104 : ℚ) + 1 / 2⌋ = 1968 := by
       rw [Int.floor_eq_iff]; norm_num
     rw [this]; rfl,
   by
     unfold literalTarget
     rw [if_neg (by norm_num), round_eq]
     have : ⌊(5540834916549263 / 17592186044416 : ℚ) + 1 / 2⌋ = 315 := by
       rw [Int.floor_eq_iff]; norm_num
     rw [this]; rfl⟩

/-- One megapixel for a 4000 x 3000 source: the side is 866.0254…, the axis 866. -/
theorem mpix_4000_3000_1 (convert : float64 → Int) :
    megapixelSide { Fit := "mpix", MPixels := .fin (1) } 4000 3000 3000 =
      .fin (3808820005641583 / 4398046511104) ∧
    FitImage convert { Fit := "mpix", MPixels := .fin (1) } ⟨4000, 3000⟩ = ⟨MaxInt, 866⟩ := by
  have hside : megapixelSide { Fit := "mpix", MPixels := .fin (1) } 4000 3000 3000 =
      .fin (3808820005641583 / 4398046511104) :=
    side_eval _ 4000 3000 3000 (1) (1000000) (12000000) (6004799503160661 / 72057594037927936)
      (1300077228592327 / 4503599627370496) (3000) (3808820005641583 / 4398046511104) rfl
      (round_cert (19) 8589934592000000 (by norm_num) (by norm_num) (by norm_num) (by norm_num) (by norm_num) (by norm_num) (by norm_num))
      (round_cert (23) 6442450944000000 (by norm_num) (by norm_num) (by norm_num) (by norm_num) (by norm_num) (by norm_num) (by norm_num)) (by norm_num)
      (round_cert (-4) 6004799503160661 (by norm_num) (by norm_num) (by norm_num) (by norm_num) (by norm_num) (by norm_num) (by norm_num))
      (Sqrt_cert (-2) 5200308914369308 (by norm_num) (by norm_num) (by norm_num) (by norm_num) (by norm_num))
      (round_cert (11) 6597069766656000 (by norm_num) (by norm_num) (by norm_num) (by norm_num) (by norm_num) (by norm_num) (by norm_num))
      (round_cert (9) 7617640011283166 (by norm_num) (by norm_num) (by norm_num) (by norm_num) (by norm_num) (by norm_num) (by norm_num))
  refine ⟨hside, ?_⟩
  have hfl : ⌊(3808820005641583 / 4398046511104 : ℚ)⌋ = 866 := by
    rw [Int.floor_eq_iff]; norm_num
  have h := mpix_floor convert { Fit := "mpix", MPixels := .fin (1) } 4000 3000
    (3808820005641583 / 4398046511104) rfl (by norm_num) (by norm_num) (by norm_num [MaxInt])
    (by rw [show min (4000 : Int) 3000 = 3000 by norm_num]; exact hside) (by norm_num)
  rw [h, hfl]
  rfl

/-- Two megapixels for a 4000 x 3000 source: the side is 1224.7448…, the axis 1224. -/
theorem mpix_4000_3000_2 (convert : float64 → Int) :
    megapixelSide { Fit := "mpix", MPixels := .fin (2) } 4000 3000 3000 =
      .fin (5386484908616295 / 4398046511104) ∧
    FitImage convert { Fit := "mpix", MPixels := .fin (2) } ⟨4000, 3000⟩ = ⟨MaxInt, 1224⟩ := by
  have hside : megapixelSide { Fit := "mpix", MPixels := .fin (2) } 4000 3000 3000 =
      .fin (5386484908616295 / 4398046511104) :=
    side_eval _ 4000 3000 3000 (2) (2000000) (12000000) (6004799503160661 / 36028797018963968)
      (3677173697615391 / 9007199254740992) (3000) (5386484908616295 / 4398046511104) rfl
      (round_cert (20) 8589934592000000 (by norm_num) (by norm_num) (by norm_num) (by norm_num) (by norm_num) (by norm_num) (by norm_num))
      (round_cert (23) 6442450944000000 (by norm_num) (by norm_num) (by norm_num) (by norm_num) (by norm_num) (by norm_num) (by norm_num)) (by norm_num)
      (round_cert (-3) 6004799503160661 (by norm_num) (by norm_num) (by norm_num) (by norm_num) (by norm_num) (by norm_num) (by norm_num))
      (Sqrt_cert (-2) 7354347395230782 (by norm_num) (by norm_num) (by norm_num) (by norm_num) (by norm_num))
      (round_cert (11) 6597069766656000 (by norm_num) (by norm_num) (by norm_num) (by norm_num) (by norm_num) (by norm_num) (by norm_num))
      (round_cert (10) 5386484908616295 (by norm_num) (by norm_num) (by norm_num) (by norm_num) (by norm_num) (by norm_num) (by norm_num))
  refine ⟨hside, ?_⟩
  have hfl : ⌊(5386484908616295 / 4398046511104 : ℚ)⌋ = 1224 := by
    rw [Int.floor_eq_iff]; norm_num
  have h := mpix_floor convert { Fit := "mpix", MPixels := .fin (2) } 4000 3000
    (5386484908616295 / 4398046511104) rfl (by norm_num) (by norm_num) (by norm_num [MaxInt])
    (by rw [show min (4000 : Int) 3000 = 3000 by norm_num]; exact hside) (by norm_num)
  rw [h, hfl]
  rfl

/-- For a 1920 x 1080 source and 42.25 megapixels: the side is 4874.999999999999, the axis 4874. -/
theorem mpix_1920_1080 (convert : float64 → Int) :
    megapixelSide { Fit := "mpix", MPixels := .fin (169 / 4) } 1920 1080 1080 =
      .fin (5360119185407999 / 1099511627776) ∧
    FitImage convert { Fit := "mpix", MPixels := .fin (169 / 4) } ⟨1920, 1080⟩ = ⟨MaxInt, 4874⟩ := by
  have hside : megapixelSide { Fit := "mpix", MPixels := .fin (169 / 4) } 1920 1080 1080 =
      .fin (5360119185407999 / 1099511627776) :=
    side_eval _ 1920 1080 1080 (169 / 4) (42250000) (2073600) (5735106947350123 / 281474976710656)
      (5082187079497955 / 1125899906842624) (1080) (5360119185407999 / 1099511627776) rfl
      (round_cert (25) 5670699008000000 (by norm_num) (by norm_num) (by norm_num) (by norm_num) (by norm_num) (by norm_num) (by norm_num))
      (round_cert (20) 8906044184985600 (by norm_num) (by norm_num) (by norm_num) (by norm_num) (by norm_num) (by norm_num) (by norm_num)) (by norm_num)
      (round_cert (4) 5735106947350123 (by norm_num) (by norm_num) (by norm_num) (by norm_num) (by norm_num) (by norm_num) (by norm_num))
      (Sqrt_cert (2) 5082187079497955 (by norm_num) (by norm_num) (by norm_num) (by norm_num) (by norm_num))
      (round_cert (10) 4749890231992320 (by norm_num) (by norm_num) (by norm_num) (by norm_num) (by norm_num) (by norm_num) (by norm_num))
      (round_cert (12) 5360119185407999 (by norm_num) (by norm_num) (by norm_num) (by norm_num) (by norm_num) (by norm_num) (by norm_num))
  refine ⟨hside, ?_⟩
  have hfl : ⌊(5360119185407999 / 1099511627776 : ℚ)⌋ = 4874 := by
    rw [Int.floor_eq_iff]; norm_num
  have h := mpix_floor convert { Fit := "mpix", MPixels := .fin (169 / 4) } 1920 1080
    (5360119185407999 / 1099511627776) rfl (by norm_num) (by norm_num) (by norm_num [MaxInt])
    (by rw [show min (1920 : Int) 1080 = 1080 by norm_num]; exact hside) (by norm_num)
  rw [h, hfl]
  rfl

/-- For a 4000 x 3000 source and 1/8192 megapixels: the side is 9.5683…, the axis 9. -/
theorem mpix_4000_3000_small (convert : float64 → Int) :
    megapixelSide { Fit := "mpix", MPixels := .fin (1 / 8192) } 4000 3000 3000 =
      .fin (5386484908616295 / 562949953421312) ∧
    FitImage convert { Fit := "mpix", MPixels := .fin (1 / 8192) } ⟨4000, 3000⟩ = ⟨MaxInt, 9⟩ := by
  have hside : megapixelSide { Fit := "mpix", MPixels := .fin (1 / 8192) } 4000 3000 3000 =
      .fin (5386484908616295 / 562949953421312) :=
    side_eval _ 4000 3000 3000 (1 / 8192) (15625 / 128) (12000000) (6004799503160661 / 590295810358705651712)
      (3677173697615391 / 1152921504606846976) (3000) (5386484908616295 / 562949953421312) rfl
      (round_cert (6) 8589934592000000 (by norm_num) (by norm_num) (by norm_num) (by norm_num) (by norm_num) (by norm_num) (by norm_num))
      (round_cert (23) 6442450944000000 (by norm_num) (by norm_num) (by norm_num) (by norm_num) (by norm_num) (by norm_num) (by norm_num)) (by norm_num)
      (round_cert (-17) 6004799503160661 (by norm_num) (by norm_num) (by norm_num) (by norm_num) (by norm_num) (by norm_num) (by norm_num))
      (Sqrt_cert (-9) 7354347395230782 (by norm_num) (by norm_num) (by norm_num) (by norm_num) (by norm_num))
      (round_cert (11) 6597069766656000 (by norm_num) (by norm_num) (by norm_num) (by norm_num) (by norm_num) (by norm_num) (by norm_num))
      (round_cert (3) 5386484908616295 (by norm_num) (by norm_num) (by norm_num) (by norm_num) (by norm_num) (by norm_num) (by norm_num))
  refine ⟨hside, ?_⟩
  have hfl : ⌊(5386484908616295 / 562949953421312 : ℚ)⌋ = 9 := by
    rw [Int.floor_eq_iff]; norm_num
  have h := mpix_floor convert { Fit := "mpix", MPixels := .fin (1 / 8192) } 4000 3000
    (5386484908616295 / 562949953421312) rfl (by norm_num) (by norm_num) (by norm_num [MaxInt])
    (by rw [show min (4000 : Int) 3000 = 3000 by norm_num]; exact hside) (by norm_num)
  rw [h, hfl]
  rfl

/-- The rounding of a number half-way between two float64 of which the lower has an odd
mantissa `n`: the upper one. -/
theorem round_tie_odd {q r : ℚ} (e n : ℤ) (he : -1022 ≤ e) (hn0 : 0 < n)
    (h1 : (2 : ℚ) ^ e ≤ q) (h2 : q < 2 ^ (e + 1)) (hq : q = ((n : ℚ) + 1 / 2) * 2 ^ (e - 52))
    (hodd : n % 2 = 1) (hr : r = ((n : ℚ) + 1) * 2 ^ (e - 52)) (hmax : e ≤ 1022) :
    float64.round q = .fin r := by
  have hq0 : 0 < q := lt_of_lt_of_le (by positivity) h1
  have hu : (0 : ℚ) < 2 ^ (e - 52) := by positivity
  have hquot : q / 2 ^ (e - 52) = (n : ℚ) + 1 / 2 := by
    rw [hq, mul_div_assoc, div_self hu.ne', mul_one]
  have hfloor : ⌊(n : ℚ) + 1 / 2⌋ = n := by
    rw [Int.floor_eq_iff]; constructor <;> linarith
  have hre : roundEven ((n : ℚ) + 1 / 2) = n + 1 := by
    unfold roundEven
    rw [hfloor]
    have h3 : ¬ ((n : ℚ) + 1 / 2 - n < 1 / 2) := by norm_num
    have h4 : ¬ ((1 : ℚ) / 2 < n + 1 / 2 - n) := by norm_num
    rw [if_neg h3, if_neg h4, if_neg (by omega)]
  have hnear : nearest q = r := by
    unfold nearest
    rw [ulp_eq he (by rwa [abs_of_pos hq0]) (by rwa [abs_of_pos hq0]), hquot, hre, hr]
    push_cast; ring
  have hr0 : 0 ≤ r := by
    rw [hr]
    have : (0 : ℚ) < n := by exact_mod_cast hn0
    positivity
  have hfin : r < 2 ^ 1024 := by
    have h3 : (2 : ℚ) ^ (e - 52) ≤ 2 ^ (e + 1) := zpow_le_zpow_right₀ (by norm_num) (by omega)
    have h4 : (2 : ℚ) ^ (e + 2) = 2 * 2 ^ (e + 1) := by
      rw [show e + 2 = 1 + (e + 1) by ring, zpow_add₀ (by norm_num)]; norm_num
    have h5 : (2 : ℚ) ^ (e + 2) ≤ 2 ^ ((1024 : ℕ) : ℤ) :=
      zpow_le_zpow_right₀ (by norm_num) (by omega)
    rw [zpow_natCast] at h5
    have h7 : r < 2 ^ (e + 2) := by rw [hr]; nlinarith
    exact lt_of_lt_of_le h7 h5
  have habs : |r| < 2 ^ 1024 := by
    rw [abs_of_nonneg hr0]; exact hfin
  unfold float64.round
  rw [hnear]
  exact if_pos habs

/-- The closure `round` on a float64 that is an integer from 16 and below `2 ^ 52`. -/
theorem round_of_int (convert : float64 → Int) (n : ℤ) (h : float64.round (n : ℚ) = .fin n)
    (h16 : 16 ≤ n) (hhi : n < 2 ^ 52) : FitImage.round convert (.fin n) = n := by
  have hn : ((n : ℚ)) = nearest n := round_fin h
  have h16' : (16 : ℚ) ≤ n := by exact_mod_cast h16
  have hhi' : (n : ℚ) < 2 ^ 52 := by exact_mod_cast hhi
  have := round_nearest convert (n : ℚ) (by rw [← hn]; linarith) (by rw [← hn]; exact hhi')
  rw [← hn] at this
  rw [this, if_neg (by linarith)]
  have hf : ⌊(n : ℚ) + 1 / 2⌋ = n := by
    rw [Int.floor_eq_iff]; constructor <;> linarith
  rw [hf]
  exact max_eq_right h16

/-- The number 100 is a `float64`. -/
theorem round_100 : float64.round ((100 : ℤ) : ℚ) = .fin (100 : ℤ) := by
  have : float64.round (100 : ℚ) = .fin 100 :=
    round_cert (6) 7036874417766400 (by norm_num) (by norm_num) (by norm_num) (by norm_num) (by norm_num) (by norm_num) (by norm_num)
  exact_mod_cast this

/-- The number `2 ^ 52 + 1` is a `float64`. -/
theorem round_big : float64.round 4503599627370497 = .fin 4503599627370497 :=
  round_cert (52) 4503599627370497 (by norm_num) (by norm_num) (by norm_num) (by norm_num) (by norm_num) (by norm_num) (by norm_num)

/-- The sum `(2 ^ 52 + 1) + 0.5` lies half-way between two `float64` and is rounded to the even one, `2 ^ 52 + 2`. -/
theorem round_big_half : float64.round (4503599627370497 + 1 / 2) = .fin 4503599627370498 :=
  round_tie_odd 52 4503599627370497 (by norm_num) (by norm_num) (by norm_num) (by norm_num) (by norm_num)
    (by norm_num) (by norm_num) (by norm_num)

/-- A width of `2 ^ 52 + 1` pixels: the value, the axis and the nearest integer. -/
theorem width_big (convert : float64 → Int) :
    float64.round 4503599627370497 = .fin 4503599627370497 ∧
    (FitImage convert { Fit := "", DimUnit := "px", Width := .fin 4503599627370497 }
      ⟨4000, 3000⟩).X = 4503599627370498 ∧
    literalTarget 4503599627370497 = 4503599627370497 := by
  refine ⟨round_big, ?_, ?_⟩
  · rw [FitImage_literal convert _ _ (by decide)]
    show FitImage.round convert (float64.round (1 * 4503599627370497)) = 4503599627370498
    rw [one_mul, round_big]
    have hne : float64.eq (.fin 4503599627370497) (.fin 0) = false := by
      simp [float64.eq]
    have hadd : float64.add (.fin 4503599627370497) (.fin (1 / 2)) = .fin 4503599627370498 := round_big_half
    have hint : float64.toInt convert (.fin 4503599627370498) = 4503599627370498 := by
      rw [toInt_floor convert (by norm_num) (by norm_num)]
      exact_mod_cast Int.floor_intCast (α := ℚ) 4503599627370498
    simp only [FitImage.round, hne, hadd, hint, Bool.false_eq_true, ↓reduceIte]
    norm_num
  · unfold literalTarget
    rw [if_neg (by norm_num)]
    have : round (4503599627370497 : ℚ) = 4503599627370497 := by exact_mod_cast round_intCast (α := ℚ) 4503599627370497
    rw [this]; norm_num

/-- C9 as stated fails: a width of `2 ^ 52 + 1` pixels is a float64 and an integer, so it is its
own nearest integer, but `FitImage` returns `2 ^ 52 + 2`: the sum `x + 0.5` lies half-way
between two float64 and is rounded to the even one. -/
theorem FitImage_width_not_nearest :
    float64.round 4503599627370497 = .fin 4503599627370497 ∧
    (∀ convert : float64 → Int,
      (FitImage convert { Fit := "", DimUnit := "px", Width := .fin 4503599627370497 }
        ⟨4000, 3000⟩).X = 4503599627370498) ∧
    literalTarget 4503599627370497 = 4503599627370497 :=
  ⟨round_big, fun convert => (width_big convert).2.1, (width_big (fun _ => 0)).2.2⟩

/-- The exact side for a 1920 x 1080 source and 42.25 megapixels is 4875. -/
theorem exact_1920_1080 : Real.sqrt (1e6 * 42.25 / (1920 * 1080)) * 1080 = 4875 := by
  have h : (1e6 * 42.25 / (1920 * 1080) : ℝ) = (325 / 72) ^ 2 := by norm_num
  rw [h, Real.sqrt_sq (by norm_num)]
  norm_num

/-- C7 (amended): in megapixel-fit mode, for every source `W x H` with positive sides whose
area is in the range of `int`, `FitImage` leaves the long axis of the source unconstrained
(`MaxInt`; axis Y for a square source) and sets the other axis to the side that the program
computes in `float64`, with its fraction discarded: the side is the root of
`1e6 * MPixels / (W * H)` times the short side of the source, each operation rounded to
`float64` (`megapixelSide`), and is taken finite and below `2 ^ 63`. For a 4000 x 3000 source
and 1 megapixel the result is (unconstrained, 866). For a 1920 x 1080 source and 42.25
megapixels it is (unconstrained, 4874), although the side is 4875 in exact arithmetic. -/
theorem FitImage_mpix_fit :
    (∀ (convert : float64 → Int) (ex : exportSettings) (W H : Int) (q : ℚ),
      ex.Fit = "mpix" → 0 < W → 0 < H → W * H ≤ MaxInt →
      megapixelSide ex W H (min W H) = .fin q → q < 2 ^ 63 →
      FitImage convert ex ⟨W, H⟩ =
        if W > H then { X := MaxInt, Y := ⌊q⌋ } else { X := ⌊q⌋, Y := MaxInt }) ∧
    (∀ convert : float64 → Int,
      FitImage convert { Fit := "mpix", MPixels := .fin 1 } ⟨4000, 3000⟩ = ⟨MaxInt, 866⟩) ∧
    (∀ convert : float64 → Int,
      FitImage convert { Fit := "mpix", MPixels := .fin (169 / 4) } ⟨1920, 1080⟩ =
        ⟨MaxInt, 4874⟩) ∧
    Real.sqrt (1e6 * 42.25 / (1920 * 1080)) * 1080 = 4875 :=
  ⟨mpix_floor, fun convert => (mpix_4000_3000_1 convert).2,
    fun convert => (mpix_1920_1080 convert).2, exact_1920_1080⟩

/-- C7, witness: a 4000 x 3000 source and 1 megapixel; the computed side is 866.0254…. -/
theorem FitImage_mpix_fit_witness :
    FitImage (fun _ => 0) { Fit := "mpix", MPixels := .fin 1 } ⟨4000, 3000⟩ =
      if (4000 : Int) > 3000 then
        { X := MaxInt, Y := ⌊(3808820005641583 / 4398046511104 : ℚ)⌋ }
      else
        { X := ⌊(3808820005641583 / 4398046511104 : ℚ)⌋, Y := MaxInt } :=
  FitImage_mpix_fit.1 (fun _ => 0) { Fit := "mpix", MPixels := .fin 1 } 4000 3000
    (3808820005641583 / 4398046511104) rfl (by norm_num) (by norm_num) (by norm_num [MaxInt])
    (by rw [show min (4000 : Int) 3000 = 3000 by norm_num]; exact (mpix_4000_3000_1 (fun _ => 0)).1)
    (by norm_num)

/-- Two megapixels for a 4000 x 3000 source: the axis, the side and its nearest integer. -/
theorem mpix_not_rounded (convert : float64 → Int) :
    FitImage convert { Fit := "mpix", MPixels := .fin 2 } ⟨4000, 3000⟩ = ⟨MaxInt, 1224⟩ ∧
    megapixelSide { Fit := "mpix", MPixels := .fin 2 } 4000 3000 3000 =
      .fin (5386484908616295 / 4398046511104) ∧
    round (5386484908616295 / 4398046511104 : ℚ) = 1225 ∧
    round (Real.sqrt (1e6 * 2 / (4000 * 3000)) * 3000) = 1225 := by
  refine ⟨(mpix_4000_3000_2 convert).2, (mpix_4000_3000_2 convert).1, ?_, ?_⟩
  · rw [round_eq, Int.floor_eq_iff]; norm_num
  · rw [round_eq, Int.floor_eq_iff]
    have h6 : (1e6 * 2 / (4000 * 3000) : ℝ) = 1 / 6 := by norm_num
    rw [h6]
    constructor
    · have : (12245 / 30000 : ℝ) ≤ Real.sqrt (1 / 6) := by
        apply Real.le_sqrt_of_sq_le
        norm_num
      push_cast
      linarith
    · have : Real.sqrt (1 / 6) < (12255 / 30000 : ℝ) := by
        rw [Real.sqrt_lt' (by norm_num)]
        norm_num
      push_cast
      linarith

/-- C7 as stated fails: for a 4000 x 3000 source and 2 megapixels the computed side is
1224.74…; `FitImage` returns 1224, the nearest integer is 1225. -/
theorem FitImage_mpix_not_rounded :
    (∀ convert : float64 → Int,
      FitImage convert { Fit := "mpix", MPixels := .fin 2 } ⟨4000, 3000⟩ = ⟨MaxInt, 1224⟩) ∧
    megapixelSide { Fit := "mpix", MPixels := .fin 2 } 4000 3000 3000 =
      .fin (5386484908616295 / 4398046511104) ∧
    round (5386484908616295 / 4398046511104 : ℚ) = 1225 ∧
    round (Real.sqrt (1e6 * 2 / (4000 * 3000)) * 3000) = 1225 :=
  ⟨fun convert => (mpix_not_rounded convert).1, (mpix_not_rounded (fun _ => 0)).2⟩

/-- C8 as stated fails: in megapixel-fit mode a 4000 x 3000 source and 1/8192 megapixels give
a computed side of 9 pixels, which is returned as it is, below the floor of 16. -/
theorem FitImage_mpix_below_16 :
    (∀ convert : float64 → Int,
      FitImage convert { Fit := "mpix", MPixels := .fin (1 / 8192) } ⟨4000, 3000⟩ =
        ⟨MaxInt, 9⟩) ∧
    (9 : Int) < 16 :=
  ⟨fun convert => (mpix_4000_3000_small convert).2, by norm_num⟩

/-! ## The task of a batch item -/

/-- A sequence of two steps of a batch task. -/
theorem batchBind_apply {α β : Type} (x : StateM BatchWorld α) (f : α → StateM BatchWorld β)
    (w : BatchWorld) : (x >>= f) w = f (x w).1 (x w).2 := rfl

/-- A step of a batch task that only returns. -/
theorem batchPure_apply {α : Type} (a : α) (w : BatchWorld) :
    (pure a : StateM BatchWorld α) w = (a, w) := rfl

/-- Running a batch task. -/
theorem batchRun_eq {α : Type} (x : StateM BatchWorld α) (w : BatchWorld) :
    StateT.run x w = x w := rfl

/-- One export: the call is logged and the exporter runs on the files. -/
theorem batchProcessPhoto_apply (process : Exporter) (photo : batchPhoto) (exppath : String)
    (xmp : xmpSettings) (exp : exportSettings) (w : BatchWorld) :
    batchProcessPhoto process photo exppath xmp exp w =
      ((process photo exppath xmp exp w.fs).1,
       ⟨(process photo exppath xmp exp w.fs).2,
        w.log ++ [.batchProcessPhoto photo exppath xmp exp]⟩) := rfl

/-- C11: the task of a batch item runs the primary export, and runs the secondary export, with
the default export settings (`DNG` unset: a JPEG), if and only if the primary export returned no
error and `Both` is set. When the primary export fails the task returns its error after that
single call; when it succeeds and `Both` is unset the task returns nil after that single call;
when it succeeds and `Both` is set the task makes the secondary export on the files the primary
export left and returns its result. -/
theorem serverBatchHandler_both (process : Exporter) (exppath : String) (xmp : xmpSettings)
    (exp : exportSettings) (photo : batchPhoto) (w : BatchWorld) :
    ((process photo exppath xmp exp w.fs).1 ≠ none →
      (serverBatchHandler.task process exppath xmp exp photo).run w =
        ((process photo exppath xmp exp w.fs).1,
         ⟨(process photo exppath xmp exp w.fs).2,
          w.log ++ [.batchProcessPhoto photo exppath xmp exp]⟩)) ∧
    ((process photo exppath xmp exp w.fs).1 = none → exp.Both = false →
      (serverBatchHandler.task process exppath xmp exp photo).run w =
        (none,
         ⟨(process photo exppath xmp exp w.fs).2,
          w.log ++ [.batchProcessPhoto photo exppath xmp exp]⟩)) ∧
    ((process photo exppath xmp exp w.fs).1 = none → exp.Both = true →
      (serverBatchHandler.task process exppath xmp exp photo).run w =
        ((process photo exppath xmp {} (process photo exppath xmp exp w.fs).2).1,
         ⟨(process photo exppath xmp {} (process photo exppath xmp exp w.fs).2).2,
          w.log ++ [.batchProcessPhoto photo exppath xmp exp,
            .batchProcessPhoto photo exppath xmp {}]⟩)) ∧
    ((((serverBatchHandler.task process exppath xmp exp photo).run w).2.log.length =
        w.log.length + 2) ↔
      (exp.Both = true ∧ (process photo exppath xmp exp w.fs).1 = none)) ∧
    (({} : exportSettings).DNG = false) := by
  unfold serverBatchHandler.task
  simp only [batchRun_eq, batchBind_apply, batchPure_apply, batchProcessPhoto_apply]
  refine ⟨?_, ?_, ?_, ?_, trivial⟩
  · intro h
    simp [h, batchPure_apply]
  · intro h hb
    simp [h, hb, batchPure_apply]
  · intro h hb
    simp [h, hb, batchProcessPhoto_apply]
  · by_cases h : (process photo exppath xmp exp w.fs).1 = none <;>
    by_cases hb : exp.Both = true <;>
    simp [h, hb, batchPure_apply, batchProcessPhoto_apply]

/-- C11, witness: with `Both` set, the DNG of `photo.cr2` is exported, the JPEG export fails;
the task returns the error of the JPEG export and the DNG stays where it was written. -/
theorem serverBatchHandler_both_witness :
    (serverBatchHandler.task demoExporter "out" {} { DNG := true, Both := true }
        ⟨"photo.cr2"⟩).run ⟨demoFS, []⟩ =
      ((demoExporter ⟨"photo.cr2"⟩ "out" {} {}
          (demoExporter ⟨"photo.cr2"⟩ "out" {} { DNG := true, Both := true } demoFS).2).1,
       ⟨(demoExporter ⟨"photo.cr2"⟩ "out" {} {}
          (demoExporter ⟨"photo.cr2"⟩ "out" {} { DNG := true, Both := true } demoFS).2).2,
        [] ++ [.batchProcessPhoto ⟨"photo.cr2"⟩ "out" {} { DNG := true, Both := true },
          .batchProcessPhoto ⟨"photo.cr2"⟩ "out" {} {}]⟩) ∧
    ((serverBatchHandler.task demoExporter "out" {} { DNG := true, Both := true }
        ⟨"photo.cr2"⟩).run ⟨demoFS, []⟩).1 = some (.New "jpeg") ∧
    ((serverBatchHandler.task demoExporter "out" {} { DNG := true, Both := true }
        ⟨"photo.cr2"⟩).run ⟨demoFS, []⟩).2.fs "out/photo.cr2.dng" = some (ascii "dng") :=
  ⟨(serverBatchHandler_both demoExporter "out" {} { DNG := true, Both := true } ⟨"photo.cr2"⟩
      ⟨demoFS, []⟩).2.2.1 rfl rfl, by decide, by decide⟩

/-! ## The precedence of the sidecars -/

/-- The scan of `filepath.Ext` returns an end of the path. -/
theorem extScan_suffix (sep : Char → Bool) (l acc : List Char) :
    extScan sep l acc <:+ l.reverse ++ acc := by
  induction l generalizing acc with
  | nil => simp [extScan]
  | cons c cs ih =>
    unfold extScan
    split
    · exact List.nil_suffix
    · split
      · simp
      · have := ih (c :: acc)
        simpa using this

/-- The extension of a path is an end of the path. -/
theorem Ext_suffix (env : Env) (src : String) : (filepath.Ext env src).data <:+ src.data := by
  have := extScan_suffix env.IsPathSeparator src.data.reverse []
  simpa [filepath.Ext] using this

/-- The name `NAME.xmp` is the source itself only for a source with the extension `.xmp`. -/
theorem name_eq_src (env : Env) (src : String)
    (h : strings.TrimSuffix src (filepath.Ext env src) ++ ".xmp" = src) :
    filepath.Ext env src = ".xmp" := by
  have hs := Ext_suffix env src
  obtain ⟨pre, hpre⟩ := hs
  unfold strings.TrimSuffix at h
  have hsuf : (filepath.Ext env src).data.isSuffixOf src.data = true := by
    rw [List.isSuffixOf_iff_suffix]; exact ⟨pre, hpre⟩
  rw [if_pos hsuf] at h
  have h1 := congrArg String.data h
  simp only [String.data_append] at h1
  rw [← hpre] at h1
  simp at h1
  apply String.ext
  exact h1.symm


/-- The name `NAME.EXT.xmp` is not the source. -/
theorem append_xmp_ne (src : String) : src ++ ".xmp" ≠ src := by
  intro h
  have h1 := congrArg (fun s => s.data.length) h
  simp at h1

/-- Trimming the empty suffix changes nothing. -/
theorem TrimSuffix_empty (s : String) : strings.TrimSuffix s "" = s := by
  have h : strings.TrimSuffix s "" = String.mk (s.data.take s.data.length) := by
    simp [strings.TrimSuffix]
  rw [h, List.take_length]

/-- C12 (amended): when the probe of `NAME.xmp` reports that it does not exist and the probe of
`NAME.EXT.xmp` finds the file, `destSidecar` returns `NAME.EXT.xmp` after these two probes,
whatever the file contains and whatever the source is: the content probe `dngHasEdits` is not
even run. And for a source whose extension is not `.xmp` (for which `NAME.xmp` is the source
itself), `destSidecar` returns the source with a nil error only if its extension is `.dng` up
to case, `dngHasEdits` reports true and neither `NAME.EXT.xmp` nor `NAME.xmp` exists. -/
theorem destSidecar_external_wins (env : Env) (src : String) (w : World) :
    (errorsIsNotExist
        ((os.ReadFile env (strings.TrimSuffix src (filepath.Ext env src) ++ ".xmp")).run w).1.2 = true →
      ((os.Stat env (src ++ ".xmp")).run w).1 = none →
      (destSidecar env src).run w = ((src ++ ".xmp", none), ⟨w.fs, w.log ++
        [.ReadFile (strings.TrimSuffix src (filepath.Ext env src) ++ ".xmp"),
         .Stat (src ++ ".xmp")]⟩)) ∧
    (((destSidecar env src).run w).1 = (src, none) → filepath.Ext env src ≠ ".xmp" →
      strings.EqualFold (filepath.Ext env src) ".dng" = true ∧
      ((dngHasEdits env src).run w).1 = true ∧
      w.fs (src ++ ".xmp") = none ∧
      w.fs (strings.TrimSuffix src (filepath.Ext env src) ++ ".xmp") = none) := by
  constructor
  · intro hname hfull
    obtain ⟨hf1, hw1⟩ := isNotExist_ReadFile hname
    have hext : filepath.Ext env src ≠ "" := by
      intro he
      rw [he, TrimSuffix_empty] at hw1
      simp only [run_eq, Stat_apply] at hfull
      cases hf : faultOf env (.Stat (src ++ ".xmp")) <;> simp [hf, hw1] at hfull
    simp only [run_eq, Stat_apply] at hfull
    unfold destSidecar
    cases hf : faultOf env (.Stat (src ++ ".xmp")) with
    | some e => simp [hf] at hfull
    | none =>
      cases hw : w.fs (src ++ ".xmp") with
      | none => simp [hf, hw] at hfull
      | some d =>
        simp [hext, hf1, hw1, hf, hw, errorsIsNotExist, Error.isNotExist, ENOENT]
  · intro h hx
    have hname := mt (name_eq_src env src) hx
    have hE : filepath.Ext env "" = "" := rfl
    unfold destSidecar at h
    simp only [run_eq] at h
    have h0 : strings.EqualFold "" ".dng" = false := by decide
    by_cases hext : filepath.Ext env src = ""
    · rw [hext, TrimSuffix_empty] at hname
      exfalso
      simp only [hext, ne_eq, not_true_eq_false, ↓reduceIte, bind_apply, pure_apply, Stat_apply,
        h0, Bool.false_eq_true, TrimSuffix_empty] at h
      cases hf : faultOf env (.Stat (src ++ ".xmp")) with
      | some e =>
        simp [hf, errorsIsNotExist, faultOf_isNotExist hf] at h
      | none =>
        cases hw : w.fs (src ++ ".xmp") with
        | some d => simp [hf, hw, append_xmp_ne] at h
        | none => simp [hf, hw, errorsIsNotExist, Error.isNotExist, ENOENT, append_xmp_ne] at h
    · have hpe : Error.isNotExist (.PathError ENOENT) = true := rfl
      cases hf1 : faultOf env (.ReadFile (strings.TrimSuffix src (filepath.Ext env src) ++ ".xmp")) with
      | some e =>
        simp [hext, hf1, errorsIsNotExist, faultOf_isNotExist hf1] at h
      | none =>
        cases hw1 : w.fs (strings.TrimSuffix src (filepath.Ext env src) ++ ".xmp") with
        | some d =>
          exfalso
          by_cases hfor : env.IsSidecarForExt d (filepath.Ext env src) = true
          · simp [hext, hf1, hw1, hfor, hname] at h
          · simp [hext, hf1, hw1, hfor, errorsIsNotExist] at h
            rw [← h] at hext
            exact hext hE
        | none =>
          cases hf : faultOf env (.Stat (src ++ ".xmp")) with
          | some e =>
            simp [hext, hf1, hw1, hf, errorsIsNotExist, hpe, faultOf_isNotExist hf] at h
          | none =>
            cases hw : w.fs (src ++ ".xmp") with
            | some d =>
              simp [hext, hf1, hw1, hf, hw, errorsIsNotExist, hpe, append_xmp_ne] at h
            | none =>
              by_cases hfold : strings.EqualFold (filepath.Ext env src) ".dng" = true
              · by_cases hd : ((dngHasEdits env src).run w).1 = true
                · exact ⟨hfold, hd, rfl, rfl⟩
                · exfalso
                  simp only [run_eq, dngHasEdits_apply] at hd
                  simp [hext, hf1, hw1, hf, hw, errorsIsNotExist, hpe, hfold, hd, hname] at h
              · exfalso
                simp [hext, hf1, hw1, hf, hw, errorsIsNotExist, hpe, hfold, hname] at h

/-- C12, witness: `shot.dng` carries prior edits; next to the sidecar `shot.dng.xmp` the
destination is that sidecar, in a directory without sidecars it is `shot.dng` itself. -/
theorem destSidecar_external_wins_witness :
    ((dngHasEdits editedEnv "shot.dng").run ⟨sidecarFS, []⟩).1 = true ∧
    (destSidecar editedEnv "shot.dng").run ⟨sidecarFS, []⟩ = (("shot.dng" ++ ".xmp", none),
      ⟨sidecarFS, [] ++
        [.ReadFile (strings.TrimSuffix "shot.dng" (filepath.Ext editedEnv "shot.dng") ++ ".xmp"),
         .Stat ("shot.dng" ++ ".xmp")]⟩) ∧
    ((destSidecar editedEnv "shot.dng").run ⟨emptyFS, []⟩).1 = ("shot.dng", none) ∧
    (strings.EqualFold (filepath.Ext editedEnv "shot.dng") ".dng" = true ∧
      ((dngHasEdits editedEnv "shot.dng").run ⟨emptyFS, []⟩).1 = true ∧
      emptyFS ("shot.dng" ++ ".xmp") = none ∧
      emptyFS (strings.TrimSuffix "shot.dng" (filepath.Ext editedEnv "shot.dng") ++ ".xmp") = none) :=
  ⟨by decide,
   (destSidecar_external_wins editedEnv "shot.dng" ⟨sidecarFS, []⟩).1 (by decide) (by decide),
   by decide,
   (destSidecar_external_wins editedEnv "shot.dng" ⟨emptyFS, []⟩).2 (by decide) (by decide)⟩

/-- C12 as stated fails: for the source `shot.xmp`, whose extension is not `.dng`, in a
directory without that file, `destSidecar` falls back to `NAME.xmp`, which is the source
itself. -/
theorem destSidecar_returns_xmp_source :
    filepath.Ext demoEnv "shot.xmp" = ".xmp" ∧
    strings.EqualFold ".xmp" ".dng" = false ∧
    demoFS "shot.xmp" = none ∧
    ((destSidecar demoEnv "shot.xmp").run ⟨demoFS, []⟩).1 = ("shot.xmp", none) := by
  decide

/-! ## The long and the short edge -/

/-- The larger and the smaller of two positive `float64` do not depend on their order. -/
theorem max_min_comm {a b : float64} (ha : float64.lt (.fin 0) a = true)
    (hb : float64.lt (.fin 0) b = true) :
    float64.max a b = float64.max b a ∧ float64.min a b = float64.min b a := by
  unfold float64.max float64.min
  cases a with
  | nan => simp [float64.lt] at ha
  | inf s =>
    cases b with
    | nan => simp [float64.lt] at hb
    | inf t =>
      simp only [float64.lt, Bool.not_eq_true'] at ha hb
      subst ha; subst hb
      simp [float64.lt]
    | fin y =>
      simp only [float64.lt, Bool.not_eq_true'] at ha
      subst ha
      simp [float64.lt]
  | fin x =>
    cases b with
    | nan => simp [float64.lt] at hb
    | inf t =>
      simp only [float64.lt, Bool.not_eq_true'] at hb
      subst hb
      simp [float64.lt]
    | fin y =>
      simp only [float64.lt, decide_eq_true_eq]
      rcases lt_trichotomy x y with h | h | h
      · simp [h, not_lt.mpr h.le]
      · simp [h]
      · simp [h, not_lt.mpr h.le]

/-- The long/short-edge mode of `FitImage`, with the swap written out. -/
theorem dims_spec (convert : float64 → Int) (ex : exportSettings) (size : Point)
    (hfit : ex.Fit = "dims") :
    FitImage convert ex size =
      if size.X > size.Y then
        { X := FitImage.round convert (float64.mul (FitImage.mul ex)
            (if float64.lt (.fin 0) ex.Long ∧ float64.lt ex.Long ex.Short then ex.Short
             else ex.Long)),
          Y := FitImage.round convert (float64.mul (FitImage.mul ex)
            (if float64.lt (.fin 0) ex.Long ∧ float64.lt ex.Long ex.Short then ex.Long
             else ex.Short)) }
      else
        { X := FitImage.round convert (float64.mul (FitImage.mul ex)
            (if float64.lt (.fin 0) ex.Long ∧ float64.lt ex.Long ex.Short then ex.Long
             else ex.Short)),
          Y := FitImage.round convert (float64.mul (FitImage.mul ex)
            (if float64.lt (.fin 0) ex.Long ∧ float64.lt ex.Long ex.Short then ex.Short
             else ex.Long)) } := by
  have hm : ex.Fit ≠ "mpix" := by rw [hfit]; decide
  rw [FitImage_literal convert ex size hm]
  unfold FitImage.targets
  by_cases hs : float64.lt (.fin 0) ex.Long = true ∧ float64.lt ex.Long ex.Short = true <;>
    by_cases hxy : size.X > size.Y <;>
    simp only [hfit, hs, hxy, and_self, ↓reduceIte]

/-- C13 (amended): in long/short-edge mode (`Fit = "dims"`), for every source size, every unit
setting and whatever the implementation makes of a conversion that is out of range. For
positive values `a` and `b`, `FitImage` with `(Long = a, Short = b)` returns what it returns
with `(Long = b, Short = a)`: the larger of the two values is the target of the larger axis of
the source (of axis Y for a square source), the smaller the target of the other axis. Whenever
`0 < a` and `a < b` do not both hold (`a` zero, negative or not a number, or `b` not above
`a`), the values are not swapped: `a` is the target of the larger axis and `b` of the other.
So, with a density in the range of `int`, `(Long = 0, Short = b)` leaves the larger axis
unconstrained and puts `b` on the other axis, and `(Long = a, Short = 0)` puts `a` on the
larger axis and leaves the other unconstrained. -/
theorem FitImage_dims_swap (convert : float64 → Int) (ex : exportSettings) (size : Point)
    (a b : float64) (hfit : ex.Fit = "dims") :
    (float64.lt (.fin 0) a = true → float64.lt (.fin 0) b = true →
      FitImage convert { ex with Long := a, Short := b } size =
        FitImage convert { ex with Long := b, Short := a } size ∧
      FitImage convert { ex with Long := a, Short := b } size =
        if size.X > size.Y then
          { X := FitImage.round convert (float64.mul (FitImage.mul ex) (float64.max a b)),
            Y := FitImage.round convert (float64.mul (FitImage.mul ex) (float64.min a b)) }
        else
          { X := FitImage.round convert (float64.mul (FitImage.mul ex) (float64.min a b)),
            Y := FitImage.round convert (float64.mul (FitImage.mul ex) (float64.max a b)) }) ∧
    (¬ (float64.lt (.fin 0) a = true ∧ float64.lt a b = true) →
      FitImage convert { ex with Long := a, Short := b } size =
        if size.X > size.Y then
          { X := FitImage.round convert (float64.mul (FitImage.mul ex) a),
            Y := FitImage.round convert (float64.mul (FitImage.mul ex) b) }
        else
          { X := FitImage.round convert (float64.mul (FitImage.mul ex) b),
            Y := FitImage.round convert (float64.mul (FitImage.mul ex) a) }) ∧
    (MinInt ≤ ex.Density → ex.Density ≤ MaxInt →
      (FitImage convert { ex with Long := .fin 0, Short := b } size =
        if size.X > size.Y then
          { X := MaxInt,
            Y := FitImage.round convert (float64.mul (FitImage.mul ex) b) }
        else
          { X := FitImage.round convert (float64.mul (FitImage.mul ex) b),
            Y := MaxInt }) ∧
      (FitImage convert { ex with Long := a, Short := .fin 0 } size =
        if size.X > size.Y then
          { X := FitImage.round convert (float64.mul (FitImage.mul ex) a),
            Y := MaxInt }
        else
          { X := MaxInt,
            Y := FitImage.round convert (float64.mul (FitImage.mul ex) a) })) := by
  have hmul : ∀ a b, FitImage.mul { ex with Long := a, Short := b } = FitImage.mul ex :=
    fun _ _ => rfl
  have key : ∀ a b : float64, float64.lt (.fin 0) a = true → float64.lt (.fin 0) b = true →
      FitImage convert { ex with Long := a, Short := b } size =
        if size.X > size.Y then
          { X := FitImage.round convert (float64.mul (FitImage.mul ex) (float64.max a b)),
            Y := FitImage.round convert (float64.mul (FitImage.mul ex) (float64.min a b)) }
        else
          { X := FitImage.round convert (float64.mul (FitImage.mul ex) (float64.min a b)),
            Y := FitImage.round convert (float64.mul (FitImage.mul ex) (float64.max a b)) } := by
    intro a b ha _
    rw [dims_spec convert { ex with Long := a, Short := b } size hfit]
    simp only [hmul, ha, true_and, float64.max, float64.min]
  have noswap : ∀ a b : float64, ¬ (float64.lt (.fin 0) a = true ∧ float64.lt a b = true) →
      FitImage convert { ex with Long := a, Short := b } size =
        if size.X > size.Y then
          { X := FitImage.round convert (float64.mul (FitImage.mul ex) a),
            Y := FitImage.round convert (float64.mul (FitImage.mul ex) b) }
        else
          { X := FitImage.round convert (float64.mul (FitImage.mul ex) b),
            Y := FitImage.round convert (float64.mul (FitImage.mul ex) a) } := by
    intro a b ha
    rw [dims_spec convert { ex with Long := a, Short := b } size hfit]
    simp only [hmul, ha, ↓reduceIte]
  refine ⟨fun ha hb => ⟨?_, key a b ha hb⟩, noswap a b, ?_⟩
  · rw [key a b ha hb, key b a hb ha, (max_min_comm ha hb).1, (max_min_comm ha hb).2]
  · intro hlo hhi
    obtain ⟨k, hk⟩ := mul_finite ex hlo hhi
    have h0 : float64.mul (FitImage.mul ex) (.fin 0) = .fin 0 := by
      rw [hk]; simp only [float64.mul, mul_zero, round_zero]
    refine ⟨?_, ?_⟩
    · rw [noswap (.fin 0) b (by simp [float64.lt]), h0, round_fin_zero]
    · have hns : ¬ (float64.lt (.fin 0) a = true ∧ float64.lt a (.fin 0) = true) := by
        cases a with
        | nan => simp [float64.lt]
        | inf s => cases s <;> simp [float64.lt]
        | fin x =>
          simp only [float64.lt, decide_eq_true_eq, not_and, not_lt]
          exact fun h => h.le
      rw [noswap a (.fin 0) hns, h0, round_fin_zero]

/-- C13, witness: a long edge of 100 and a short edge of 200 give what a long edge of 200 and a
short edge of 100 give. -/
theorem FitImage_dims_swap_witness :
    FitImage (fun _ => 0) { edgeSettings with Long := .fin 100, Short := .fin 200 } ⟨4000, 3000⟩ =
        FitImage (fun _ => 0) { edgeSettings with Long := .fin 200, Short := .fin 100 }
          ⟨4000, 3000⟩ ∧
      FitImage (fun _ => 0) { edgeSettings with Long := .fin 100, Short := .fin 200 }
          ⟨4000, 3000⟩ =
        if (4000 : Int) > 3000 then
          { X := FitImage.round (fun _ => 0)
              (float64.mul (FitImage.mul edgeSettings) (float64.max (.fin 100) (.fin 200))),
            Y := FitImage.round (fun _ => 0)
              (float64.mul (FitImage.mul edgeSettings) (float64.min (.fin 100) (.fin 200))) }
        else
          { X := FitImage.round (fun _ => 0)
              (float64.mul (FitImage.mul edgeSettings) (float64.min (.fin 100) (.fin 200))),
            Y := FitImage.round (fun _ => 0)
              (float64.mul (FitImage.mul edgeSettings) (float64.max (.fin 100) (.fin 200))) } :=
  (FitImage_dims_swap (fun _ => 0) edgeSettings ⟨4000, 3000⟩ (.fin 100) (.fin 200) rfl).1
    (by simp [float64.lt]) (by simp [float64.lt])

/-- A long or a short edge of zero next to an edge of 100 pixels, on a 4000 x 3000 source. -/
theorem dims_zero (convert : float64 → Int) :
    FitImage convert { Fit := "dims", DimUnit := "px", Long := .fin 0, Short := .fin 100 }
      ⟨4000, 3000⟩ = ⟨MaxInt, 100⟩ ∧
    FitImage convert { Fit := "dims", DimUnit := "px", Long := .fin 100, Short := .fin 0 }
      ⟨4000, 3000⟩ = ⟨100, MaxInt⟩ := by
  have h100 : FitImage.round convert (float64.round (1 * 100)) = 100 := by
    have h := round_100
    push_cast at h
    rw [one_mul, h]
    exact_mod_cast round_of_int convert 100 round_100 (by norm_num) (by norm_num)
  have h0 : FitImage.round convert (float64.round (1 * 0)) = MaxInt := by
    rw [mul_zero, round_zero, round_fin_zero]
  constructor
  · rw [dims_spec convert _ _ rfl]
    show (if (4000 : Int) > 3000 then
        ({ X := FitImage.round convert (float64.round (1 * 0)),
           Y := FitImage.round convert (float64.round (1 * 100)) } : Point)
      else _) = _
    rw [if_pos (by norm_num), h0, h100]
  · rw [dims_spec convert _ _ rfl]
    show (if (4000 : Int) > 3000 then
        ({ X := FitImage.round convert (float64.round (1 * 100)),
           Y := FitImage.round convert (float64.round (1 * 0)) } : Point)
      else _) = _
    rw [if_pos (by norm_num), h0, h100]

/-- C13 as stated fails: a `Long` of zero is not swapped. With `Long = 0` and `Short = 100`
the larger axis of a 4000 x 3000 source is unconstrained and the smaller is 100; with
`Long = 100` and `Short = 0` the larger axis is 100 and the smaller is unconstrained. -/
theorem FitImage_dims_zero_long :
    (∀ convert : float64 → Int,
      FitImage convert { Fit := "dims", DimUnit := "px", Long := .fin 0, Short := .fin 100 }
        ⟨4000, 3000⟩ = ⟨MaxInt, 100⟩) ∧
    (∀ convert : float64 → Int,
      FitImage convert { Fit := "dims", DimUnit := "px", Long := .fin 100, Short := .fin 0 }
        ⟨4000, 3000⟩ = ⟨100, MaxInt⟩) :=
  ⟨fun convert => (dims_zero convert).1, fun convert => (dims_zero convert).2⟩

end RethinkRAW
